import Mathlib

/-!
# Verification of the code-weaver multi-language transpiler core

This file is a shallow embedding, in Lean 4, of the transpiler core of the
repository: the four front-end lexers/parsers (scripting "PY", C, CPP and JV
languages), the four back-end emitters, and the orchestrator
(`Transpiler.transpile`), translated definition-by-definition from the
TypeScript sources.

Modelling conventions:

* TypeScript classes with mutable cursor state (`this.pos`, `this.indent`)
  become pure functions in state-passing style; the token cursor becomes the
  list of not-yet-consumed tokens (the source code only ever advances `pos`).
* Unbounded recursion/loops in the source take an explicit `fuel : Nat`
  argument; fuel exhaustion models a JavaScript stack overflow or hang and is
  reported as an exceptional outcome.  All concrete runs used by theorems stay
  far below the supplied fuel.
* JavaScript exceptions (e.g. a `TypeError` from reading a property of
  `null`) are modelled with `Except JSErr`.
* JavaScript numbers are modelled by `JNum`: integer-valued numbers exactly,
  other decimal numerals by their normalized decimal text (exact for the
  simple decimal literals that occur in the common subset; no claim below
  depends on float arithmetic).
* JavaScript string/array idioms (`includes`, `slice`, `replace`, regexes in
  the lexers) are modelled by hand-written equivalents on `List Char`,
  mirroring the exact semantics used (leftmost, non-overlapping, single pass
  for `replace(/…/g)`, greedy character-class munching for the lexer
  regexes).
-/

set_option maxHeartbeats 3200000
set_option maxRecDepth 4000

/-! ## JavaScript-semantics helpers -/

/-- JavaScript whitespace class `\s` (the ASCII part, which is all the
sources ever meet). -/
def isJsSpace (c : Char) : Bool :=
  c == ' ' || c == '\t' || c == '\n' || c == '\r' || c == '\x0b' || c == '\x0c'

/-- `[A-Za-z_]`, the leading character of a word token. -/
def isWordStart (c : Char) : Bool :=
  c.isAlpha || c == '_'

/-- `[A-Za-z0-9_]`, a continuation character of a word token. -/
def isWordChar (c : Char) : Bool :=
  isWordStart c || c.isDigit

/-- Does `l` start with `pat`? -/
def listStartsWith : List Char → List Char → Bool
  | _, [] => true
  | [], _ :: _ => false
  | c :: cs, p :: ps => c == p && listStartsWith cs ps

/-- Does `l` contain `pat` as a contiguous substring? -/
def listContainsSub (pat : List Char) : List Char → Bool
  | [] => listStartsWith [] pat
  | c :: cs => listStartsWith (c :: cs) pat || listContainsSub pat cs

/-- JavaScript `String.prototype.includes`. -/
def jsIncludes (s pat : String) : Bool :=
  listContainsSub pat.data s.data

/-- JavaScript `String.prototype.startsWith`. -/
def jsStartsWith (s pat : String) : Bool :=
  listStartsWith s.data pat.data

/-- JavaScript `String.prototype.endsWith`. -/
def jsEndsWith (s pat : String) : Bool :=
  listStartsWith s.data.reverse pat.data.reverse

/-- JavaScript `String.prototype.trim` (ASCII whitespace). -/
def jsTrim (s : String) : String :=
  ⟨((s.data.dropWhile isJsSpace).reverse.dropWhile isJsSpace).reverse⟩

/-- JavaScript `String.prototype.trimStart`. -/
def jsTrimStart (s : String) : String :=
  ⟨s.data.dropWhile isJsSpace⟩

/-- JavaScript `String.prototype.trimEnd`. -/
def jsTrimEnd (s : String) : String :=
  ⟨(s.data.reverse.dropWhile isJsSpace).reverse⟩

/-- JavaScript `String.prototype.repeat`. -/
def jsRepeat (s : String) : Nat → String
  | 0 => ""
  | n + 1 => s ++ jsRepeat s n

/-- JavaScript `Array.prototype.join`. -/
def jsJoin (sep : String) (l : List String) : String :=
  String.intercalate sep l

/-- JavaScript `s.split(sep)` for a single-character separator. -/
def splitOnCharAux (sep : Char) : List Char → List Char → List String
  | [], acc => [⟨acc.reverse⟩]
  | c :: rest, acc =>
    if c == sep then (⟨acc.reverse⟩ : String) :: splitOnCharAux sep rest []
    else splitOnCharAux sep rest (c :: acc)

/-- JavaScript `s.split(sep)` on strings (single-character separator). -/
def splitOnChar (sep : Char) (s : String) : List String :=
  splitOnCharAux sep s.data []

/-- JavaScript `s.slice(1, -1)` — drop the first and last character. -/
def sliceDropEnds (s : String) : String :=
  ⟨(s.data.drop 1).dropLast⟩

/-- JavaScript `s.slice(2, -1)` — drop the first two and the last character
(used for `f"…"` literals). -/
def sliceDrop2Ends (s : String) : String :=
  ⟨(s.data.drop 2).dropLast⟩

/-- One non-overlapping left-to-right pass replacing `pat` (nonempty) by
`rep`: the semantics of JavaScript `replace(new RegExp(pat, 'g'), rep)` for a
literal pattern.  Fuel is the length of the scanned list. -/
def replaceAllAux (pat rep : List Char) : Nat → List Char → List Char
  | 0, l => l
  | _, [] => []
  | fuel + 1, c :: cs =>
    if listStartsWith (c :: cs) pat && pat.length != 0 then
      rep ++ replaceAllAux pat rep fuel (List.drop (pat.length - 1) cs)
    else
      c :: replaceAllAux pat rep fuel cs

/-- JavaScript `s.replace(/pat/g, rep)` for a literal (regex-free) pattern. -/
def jsReplaceAll (s pat rep : String) : String :=
  ⟨replaceAllAux pat.data rep.data s.data.length s.data⟩

/-- JavaScript `s.replace(pat, rep)` — first occurrence only. -/
def replaceFirstAux (pat rep : List Char) : List Char → List Char
  | [] => []
  | c :: cs =>
    if listStartsWith (c :: cs) pat && pat.length != 0 then
      rep ++ List.drop (pat.length - 1) cs
    else
      c :: replaceFirstAux pat rep cs

/-- JavaScript `s.replace('pat', 'rep')` (string pattern: first occurrence). -/
def jsReplaceFirst (s pat rep : String) : String :=
  ⟨replaceFirstAux pat.data rep.data s.data⟩

/-- One left-to-right pass removing every (non-overlapping) occurrence of the
two-character sequence `\n` (backslash, `n`): the exact semantics of the
sources' `replace(/\\n/g, '')`. -/
def stripNL : List Char → List Char
  | '\\' :: 'n' :: rest => stripNL rest
  | c :: rest => c :: stripNL rest
  | [] => []

/-- `replace(/\\n/g, '')` on strings. -/
def stripNLStr (s : String) : String :=
  ⟨stripNL s.data⟩

/-- `replace(/\\n$/, '')` — remove one trailing `\n` escape sequence. -/
def stripTrailingNL (s : String) : String :=
  if jsEndsWith s "\\n" then ⟨s.data.dropLast.dropLast⟩ else s

/-- Numeric value of a list of decimal digit characters. -/
def digitsVal (l : List Char) : Nat :=
  l.foldl (fun acc c => acc * 10 + (c.toNat - '0'.toNat)) 0

/-- A JavaScript number, as far as the transpiler observes one: an exact
integer, a non-integral decimal (kept as its normalized decimal text, which
is what `String(x)` prints for the simple literals of the common subset), or
`NaN`. -/
inductive JNum where
  | int (n : Int)
  | dec (s : String)
  | nan
deriving Repr, DecidableEq

/-- JavaScript `parseInt` restricted to the shapes produced by the lexers:
the value of the leading run of decimal digits, `NaN` if there is none. -/
def jsParseInt (s : String) : JNum :=
  let ds := s.data.takeWhile Char.isDigit
  if ds.isEmpty then .nan else .int (digitsVal ds)

/-- JavaScript `parseFloat` restricted to decimal numerals `digits[.digits]`:
an integer when the fractional part is empty or all zeros, otherwise the
normalized decimal text (trailing zeros stripped). -/
def jsParseFloat (s : String) : JNum :=
  let intPart := s.data.takeWhile Char.isDigit
  let rest := s.data.dropWhile Char.isDigit
  if intPart.isEmpty then .nan
  else
    match rest with
    | '.' :: tl =>
      let frac := (tl.takeWhile Char.isDigit).reverse.dropWhile (· == '0') |>.reverse
      if frac.isEmpty then .int (digitsVal intPart)
      else .dec (toString (digitsVal intPart) ++ "." ++ ⟨frac⟩)
    | _ => .int (digitsVal intPart)

/-- JavaScript `String(n)` on a number. -/
def JNum.toStr : JNum → String
  | .int n => toString n
  | .dec s => s
  | .nan => "NaN"

/-- JavaScript number truthiness (`0` and `NaN` are falsy). -/
def JNum.truthy : JNum → Bool
  | .int n => n != 0
  | .dec _ => true
  | .nan => false

/-! ## The IR (`ir.ts`) -/

/-- `DataType` — the closed set of data-type tags. -/
inductive DataType where
  | int | float | double | string | bool | void | char | auto
deriving Repr, DecidableEq

/-- The concrete value carried by a `Literal` node
(`string | number | boolean` in the source). -/
inductive LitVal where
  | str (s : String)
  | num (n : JNum)
  | bool (b : Bool)
deriving Repr, DecidableEq

/-- JavaScript `String(value)` on a literal value. -/
def LitVal.toStr : LitVal → String
  | .str s => s
  | .num n => n.toStr
  | .bool b => if b then "true" else "false"

/-- JavaScript truthiness of a literal value. -/
def LitVal.truthy : LitVal → Bool
  | .str s => s != ""
  | .num n => n.truthy
  | .bool b => b

/-- The IR node tree (`ir.ts`).  Naming: constructor names follow the source
node kinds, with `Decl`/`Stmt` suffixes where the bare word is a Lean
keyword; `ctor` is the source's `constructor` field, which every parser sets
explicitly in its object literal (to `undefined` when no constructor was
parsed), so an `Option` models the own property exactly.  `mainMethod` and
`staticMethods` are the non-schema fields attached by the JV front-end
(`(node as any).mainMethod` / `.staticMethods`); parsers that never set them
leave them `none`.  `isFString` is the extra flag the PY parser puts on
string literals; other parsers leave it `false` (absent).  `switchCase` nodes
appear only inside a `switchStmt`'s case list, modelling the
`{value, body}` records. -/
inductive IRNode where
  | varDecl (name : String) (dataType : DataType) (value : Option IRNode)
      (isConst : Bool)
  | assignment (target : String) (value : IRNode)
  | funcDecl (name : String) (params : List IRNode) (returnType : DataType)
      (body : List IRNode)
  | classDecl (name : String) (members : List IRNode) (methods : List IRNode)
      (ctor : Option IRNode) (mainMethod : Option IRNode)
      (staticMethods : Option (List IRNode))
  | ifStmt (condition : IRNode) (thenBranch : List IRNode)
      (elseBranch : Option (List IRNode)) (elseIf : Option IRNode)
  | forStmt (init condition update : Option IRNode) (iterator : Option String)
      (rangeStart rangeEnd rangeStep : Option IRNode) (body : List IRNode)
  | whileStmt (condition : IRNode) (body : List IRNode)
  | switchStmt (expression : IRNode) (cases : List IRNode)
      (defaultBody : Option (List IRNode))
  | switchCase (value : IRNode) (body : List IRNode)
  | breakStmt
  | returnStmt (value : Option IRNode)
  | print (args : List IRNode) (newline : Bool)
  | input (prompt : Option String) (targetVar : Option String)
      (targetType : Option DataType)
  | call (callee : String) (args : List IRNode) (isMethod : Bool)
      (object : Option String)
  | binaryOp (operator : String) (left right : IRNode)
  | unaryOp (operator : String) (operand : IRNode)
  | literal (value : LitVal) (dataType : DataType) (isFString : Bool)
  | identifier (name : String)
  | comment (text : String) (isMultiline : Bool)
deriving Repr

/-- `IRProgram` — body plus verbatim import/include directives. -/
structure IRProgram where
  body : List IRNode
  imports : List String
deriving Repr

/-- Type guard `isIRClass` (`node.type === 'class'`). -/
def IRNode.isClass : IRNode → Bool
  | .classDecl .. => true
  | _ => false

/-- Type guard `isIRFunction`. -/
def IRNode.isFunction : IRNode → Bool
  | .funcDecl .. => true
  | _ => false

/-- Type guard `isIRVariable`. -/
def IRNode.isVariable : IRNode → Bool
  | .varDecl .. => true
  | _ => false

/-! ## Exceptional outcomes and tokens -/

/-- A JavaScript exception observed by the orchestrator: a genuine thrown
`TypeError`, or resource exhaustion (stack overflow / non-termination, which
is what running out of fuel models). -/
inductive JSErr where
  | typeError (msg : String)
  | stackOverflow
deriving Repr, DecidableEq

/-- JavaScript `${error}` string interpolation of an exception. -/
def JSErr.toStr : JSErr → String
  | .typeError msg => "TypeError: " ++ msg
  | .stackOverflow => "RangeError: Maximum call stack size exceeded"

/-- A lexer token of the C/CPP/JV front-ends (`{type, value}`). -/
structure Tok where
  ttype : String
  value : String
deriving Repr, DecidableEq

/-- A lexer token of the PY front-end, which additionally carries
`line`, `column` and the line's `indent`. -/
structure PyTok where
  ttype : String
  value : String
  line : Nat
  column : Nat
  indent : Nat
deriving Repr, DecidableEq

/-! ## Shared token-cursor helpers

The three brace-language parsers share `peek`/`advance`/`match`/`consume`
verbatim; the cursor is the list of unconsumed tokens (the sources only ever
increment `pos`). -/

/-- `this.match(type)` — does the current token have this type? -/
def tokMatch (ts : List Tok) (ty : String) : Bool :=
  match ts with
  | [] => false
  | t :: _ => t.ttype == ty

/-- `this.match(type, value)`. -/
def tokMatchV (ts : List Tok) (ty v : String) : Bool :=
  match ts with
  | [] => false
  | t :: _ => t.ttype == ty && t.value == v

/-- `this.consume(type, value)` — advance on match, else stay. -/
def tokConsumeV (ts : List Tok) (ty v : String) : Option Tok × List Tok :=
  match ts with
  | [] => (none, ts)
  | t :: rest => if t.ttype == ty && t.value == v then (some t, rest) else (none, ts)

/-- `this.consume(type)` — advance on a type-only match. -/
def tokConsume (ts : List Tok) (ty : String) : Option Tok × List Tok :=
  match ts with
  | [] => (none, ts)
  | t :: rest => if t.ttype == ty then (some t, rest) else (none, ts)

/-- Exceptional-result monad for parser/emitter runs. -/
abbrev PRes (α : Type) := Except JSErr α

/-- The `TypeError` raised by reading `.type` off `this.peek()!` when the
cursor is past the end (`null.type`). -/
def nullTypeErr : JSErr := .typeError "Cannot read properties of null (reading 'type')"

namespace CParser

/-! ### `c-parser.ts` — lexer -/

/-- The C reserved-word list. -/
def keywords : List String :=
  ["int", "float", "double", "char", "void", "if", "else", "for",
   "while", "return", "struct", "typedef", "const", "static",
   "printf", "scanf", "sizeof", "NULL", "true", "false"]

/-- The multi-character operator table
`== != <= >= && || << >> ++ -- -> += -= *= /=` (all two characters). -/
def opTable : List String :=
  ["==", "!=", "<=", ">=", "&&", "||", "<<", ">>", "++", "--", "->",
   "+=", "-=", "*=", "/="]

/-- Match a multi-character operator at the head of the input. -/
def opMunch : List Char → Option (String × List Char)
  | a :: b :: rest =>
    let two : String := ⟨[a, b]⟩
    if opTable.contains two then some (two, rest) else none
  | _ => none

/-- Scan the inside of a `"…"` literal: the accumulated content characters
and the remainder after the closing quote.  Mirrors the source loop, which
keeps `\`-escapes verbatim and, in this front-end, appends the text
`undefined` when a lone backslash sits at end-of-input (the unguarded
`str += code[i++]`). -/
def stringScan : List Char → List Char × List Char
  | [] => ([], [])
  | '"' :: rest => ([], rest)
  | '\\' :: [] => ('\\' :: "undefined".data, [])
  | '\\' :: d :: rest =>
    let (s, r) := stringScan rest
    ('\\' :: d :: s, r)
  | c :: rest =>
    let (s, r) := stringScan rest
    (c :: s, r)

/-- Scan the inside of a `'…'` literal (same loop with the other quote). -/
def charScan : List Char → List Char × List Char
  | [] => ([], [])
  | '\'' :: rest => ([], rest)
  | '\\' :: [] => ('\\' :: "undefined".data, [])
  | '\\' :: d :: rest =>
    let (s, r) := charScan rest
    ('\\' :: d :: s, r)
  | c :: rest =>
    let (s, r) := charScan rest
    (c :: s, r)

/-- Scan a `/* … */` comment body: content up to (exclusive) the closing
`*/`, then the remainder; an unterminated comment stops one character short
of the end, exactly as the `i < length - 1` bound does. -/
def multiCommentScan : List Char → List Char × List Char
  | a :: b :: rest =>
    if a == '*' && b == '/' then ([], rest)
    else
      let (s, r) := multiCommentScan (b :: rest)
      (a :: s, r)
  | _ => ([], [])

/-- Match `/^\d+\.?\d*[fFlL]?/` at the head of the input. -/
def numMunch (l : List Char) : Option (List Char × List Char) :=
  match l with
  | c :: _ =>
    if c.isDigit then
      let d1 := l.takeWhile Char.isDigit
      let r1 := l.dropWhile Char.isDigit
      let hasDot : Bool := r1.head? == some '.'
      let dot : List Char := if hasDot then ['.'] else []
      let r2 := if hasDot then r1.tail else r1
      let d2 := r2.takeWhile Char.isDigit
      let r3 := r2.dropWhile Char.isDigit
      let isSuf : Bool :=
        match r3.head? with
        | some s => s == 'f' || s == 'F' || s == 'l' || s == 'L'
        | none => false
      let suf := if isSuf then r3.take 1 else []
      let r4 := if isSuf then r3.tail else r3
      some (d1 ++ dot ++ d2 ++ suf, r4)
    else none
  | [] => none

/-- Match `/^[a-zA-Z_][a-zA-Z0-9_]*/` at the head of the input. -/
def wordMunch (l : List Char) : Option (List Char × List Char) :=
  match l with
  | c :: _ =>
    if isWordStart c then some (l.takeWhile isWordChar, l.dropWhile isWordChar)
    else none
  | [] => none

/-- `tokenize`, one source character class per branch, in source order;
every iteration consumes at least one character, so fuel `length + 1` always
suffices. -/
def tokenizeAux : Nat → List Char → List Tok
  | 0, _ => []
  | _, [] => []
  | fuel + 1, c :: cs =>
    if isJsSpace c then tokenizeAux fuel cs
    else if c == '#' then
      let line := (c :: cs).takeWhile (· != '\n')
      let rest := (c :: cs).dropWhile (· != '\n')
      ⟨"PREPROCESSOR", ⟨line⟩⟩ :: tokenizeAux fuel rest
    else if listStartsWith (c :: cs) ['/', '/'] then
      let body := (cs.drop 1).takeWhile (· != '\n')
      let rest := (cs.drop 1).dropWhile (· != '\n')
      ⟨"COMMENT", ⟨body⟩⟩ :: tokenizeAux fuel rest
    else if listStartsWith (c :: cs) ['/', '*'] then
      let (body, rest) := multiCommentScan (cs.drop 1)
      ⟨"MULTILINE_COMMENT", ⟨body⟩⟩ :: tokenizeAux fuel rest
    else if c == '"' then
      let (body, rest) := stringScan cs
      ⟨"STRING", "\"" ++ ⟨body⟩ ++ "\""⟩ :: tokenizeAux fuel rest
    else if c == '\'' then
      let (body, rest) := charScan cs
      ⟨"CHAR", "\'" ++ ⟨body⟩ ++ "\'"⟩ :: tokenizeAux fuel rest
    else
      match numMunch (c :: cs) with
      | some (num, rest) => ⟨"NUMBER", ⟨num⟩⟩ :: tokenizeAux fuel rest
      | none =>
        match wordMunch (c :: cs) with
        | some (word, rest) =>
          let w : String := ⟨word⟩
          ⟨if keywords.contains w then "KEYWORD" else "IDENTIFIER", w⟩ ::
            tokenizeAux fuel rest
        | none =>
          match opMunch (c :: cs) with
          | some (op, rest) => ⟨"OPERATOR", op⟩ :: tokenizeAux fuel rest
          | none => ⟨"PUNCTUATION", c.toString⟩ :: tokenizeAux fuel cs

/-- `CParser.tokenize`. -/
def tokenize (code : String) : List Tok :=
  tokenizeAux (code.data.length + 1) code.data

/-! ### `c-parser.ts` — parser -/

/-- `isType` — the C type-keyword test. -/
def isType (t : Tok) : Bool :=
  t.ttype == "KEYWORD" &&
    ["int", "float", "double", "char", "void", "const", "static"].contains t.value

/-- `this.isType(this.peek()!)` — throws a `TypeError` at end-of-tokens. -/
def isTypeBang : List Tok → PRes Bool
  | [] => .error nullTypeErr
  | t :: _ => .ok (isType t)

/-- `mapCType`. -/
def mapCType (ty : String) : DataType :=
  if ty == "int" then .int
  else if ty == "float" then .float
  else if ty == "double" then .double
  else if ty == "char" then .char
  else if ty == "void" then .void
  else if ty == "bool" then .bool
  else .int

/-- `generateSimpleExpr` (used to render an array-index expression). -/
def generateSimpleExpr : IRNode → String
  | .literal v _ _ => v.toStr
  | .identifier n => n
  | _ => "0"

/-- `parsePrintfFormat` — split a format string into literal/`%x` directive
parts, handling `%%` and keeping a bare `%` before a non-directive. -/
def parsePrintfFormatAux : List Char → String → List (String × Bool)
  | [], current => if current != "" then [(current, false)] else []
  | '%' :: d :: rest, current =>
    if ['d', 's', 'f', 'c', 'i', 'x', 'X', 'o', 'u', 'e', 'E', 'g', 'G', 'p'].contains d then
      (if current != "" then [(current, false)] else []) ++
        [("%" ++ d.toString, true)] ++ parsePrintfFormatAux rest ""
    else if d == '%' then parsePrintfFormatAux rest (current ++ "%")
    else parsePrintfFormatAux (d :: rest) (current ++ "%")
  | c :: rest, current => parsePrintfFormatAux rest (current ++ c.toString)

/-- `parsePrintfFormat`. -/
def parsePrintfFormat (format : String) : List (String × Bool) :=
  parsePrintfFormatAux format.data ""

/-- The argument-interleaving loop of `parsePrintf` (lines building `args`
from `parts` and `formatArgs`): literal runs are accumulated, cleaned of
`\n` escapes and pushed when nonempty; each directive consumes the next
value argument when one remains. -/
def buildPrintfArgs : List (String × Bool) → List IRNode → String → List IRNode
  | [], fargs, current =>
    let _ := fargs
    if current != "" then
      let clean := stripNLStr current
      if clean != "" then [.literal (.str clean) .string false] else []
    else []
  | (text, isFmt) :: rest, fargs, current =>
    if isFmt then
      let pushed :=
        if current != "" then
          let clean := stripNLStr current
          if clean != "" then [IRNode.literal (.str clean) .string false] else []
        else []
      match fargs with
      | [] => pushed ++ buildPrintfArgs rest [] ""
      | a :: fa => pushed ++ [a] ++ buildPrintfArgs rest fa ""
    else buildPrintfArgs rest fargs (current ++ text)

/-- The range-extraction block at the end of `parseFor` (iterator/start from
a declaration `init`, end from a `<`/`<=` comparison with `+1` for `<=`,
step from `++`/`--`/`+=`/`-=`). -/
def extractRange (init condition update : Option IRNode) :
    Option String × Option IRNode × Option IRNode × Option IRNode :=
  let (iterator, rangeStart) :=
    match init with
    | some (.varDecl name _ value _) => (some name, value)
    | _ => (none, none)
  let rangeEnd :=
    match condition with
    | some (.binaryOp op _ right) =>
      if op == "<" then some right
      else if op == "<=" then
        some (.binaryOp "+" right (.literal (.num (.int 1)) .int false))
      else none
    | _ => none
  let rangeStep :=
    match update with
    | some (.unaryOp op _) =>
      if op == "++" || op == "++_post" then
        some (IRNode.literal (.num (.int 1)) .int false)
      else if op == "--" || op == "--_post" then
        some (IRNode.literal (.num (.int (-1))) .int false)
      else none
    | some (.binaryOp op _ right) =>
      if op == "+=" then some right
      else if op == "-=" then some (.unaryOp "-" right)
      else none
    | _ => none
  (iterator, rangeStart, rangeEnd, rangeStep)

mutual

/-- `parseTopLevel`. -/
def parseTopLevel : Nat → List Tok → PRes (Option IRNode × List Tok)
  | 0, _ => .error .stackOverflow
  | fuel + 1, ts =>
    if tokMatch ts "COMMENT" then
      match ts with
      | t :: rest => .ok (some (.comment (jsTrim t.value) false), rest)
      | [] => .ok (none, ts)
    else if tokMatch ts "MULTILINE_COMMENT" then
      match ts with
      | t :: rest => .ok (some (.comment (jsTrim t.value) true), rest)
      | [] => .ok (none, ts)
    else
      match ts with
      | [] => .ok (none, ts)
      | t :: rest =>
        if isType t then parseFunctionOrVariable fuel ts
        else .ok (none, rest)

/-- `parseFunctionOrVariable`. -/
def parseFunctionOrVariable : Nat → List Tok → PRes (Option IRNode × List Tok)
  | 0, _ => .error .stackOverflow
  | fuel + 1, ts => do
    let ts ← skipConstStatic fuel ts
    match ts with
    | [] => .ok (none, ts)
    | typeToken :: ts => do
      let dataType := mapCType typeToken.value
      let (star, ts) := tokConsumeV ts "PUNCTUATION" "*"
      let _ := star
      let (nameToken, ts) := tokConsume ts "IDENTIFIER"
      match nameToken with
      | none => .ok (none, ts)
      | some nameToken =>
        if tokMatchV ts "PUNCTUATION" "(" then do
          let (f, ts) ← parseFunctionDef fuel nameToken.value dataType ts
          .ok (some f, ts)
        else do
          let (v, ts) ← parseVariableDecl fuel (some (nameToken.value, dataType)) ts
          .ok (some v, ts)

/-- The modifier-skipping loops (`while match const/static advance`). -/
def skipConstStatic : Nat → List Tok → PRes (List Tok)
  | 0, _ => .error .stackOverflow
  | fuel + 1, ts =>
    if tokMatchV ts "KEYWORD" "const" || tokMatchV ts "KEYWORD" "static" then
      skipConstStatic fuel (ts.drop 1)
    else .ok ts

/-- `parseFunctionDef`. -/
def parseFunctionDef : Nat → String → DataType → List Tok → PRes (IRNode × List Tok)
  | 0, _, _, _ => .error .stackOverflow
  | fuel + 1, name, returnType, ts => do
    let (_, ts) := tokConsumeV ts "PUNCTUATION" "("
    let (params, ts) ← parseParams fuel ts
    let (_, ts) := tokConsumeV ts "PUNCTUATION" ")"
    let (body, ts) ← parseBlock fuel ts
    .ok (.funcDecl name params returnType body, ts)

/-- `parseParams` (one iteration of the parameter loop per fuel unit). -/
def parseParams : Nat → List Tok → PRes (List IRNode × List Tok)
  | 0, _ => .error .stackOverflow
  | fuel + 1, ts =>
    if tokMatchV ts "PUNCTUATION" ")" then .ok ([], ts)
    else
      match ts with
      | [] => .ok ([], ts)
      | typeToken :: ts => do
        let dataType := mapCType typeToken.value
        let (star, ts) := tokConsumeV ts "PUNCTUATION" "*"
        let dataType := if star.isSome && dataType == .char then DataType.string else dataType
        let (nameToken, ts) := tokConsume ts "IDENTIFIER"
        match nameToken with
        | none =>
          let (comma, ts) := tokConsumeV ts "PUNCTUATION" ","
          if comma.isSome then parseParams fuel ts else .ok ([], ts)
        | some nameToken => do
          let (dataType, ts) ←
            if tokMatchV ts "PUNCTUATION" "[" then do
              let ts ← skipToRBracket fuel ts
              let (_, ts) := tokConsumeV ts "PUNCTUATION" "]"
              pure ((if dataType == DataType.char then DataType.string else dataType), ts)
            else pure (dataType, ts)
          let p := IRNode.varDecl nameToken.value dataType none false
          let (comma, ts) := tokConsumeV ts "PUNCTUATION" ","
          if comma.isSome then do
            let (rest, ts) ← parseParams fuel ts
            .ok (p :: rest, ts)
          else .ok ([p], ts)

/-- The `while (!match(']') && pos < length) advance` skip loop. -/
def skipToRBracket : Nat → List Tok → PRes (List Tok)
  | 0, _ => .error .stackOverflow
  | fuel + 1, ts =>
    if tokMatchV ts "PUNCTUATION" "]" || ts.isEmpty then .ok ts
    else skipToRBracket fuel (ts.drop 1)

/-- `parseBlock`. -/
def parseBlock : Nat → List Tok → PRes (List IRNode × List Tok)
  | 0, _ => .error .stackOverflow
  | fuel + 1, ts => do
    let (brace, ts) := tokConsumeV ts "PUNCTUATION" "\x7b"
    if brace.isNone then do
      let (stmt, ts) ← parseStatement fuel ts
      .ok (stmt.toList, ts)
    else do
      let (stmts, ts) ← parseBlockLoop fuel ts
      let (_, ts) := tokConsumeV ts "PUNCTUATION" "\x7d"
      .ok (stmts, ts)

/-- The statement loop of `parseBlock`. -/
def parseBlockLoop : Nat → List Tok → PRes (List IRNode × List Tok)
  | 0, _ => .error .stackOverflow
  | fuel + 1, ts =>
    if !tokMatchV ts "PUNCTUATION" "\x7d" && !ts.isEmpty then do
      let (stmt, ts) ← parseStatement fuel ts
      let (rest, ts) ← parseBlockLoop fuel ts
      .ok (stmt.toList ++ rest, ts)
    else .ok ([], ts)

/-- `parseStatement`.  The final type check reads
`this.isType(this.peek()!)` and therefore throws at end-of-tokens. -/
def parseStatement : Nat → List Tok → PRes (Option IRNode × List Tok)
  | 0, _ => .error .stackOverflow
  | fuel + 1, ts =>
    if tokMatch ts "COMMENT" then
      match ts with
      | t :: rest => .ok (some (.comment (jsTrim t.value) false), rest)
      | [] => .ok (none, ts)
    else if tokMatch ts "MULTILINE_COMMENT" then
      match ts with
      | t :: rest => .ok (some (.comment (jsTrim t.value) true), rest)
      | [] => .ok (none, ts)
    else if tokMatchV ts "KEYWORD" "if" then do
      let (n, ts) ← parseIf fuel ts
      .ok (some n, ts)
    else if tokMatchV ts "KEYWORD" "for" then do
      let (n, ts) ← parseFor fuel ts
      .ok (some n, ts)
    else if tokMatchV ts "KEYWORD" "while" then do
      let (n, ts) ← parseWhile fuel ts
      .ok (some n, ts)
    else if tokMatchV ts "KEYWORD" "return" then do
      let (n, ts) ← parseReturn fuel ts
      .ok (some n, ts)
    else if tokMatchV ts "KEYWORD" "printf" then do
      let (n, ts) ← parsePrintf fuel ts
      .ok (some n, ts)
    else if tokMatchV ts "KEYWORD" "scanf" then do
      let (n, ts) ← parseScanf fuel ts
      .ok (some n, ts)
    else do
      let isTy ← isTypeBang ts
      if isTy then do
        let (n, ts) ← parseVariableDecl fuel none ts
        .ok (some n, ts)
      else do
        let (expr, ts) ← parseExpression fuel ts
        let (_, ts) := tokConsumeV ts "PUNCTUATION" ";"
        .ok (some expr, ts)

/-- `parseIf`. -/
def parseIf : Nat → List Tok → PRes (IRNode × List Tok)
  | 0, _ => .error .stackOverflow
  | fuel + 1, ts => do
    let (_, ts) := tokConsumeV ts "KEYWORD" "if"
    let (_, ts) := tokConsumeV ts "PUNCTUATION" "("
    let (condition, ts) ← parseExpression fuel ts
    let (_, ts) := tokConsumeV ts "PUNCTUATION" ")"
    let (thenBranch, ts) ← parseBlock fuel ts
    if tokMatchV ts "KEYWORD" "else" then
      let ts := ts.drop 1
      if tokMatchV ts "KEYWORD" "if" then do
        let (elseIf, ts) ← parseIf fuel ts
        .ok (.ifStmt condition thenBranch none (some elseIf), ts)
      else do
        let (elseBranch, ts) ← parseBlock fuel ts
        .ok (.ifStmt condition thenBranch (some elseBranch) none, ts)
    else
      .ok (.ifStmt condition thenBranch none none, ts)

/-- `parseFor` — structural triple plus the classic-counted-loop range
extraction; note the init branch also reads `this.isType(this.peek()!)`. -/
def parseFor : Nat → List Tok → PRes (IRNode × List Tok)
  | 0, _ => .error .stackOverflow
  | fuel + 1, ts => do
    let (_, ts) := tokConsumeV ts "KEYWORD" "for"
    let (_, ts) := tokConsumeV ts "PUNCTUATION" "("
    let (init, ts) ←
      if !tokMatchV ts "PUNCTUATION" ";" then do
        let isTy ← isTypeBang ts
        if isTy then do
          let (v, ts) ← parseVariableDecl fuel none ts
          pure (some v, ts)
        else do
          let (e, ts) ← parseExpression fuel ts
          let (_, ts) := tokConsumeV ts "PUNCTUATION" ";"
          pure (some e, ts)
      else pure (none, ts.drop 1)
    let (condition, ts) ←
      if !tokMatchV ts "PUNCTUATION" ";" then do
        let (e, ts) ← parseExpression fuel ts
        pure (some e, ts)
      else pure (none, ts)
    let (_, ts) := tokConsumeV ts "PUNCTUATION" ";"
    let (update, ts) ←
      if !tokMatchV ts "PUNCTUATION" ")" then do
        let (e, ts) ← parseExpression fuel ts
        pure (some e, ts)
      else pure (none, ts)
    let (_, ts) := tokConsumeV ts "PUNCTUATION" ")"
    let (body, ts) ← parseBlock fuel ts
    let (iterator, rangeStart, rangeEnd, rangeStep) := extractRange init condition update
    .ok (.forStmt init condition update iterator rangeStart rangeEnd rangeStep body, ts)

/-- `parseWhile`. -/
def parseWhile : Nat → List Tok → PRes (IRNode × List Tok)
  | 0, _ => .error .stackOverflow
  | fuel + 1, ts => do
    let (_, ts) := tokConsumeV ts "KEYWORD" "while"
    let (_, ts) := tokConsumeV ts "PUNCTUATION" "("
    let (condition, ts) ← parseExpression fuel ts
    let (_, ts) := tokConsumeV ts "PUNCTUATION" ")"
    let (body, ts) ← parseBlock fuel ts
    .ok (.whileStmt condition body, ts)

/-- `parseReturn`. -/
def parseReturn : Nat → List Tok → PRes (IRNode × List Tok)
  | 0, _ => .error .stackOverflow
  | fuel + 1, ts => do
    let (_, ts) := tokConsumeV ts "KEYWORD" "return"
    if tokMatchV ts "PUNCTUATION" ";" then
      .ok (.returnStmt none, ts.drop 1)
    else do
      let (value, ts) ← parseExpression fuel ts
      let (_, ts) := tokConsumeV ts "PUNCTUATION" ";"
      .ok (.returnStmt (some value), ts)

/-- `parsePrintf` — format-string decomposition into interleaved literal
segments and value arguments; `newline` is set iff the raw format contains a
`\n` escape. -/
def parsePrintf : Nat → List Tok → PRes (IRNode × List Tok)
  | 0, _ => .error .stackOverflow
  | fuel + 1, ts => do
    let (_, ts) := tokConsumeV ts "KEYWORD" "printf"
    let (_, ts) := tokConsumeV ts "PUNCTUATION" "("
    let (args, hasNewline, ts) ←
      if tokMatch ts "STRING" then
        match ts with
        | formatTok :: ts => do
          let formatString := sliceDropEnds formatTok.value
          let hasNewline := jsIncludes formatString "\\n"
          let parts := parsePrintfFormat formatString
          let (formatArgs, ts) ← printfArgLoop fuel ts
          pure (buildPrintfArgs parts formatArgs "", hasNewline, ts)
        | [] => pure ([], false, ts)
      else pure ([], false, ts)
    let (_, ts) := tokConsumeV ts "PUNCTUATION" ")"
    let (_, ts) := tokConsumeV ts "PUNCTUATION" ";"
    let args :=
      if args.length > 0 then args else [IRNode.literal (.str "") .string false]
    .ok (.print args hasNewline, ts)

/-- The `while (match(','))` value-argument loop of `parsePrintf`. -/
def printfArgLoop : Nat → List Tok → PRes (List IRNode × List Tok)
  | 0, _ => .error .stackOverflow
  | fuel + 1, ts =>
    if tokMatchV ts "PUNCTUATION" "," then do
      let (e, ts) ← parseExpression fuel (ts.drop 1)
      let (rest, ts) ← printfArgLoop fuel ts
      .ok (e :: rest, ts)
    else .ok ([], ts)

/-- `parseScanf`. -/
def parseScanf : Nat → List Tok → PRes (IRNode × List Tok)
  | 0, _ => .error .stackOverflow
  | fuel + 1, ts => do
    let _ := fuel
    let (_, ts) := tokConsumeV ts "KEYWORD" "scanf"
    let (_, ts) := tokConsumeV ts "PUNCTUATION" "("
    let (targetType, ts) :=
      match ts with
      | t :: rest =>
        if t.ttype == "STRING" then
          (if jsIncludes t.value "%d" || jsIncludes t.value "%i" then DataType.int
           else if jsIncludes t.value "%f" then DataType.float
           else DataType.string, rest)
        else (DataType.string, ts)
      | [] => (DataType.string, ts)
    let (targetVar, ts) :=
      if tokMatchV ts "PUNCTUATION" "," then
        let ts := ts.drop 1
        let (_, ts) := tokConsumeV ts "PUNCTUATION" "&"
        let (varToken, ts) := tokConsume ts "IDENTIFIER"
        (varToken.map Tok.value, ts)
      else (none, ts)
    let (_, ts) := tokConsumeV ts "PUNCTUATION" ")"
    let (_, ts) := tokConsumeV ts "PUNCTUATION" ";"
    .ok (.input none targetVar (some targetType), ts)

/-- `parseVariableDecl` — `some (name, type)` when the caller already
consumed them, `none` for the fresh-declaration mode. -/
def parseVariableDecl : Nat → Option (String × DataType) → List Tok → PRes (IRNode × List Tok)
  | 0, _, _ => .error .stackOverflow
  | fuel + 1, nameAndType, ts => do
    let (name, dataType, ts) ←
      match nameAndType with
      | some (n, d) => pure (n, d, ts)
      | none => do
        let ts ← skipConstStatic fuel ts
        match ts with
        | [] => pure ("unknown", mapCType "int", ts)
        | typeToken :: ts =>
          let dataType := mapCType typeToken.value
          let (star, ts) := tokConsumeV ts "PUNCTUATION" "*"
          let dataType := if star.isSome && dataType == DataType.char then DataType.string else dataType
          let (nameToken, ts) := tokConsume ts "IDENTIFIER"
          pure (match nameToken with | some t => t.value | none => "unknown", dataType, ts)
    let (dataType, ts) ←
      if tokMatchV ts "PUNCTUATION" "[" then do
        let ts ← skipToRBracket fuel (ts.drop 1)
        let (_, ts) := tokConsumeV ts "PUNCTUATION" "]"
        pure ((if dataType == DataType.char then DataType.string else dataType), ts)
      else pure (dataType, ts)
    let (value, ts) ←
      if tokMatchV ts "PUNCTUATION" "=" then do
        let (e, ts) ← parseExpression fuel (ts.drop 1)
        pure (some e, ts)
      else pure (none, ts)
    let (_, ts) := tokConsumeV ts "PUNCTUATION" ";"
    .ok (.varDecl name dataType value false, ts)

/-- `parseExpression`. -/
def parseExpression : Nat → List Tok → PRes (IRNode × List Tok)
  | 0, _ => .error .stackOverflow
  | fuel + 1, ts => parseAssignment fuel ts

/-- `parseAssignment` — tries `= += -= *= /=` in that order (plain `=` is a
PUNCTUATION token, the others OPERATOR tokens). -/
def parseAssignment : Nat → List Tok → PRes (IRNode × List Tok)
  | 0, _ => .error .stackOverflow
  | fuel + 1, ts => do
    let (left, ts) ← parseOr fuel ts
    let found :=
      ["=", "+=", "-=", "*=", "/="].find? fun op =>
        tokMatchV ts "OPERATOR" op || (op == "=" && tokMatchV ts "PUNCTUATION" "=")
    match found with
    | some op => do
      let (right, ts) ← parseAssignment fuel (ts.drop 1)
      .ok (.binaryOp op left right, ts)
    | none => .ok (left, ts)

/-- `parseOr`. -/
def parseOr : Nat → List Tok → PRes (IRNode × List Tok)
  | 0, _ => .error .stackOverflow
  | fuel + 1, ts => do
    let (left, ts) ← parseAnd fuel ts
    parseOrLoop fuel left ts

/-- The `||` accumulation loop. -/
def parseOrLoop : Nat → IRNode → List Tok → PRes (IRNode × List Tok)
  | 0, _, _ => .error .stackOverflow
  | fuel + 1, left, ts =>
    if tokMatchV ts "OPERATOR" "||" then do
      let (right, ts) ← parseAnd fuel (ts.drop 1)
      parseOrLoop fuel (.binaryOp "||" left right) ts
    else .ok (left, ts)

/-- `parseAnd`. -/
def parseAnd : Nat → List Tok → PRes (IRNode × List Tok)
  | 0, _ => .error .stackOverflow
  | fuel + 1, ts => do
    let (left, ts) ← parseEquality fuel ts
    parseAndLoop fuel left ts

/-- The `&&` accumulation loop. -/
def parseAndLoop : Nat → IRNode → List Tok → PRes (IRNode × List Tok)
  | 0, _, _ => .error .stackOverflow
  | fuel + 1, left, ts =>
    if tokMatchV ts "OPERATOR" "&&" then do
      let (right, ts) ← parseEquality fuel (ts.drop 1)
      parseAndLoop fuel (.binaryOp "&&" left right) ts
    else .ok (left, ts)

/-- `parseEquality`. -/
def parseEquality : Nat → List Tok → PRes (IRNode × List Tok)
  | 0, _ => .error .stackOverflow
  | fuel + 1, ts => do
    let (left, ts) ← parseComparison fuel ts
    parseEqualityLoop fuel left ts

/-- The `== !=` accumulation loop. -/
def parseEqualityLoop : Nat → IRNode → List Tok → PRes (IRNode × List Tok)
  | 0, _, _ => .error .stackOverflow
  | fuel + 1, left, ts =>
    if tokMatchV ts "OPERATOR" "==" || tokMatchV ts "OPERATOR" "!=" then
      match ts with
      | op :: ts => do
        let (right, ts) ← parseComparison fuel ts
        parseEqualityLoop fuel (.binaryOp op.value left right) ts
      | [] => .ok (left, ts)
    else .ok (left, ts)

/-- `parseComparison`. -/
def parseComparison : Nat → List Tok → PRes (IRNode × List Tok)
  | 0, _ => .error .stackOverflow
  | fuel + 1, ts => do
    let (left, ts) ← parseAddSub fuel ts
    parseComparisonLoop fuel left ts

/-- The `< > <= >=` accumulation loop (`<`/`>` arrive as PUNCTUATION,
`<=`/`>=` as OPERATOR tokens). -/
def parseComparisonLoop : Nat → IRNode → List Tok → PRes (IRNode × List Tok)
  | 0, _, _ => .error .stackOverflow
  | fuel + 1, left, ts =>
    if tokMatchV ts "OPERATOR" "<" || tokMatchV ts "OPERATOR" ">" ||
        tokMatchV ts "OPERATOR" "<=" || tokMatchV ts "OPERATOR" ">=" ||
        tokMatchV ts "PUNCTUATION" "<" || tokMatchV ts "PUNCTUATION" ">" then
      match ts with
      | op :: ts => do
        let (right, ts) ← parseAddSub fuel ts
        parseComparisonLoop fuel (.binaryOp op.value left right) ts
      | [] => .ok (left, ts)
    else .ok (left, ts)

/-- `parseAddSub`. -/
def parseAddSub : Nat → List Tok → PRes (IRNode × List Tok)
  | 0, _ => .error .stackOverflow
  | fuel + 1, ts => do
    let (left, ts) ← parseMulDiv fuel ts
    parseAddSubLoop fuel left ts

/-- The `+ -` accumulation loop. -/
def parseAddSubLoop : Nat → IRNode → List Tok → PRes (IRNode × List Tok)
  | 0, _, _ => .error .stackOverflow
  | fuel + 1, left, ts =>
    if tokMatchV ts "PUNCTUATION" "+" || tokMatchV ts "PUNCTUATION" "-" then
      match ts with
      | op :: ts => do
        let (right, ts) ← parseMulDiv fuel ts
        parseAddSubLoop fuel (.binaryOp op.value left right) ts
      | [] => .ok (left, ts)
    else .ok (left, ts)

/-- `parseMulDiv`. -/
def parseMulDiv : Nat → List Tok → PRes (IRNode × List Tok)
  | 0, _ => .error .stackOverflow
  | fuel + 1, ts => do
    let (left, ts) ← parseUnary fuel ts
    parseMulDivLoop fuel left ts

/-- The `* / %` accumulation loop. -/
def parseMulDivLoop : Nat → IRNode → List Tok → PRes (IRNode × List Tok)
  | 0, _, _ => .error .stackOverflow
  | fuel + 1, left, ts =>
    if tokMatchV ts "PUNCTUATION" "*" || tokMatchV ts "PUNCTUATION" "/" ||
        tokMatchV ts "PUNCTUATION" "%" then
      match ts with
      | op :: ts => do
        let (right, ts) ← parseUnary fuel ts
        parseMulDivLoop fuel (.binaryOp op.value left right) ts
      | [] => .ok (left, ts)
    else .ok (left, ts)

/-- `parseUnary` — prefix `! - +` (punctuation) and `++ --` (operators). -/
def parseUnary : Nat → List Tok → PRes (IRNode × List Tok)
  | 0, _ => .error .stackOverflow
  | fuel + 1, ts =>
    if tokMatchV ts "PUNCTUATION" "!" || tokMatchV ts "PUNCTUATION" "-" ||
        tokMatchV ts "PUNCTUATION" "+" then
      match ts with
      | op :: ts => do
        let (operand, ts) ← parseUnary fuel ts
        .ok (.unaryOp op.value operand, ts)
      | [] => parsePostfixExpr fuel ts
    else if tokMatchV ts "OPERATOR" "++" || tokMatchV ts "OPERATOR" "--" then
      match ts with
      | op :: ts => do
        let (operand, ts) ← parsePostfixExpr fuel ts
        .ok (.unaryOp op.value operand, ts)
      | [] => parsePostfixExpr fuel ts
    else parsePostfixExpr fuel ts

/-- `parsePostfix` — postfix `++`/`--` accumulation. -/
def parsePostfixExpr : Nat → List Tok → PRes (IRNode × List Tok)
  | 0, _ => .error .stackOverflow
  | fuel + 1, ts => do
    let (expr, ts) ← parsePrimary fuel ts
    parsePostfixLoop fuel expr ts

/-- The postfix accumulation loop. -/
def parsePostfixLoop : Nat → IRNode → List Tok → PRes (IRNode × List Tok)
  | 0, _, _ => .error .stackOverflow
  | fuel + 1, expr, ts =>
    if tokMatchV ts "OPERATOR" "++" then
      parsePostfixLoop fuel (.unaryOp "++_post" expr) (ts.drop 1)
    else if tokMatchV ts "OPERATOR" "--" then
      parsePostfixLoop fuel (.unaryOp "--_post" expr) (ts.drop 1)
    else .ok (expr, ts)

/-- `parsePrimary`. -/
def parsePrimary : Nat → List Tok → PRes (IRNode × List Tok)
  | 0, _ => .error .stackOverflow
  | fuel + 1, ts =>
    if tokMatchV ts "PUNCTUATION" "(" then do
      let (expr, ts) ← parseExpression fuel (ts.drop 1)
      let (_, ts) := tokConsumeV ts "PUNCTUATION" ")"
      .ok (expr, ts)
    else if tokMatch ts "NUMBER" then
      match ts with
      | t :: ts =>
        if jsIncludes t.value "." then
          .ok (.literal (.num (jsParseFloat t.value)) .float false, ts)
        else
          .ok (.literal (.num (jsParseInt t.value)) .int false, ts)
      | [] => .ok (.literal (.num (.int 0)) .int false, ts)
    else if tokMatch ts "STRING" then
      match ts with
      | t :: ts => .ok (.literal (.str (sliceDropEnds t.value)) .string false, ts)
      | [] => .ok (.literal (.num (.int 0)) .int false, ts)
    else if tokMatch ts "CHAR" then
      match ts with
      | t :: ts => .ok (.literal (.str (sliceDropEnds t.value)) .char false, ts)
      | [] => .ok (.literal (.num (.int 0)) .int false, ts)
    else if tokMatchV ts "KEYWORD" "true" then
      .ok (.literal (.bool true) .bool false, ts.drop 1)
    else if tokMatchV ts "KEYWORD" "false" then
      .ok (.literal (.bool false) .bool false, ts.drop 1)
    else if tokMatchV ts "KEYWORD" "NULL" then
      .ok (.literal (.str "null") .void false, ts.drop 1)
    else if tokMatch ts "IDENTIFIER" then
      match ts with
      | t :: ts =>
        if tokMatchV ts "PUNCTUATION" "(" then do
          let (args, ts) ← parseCallArgs fuel (ts.drop 1)
          let (_, ts) := tokConsumeV ts "PUNCTUATION" ")"
          .ok (.call t.value args false none, ts)
        else if tokMatchV ts "PUNCTUATION" "[" then do
          let (index, ts) ← parseExpression fuel (ts.drop 1)
          let (_, ts) := tokConsumeV ts "PUNCTUATION" "]"
          .ok (.identifier (t.value ++ "[" ++ generateSimpleExpr index ++ "]"), ts)
        else
          .ok (.identifier t.value, ts)
      | [] => .ok (.literal (.num (.int 0)) .int false, ts)
    else
      .ok (.literal (.num (.int 0)) .int false, ts)

/-- The call-argument loop
(`while (!match(')')) { push(parseExpression()); if (!consume(',')) break }`). -/
def parseCallArgs : Nat → List Tok → PRes (List IRNode × List Tok)
  | 0, _ => .error .stackOverflow
  | fuel + 1, ts =>
    if tokMatchV ts "PUNCTUATION" ")" then .ok ([], ts)
    else do
      let (e, ts) ← parseExpression fuel ts
      let (comma, ts) := tokConsumeV ts "PUNCTUATION" ","
      if comma.isSome then do
        let (rest, ts) ← parseCallArgs fuel ts
        .ok (e :: rest, ts)
      else .ok ([e], ts)

end

/-- The top-level parse loop over tokens (preprocessor directives feed the
imports list, everything else goes through `parseTopLevel`). -/
def parseLoop : Nat → List Tok → PRes (List IRNode × List String)
  | 0, _ => .error .stackOverflow
  | fuel + 1, ts =>
    match ts with
    | [] => .ok ([], [])
    | t :: rest =>
      if t.ttype == "PREPROCESSOR" then do
        let (body, imports) ← parseLoop fuel rest
        .ok (body, (if jsIncludes t.value "include" then [t.value] else []) ++ imports)
      else do
        let (node, ts) ← parseTopLevel fuel (t :: rest)
        let (body, imports) ← parseLoop fuel ts
        .ok (node.toList ++ body, imports)

/-- `CParser.parse`.  This front-end has no `try`/`catch`: an exception
escapes to the orchestrator.  The fuel bound is generous for every run in
this file; exhausting it models the engine's stack/heap limits. -/
def parse (code : String) : PRes IRProgram := do
  let ts := tokenize code
  let (body, imports) ← parseLoop (code.data.length * 20 + 1000) ts
  .ok ⟨body, imports⟩

end CParser

namespace PythonParser

/-! ### `python-parser.ts` — lexer -/

/-- The PY reserved-word list. -/
def keywords : List String :=
  ["def", "class", "if", "elif", "else", "for", "while", "return",
   "print", "input", "in", "range", "True", "False", "None", "and",
   "or", "not", "self", "int", "float", "str", "bool"]

/-- The two-character alternatives of the operator regex, tried first. -/
def twoCharOps : List String :=
  ["==", "!=", "<=", ">=", "<<", ">>", "+=", "-=", "*=", "/=", "->", "::"]

/-- The single-character operator class `[+\-*/%<>=!&|^~]`. -/
def oneCharOps : List Char :=
  ['+', '-', '*', '/', '%', '<', '>', '=', '!', '&', '|', '^', '~']

/-- The punctuation class `[()[\]{},;:.]`. -/
def punctChars : List Char :=
  ['(', ')', '[', ']', '\x7b', '\x7d', ',', ';', ':', '.']

/-- Lazy string-literal body after an opening quote `q`: shortest run of
escape pairs (`\\.`) or single non-quote non-backslash characters up to the
closing quote; `none` when unterminated on this line. -/
def stringBody (q : Char) : List Char → Option (List Char × List Char)
  | [] => none
  | '\\' :: [] => none
  | '\\' :: d :: rest =>
    match stringBody q rest with
    | some (s, r) => some ('\\' :: d :: s, r)
    | none => none
  | c :: rest =>
    if c == q then some ([], rest)
    else
      match stringBody q rest with
      | some (s, r) => some (c :: s, r)
      | none => none

/-- Match `^(["'])((?:\\.|(?!\1)[^\\])*?)\1` — a regular string literal. -/
def stringMunch (l : List Char) : Option (List Char × List Char) :=
  match l with
  | q :: rest =>
    if q == '"' || q == '\'' then
      match stringBody q rest with
      | some (s, r) => some (q :: s ++ [q], r)
      | none => none
    else none
  | [] => none

/-- Match the f-string form `^f(["'])…\1`. -/
def fStringMunch (l : List Char) : Option (List Char × List Char) :=
  match l with
  | 'f' :: q :: rest =>
    if q == '"' || q == '\'' then
      match stringBody q rest with
      | some (s, r) => some ('f' :: q :: s ++ [q], r)
      | none => none
    else none
  | _ => none

/-- Shortest prefix of `l` up to (and including) a closing triple quote. -/
def tripleBody (q : Char) : List Char → Option (List Char × List Char)
  | a :: b :: c :: rest =>
    if a == q && b == q && c == q then some ([], rest)
    else
      match tripleBody q (b :: c :: rest) with
      | some (s, r) => some (a :: s, r)
      | none => none
  | _ => none

/-- Match `^(f?"""[\s\S]*?"""|f?'''[\s\S]*?''')` (kept for fidelity; the
regular-string branch always fires first on any input this one could
match). -/
def tripleMunch (l : List Char) : Option (List Char × List Char) :=
  let core : List Char → Option (List Char × List Char) := fun l =>
    match l with
    | a :: b :: c :: rest =>
      if (a == '"' && b == '"' && c == '"') || (a == '\'' && b == '\'' && c == '\'') then
        match tripleBody a rest with
        | some (s, r) => some (a :: a :: a :: s ++ [a, a, a], r)
        | none => none
      else none
    | _ => none
  match l with
  | 'f' :: rest =>
    (match core rest with
     | some (s, r) => some ('f' :: s, r)
     | none => core l)
  | _ => core l

/-- Match `/^\d+\.?\d*/`. -/
def numMunch (l : List Char) : Option (List Char × List Char) :=
  match l with
  | c :: _ =>
    if c.isDigit then
      let d1 := l.takeWhile Char.isDigit
      let r1 := l.dropWhile Char.isDigit
      match r1 with
      | '.' :: tl => some (d1 ++ '.' :: tl.takeWhile Char.isDigit, tl.dropWhile Char.isDigit)
      | _ => some (d1, r1)
    else none
  | [] => none

/-- Match the operator regex (two-character alternatives first, then the
single-character class). -/
def opMunch : List Char → Option (String × List Char)
  | [] => none
  | [a] => if oneCharOps.contains a then some (a.toString, []) else none
  | a :: b :: rest =>
    let two : String := ⟨[a, b]⟩
    if twoCharOps.contains two then some (two, rest)
    else if oneCharOps.contains a then some (a.toString, b :: rest)
    else none

/-- One line's inner tokenizing loop; `col` tracks the source column,
unmatched bytes are silently skipped by the final `col++`.  Each step
advances by at least one column, so fuel `line length + 1` suffices. -/
def lineToks (lineNum indent : Nat) : Nat → Nat → List Char → List PyTok
  | 0, _, _ => []
  | _, _, [] => []
  | fuel + 1, col, c :: cs =>
    let remaining := c :: cs
    if isJsSpace c then
      let ws := remaining.takeWhile isJsSpace
      lineToks lineNum indent fuel (col + ws.length) (remaining.dropWhile isJsSpace)
    else if c == '#' then
      [⟨"COMMENT", ⟨remaining⟩, lineNum, col, indent⟩]
    else
      match fStringMunch remaining with
      | some (s, r) =>
        ⟨"STRING", ⟨s⟩, lineNum, col, indent⟩ :: lineToks lineNum indent fuel (col + s.length) r
      | none =>
      match stringMunch remaining with
      | some (s, r) =>
        ⟨"STRING", ⟨s⟩, lineNum, col, indent⟩ :: lineToks lineNum indent fuel (col + s.length) r
      | none =>
      match tripleMunch remaining with
      | some (s, r) =>
        ⟨"STRING", ⟨s⟩, lineNum, col, indent⟩ :: lineToks lineNum indent fuel (col + s.length) r
      | none =>
      match numMunch remaining with
      | some (s, r) =>
        ⟨"NUMBER", ⟨s⟩, lineNum, col, indent⟩ :: lineToks lineNum indent fuel (col + s.length) r
      | none =>
      match CParser.wordMunch remaining with
      | some (s, r) =>
        let w : String := ⟨s⟩
        ⟨if keywords.contains w then "KEYWORD" else "IDENTIFIER", w, lineNum, col, indent⟩ ::
          lineToks lineNum indent fuel (col + s.length) r
      | none =>
      match opMunch remaining with
      | some (s, r) =>
        ⟨"OPERATOR", s, lineNum, col, indent⟩ :: lineToks lineNum indent fuel (col + s.data.length) r
      | none =>
      if punctChars.contains c then
        ⟨"PUNCTUATION", c.toString, lineNum, col, indent⟩ :: lineToks lineNum indent fuel (col + 1) cs
      else
        lineToks lineNum indent fuel (col + 1) cs

/-- The final `col` a line loop reaches (where the NEWLINE token's column is
recorded); it stops early only at a `#` comment. -/
def lineEndCol (lineNum indent : Nat) : Nat → Nat → List Char → Nat
  | 0, col, _ => col
  | _, col, [] => col
  | fuel + 1, col, c :: cs =>
    let remaining := c :: cs
    if isJsSpace c then
      let ws := remaining.takeWhile isJsSpace
      lineEndCol lineNum indent fuel (col + ws.length) (remaining.dropWhile isJsSpace)
    else if c == '#' then col
    else
      match fStringMunch remaining with
      | some (s, r) => lineEndCol lineNum indent fuel (col + s.length) r
      | none =>
      match stringMunch remaining with
      | some (s, r) => lineEndCol lineNum indent fuel (col + s.length) r
      | none =>
      match tripleMunch remaining with
      | some (s, r) => lineEndCol lineNum indent fuel (col + s.length) r
      | none =>
      match numMunch remaining with
      | some (s, r) => lineEndCol lineNum indent fuel (col + s.length) r
      | none =>
      match CParser.wordMunch remaining with
      | some (s, r) => lineEndCol lineNum indent fuel (col + s.length) r
      | none =>
      match opMunch remaining with
      | some (s, r) => lineEndCol lineNum indent fuel (col + s.data.length) r
      | none => lineEndCol lineNum indent fuel (col + 1) cs

/-- Tokenize one source line: nothing for a blank line, otherwise its tokens
followed by a NEWLINE token carrying the line's indent. -/
def tokenizeLine (lineNum : Nat) (line : String) : List PyTok :=
  let indent := (line.data.takeWhile isJsSpace).length
  if jsTrim line == "" then []
  else
    let fuel := line.data.length + 1
    let rest := line.data.drop indent
    lineToks lineNum indent fuel indent rest ++
      [⟨"NEWLINE", "\n", lineNum, lineEndCol lineNum indent fuel indent rest, indent⟩]

/-- `PythonParser.tokenize`. -/
def tokenize (code : String) : List PyTok :=
  ((splitOnChar '\n' code).enum.map fun (i, line) => tokenizeLine i line).flatten

/-! ### `python-parser.ts` — parser -/

/-- `this.match(type)`. -/
def pMatch (ts : List PyTok) (ty : String) : Bool :=
  match ts with
  | [] => false
  | t :: _ => t.ttype == ty

/-- `this.match(type, value)`. -/
def pMatchV (ts : List PyTok) (ty v : String) : Bool :=
  match ts with
  | [] => false
  | t :: _ => t.ttype == ty && t.value == v

/-- `this.consume(type)`. -/
def pConsume (ts : List PyTok) (ty : String) : Option PyTok × List PyTok :=
  match ts with
  | [] => (none, ts)
  | t :: rest => if t.ttype == ty then (some t, rest) else (none, ts)

/-- `this.consume(type, value)`. -/
def pConsumeV (ts : List PyTok) (ty v : String) : Option PyTok × List PyTok :=
  match ts with
  | [] => (none, ts)
  | t :: rest => if t.ttype == ty && t.value == v then (some t, rest) else (none, ts)

/-- `maxIterations` — the shared safety iteration bound. -/
def maxIterations : Nat := 10000

/-- `skipNewlines` (its own bounded loop: at most 100 NEWLINE tokens are
consumed, the source's `count < 100` cap counted down structurally). -/
def skipNewlinesAux : Nat → List PyTok → List PyTok
  | 0, ts => ts
  | left + 1, ts =>
    if pMatch ts "NEWLINE" then
      match ts with
      | _ :: rest => skipNewlinesAux left rest
      | [] => ts
    else ts

/-- `skipNewlines`. -/
def skipNewlines (ts : List PyTok) : List PyTok :=
  skipNewlinesAux 100 ts

/-- `inferType` — the PY front-end's local type inference. -/
def inferType : IRNode → DataType
  | .literal _ dt _ => dt
  | .binaryOp op left right =>
    let leftType := inferType left
    let rightType := inferType right
    if ["==", "!=", "<", ">", "<=", ">="].contains op then .bool
    else if leftType == .float || rightType == .float then .float
    else if leftType == .double || rightType == .double then .double
    else if leftType == .string || rightType == .string then .string
    else .int
  | .call callee _ _ _ =>
    if callee == "int" then .int
    else if callee == "float" then .float
    else if callee == "str" then .string
    else if callee == "input" then .string
    else .auto
  | _ => .auto

/-- `mapPythonType`. -/
def mapPythonType (ty : String) : DataType :=
  if ty == "int" then .int
  else if ty == "float" then .float
  else if ty == "str" then .string
  else if ty == "bool" then .bool
  else if ty == "None" then .void
  else .auto

/-- `detectImports`. -/
def detectImports (code : String) : List String :=
  ((splitOnChar '\n' code).filter fun line =>
    jsStartsWith (jsTrim line) "import " || jsStartsWith (jsTrim line) "from ").map jsTrim

mutual

/-- The top-level statement loop of `parse` (counts `iterations` against
`maxIterations` exactly as the source does; fuel only bounds recursion). -/
def progLoop : Nat → Nat → List PyTok → PRes (List IRNode)
  | 0, _, _ => .error .stackOverflow
  | fuel + 1, iterations, ts =>
    if !ts.isEmpty && iterations < maxIterations then do
      let (node, ts) ← parseStatement fuel 0 ts
      let rest ← progLoop fuel (iterations + 1) ts
      .ok (node.toList ++ rest)
    else .ok []
termination_by structural a _ _ => a

/-- `parseStatement`. -/
def parseStatement : Nat → Nat → List PyTok → PRes (Option IRNode × List PyTok)
  | 0, _, _ => .error .stackOverflow
  | fuel + 1, minIndent, ts =>
    let ts := skipNewlines ts
    match ts with
    | [] => .ok (none, ts)
    | token :: _ =>
      if token.indent < minIndent then .ok (none, ts)
      else if token.ttype == "COMMENT" then
        let ts := skipNewlines (ts.drop 1)
        .ok (some (.comment (jsTrim ⟨token.value.data.drop 1⟩) false), ts)
      else if pMatchV ts "KEYWORD" "def" then do
        let (f, ts) ← parseFunctionDef fuel ts
        .ok (some f, ts)
      else if pMatchV ts "KEYWORD" "class" then do
        let (c, ts) ← parseClassDef fuel ts
        .ok (some c, ts)
      else if pMatchV ts "KEYWORD" "if" then do
        let (n, ts) ← parseIf fuel ts
        .ok (some n, ts)
      else if pMatchV ts "KEYWORD" "for" then do
        let (n, ts) ← parseFor fuel ts
        .ok (some n, ts)
      else if pMatchV ts "KEYWORD" "while" then do
        let (n, ts) ← parseWhile fuel ts
        .ok (some n, ts)
      else if pMatchV ts "KEYWORD" "return" then do
        let (n, ts) ← parseReturn fuel ts
        .ok (some n, ts)
      else if pMatchV ts "KEYWORD" "print" then do
        let (n, ts) ← parsePrint fuel ts
        .ok (some n, ts)
      else if pMatchV ts "KEYWORD" "input" then do
        let (n, ts) ← parseInput fuel ts
        .ok (some n, ts)
      else do
        let (n, ts) ← parseAssignmentOrExpression fuel ts
        .ok (some n, ts)
termination_by structural a _ _ => a

/-- `parseFunctionDef` (return type inferred from the first `return`
statement of the body). -/
def parseFunctionDef : Nat → List PyTok → PRes (IRNode × List PyTok)
  | 0, _ => .error .stackOverflow
  | fuel + 1, ts => do
    let (defToken, ts) := pConsumeV ts "KEYWORD" "def"
    let functionIndent := (defToken.map PyTok.indent).getD 0
    let (nameToken, ts) := pConsume ts "IDENTIFIER"
    let name := (nameToken.map PyTok.value).getD "unknown"
    let (_, ts) := pConsumeV ts "PUNCTUATION" "("
    let (params, ts) ← parsePyParams fuel ts
    let (_, ts) := pConsumeV ts "PUNCTUATION" ")"
    let (_, ts) := pConsumeV ts "PUNCTUATION" ":"
    let ts := skipNewlines ts
    let (body, ts) ← parseBlock fuel functionIndent ts
    let returnType :=
      match body.find? fun stmt => match stmt with | .returnStmt _ => true | _ => false with
      | some (.returnStmt (some v)) => inferType v
      | _ => DataType.void
    .ok (.funcDecl name params returnType body, ts)
termination_by structural a _ => a

/-- `parseParams` — drops explicit `self`, reads optional `: type`
annotations. -/
def parsePyParams : Nat → List PyTok → PRes (List IRNode × List PyTok)
  | 0, _ => .error .stackOverflow
  | fuel + 1, ts =>
    if pMatchV ts "PUNCTUATION" ")" then .ok ([], ts)
    else if pMatchV ts "KEYWORD" "self" then do
      let ts := ts.drop 1
      let (_, ts) := pConsumeV ts "PUNCTUATION" ","
      parsePyParams fuel ts
    else do
      let (nameToken, ts) := pConsume ts "IDENTIFIER"
      match nameToken with
      | some nameToken => do
        let (dataType, ts) ←
          if pMatchV ts "PUNCTUATION" ":" then do
            let ts := ts.drop 1
            let (typeToken, ts) :=
              match pConsume ts "KEYWORD" with
              | (some t, ts) => (some t, ts)
              | (none, _) => pConsume ts "IDENTIFIER"
            pure (match typeToken with
                  | some t => mapPythonType t.value
                  | none => DataType.auto, ts)
          else pure (DataType.auto, ts)
        let p := IRNode.varDecl nameToken.value dataType none false
        let (comma, ts) := pConsumeV ts "PUNCTUATION" ","
        if comma.isSome then do
          let (rest, ts) ← parsePyParams fuel ts
          .ok (p :: rest, ts)
        else .ok ([p], ts)
      | none => do
        let (comma, ts) := pConsumeV ts "PUNCTUATION" ","
        if comma.isSome then parsePyParams fuel ts else .ok ([], ts)
termination_by structural a _ => a

/-- `parseBlock` — statements more indented than the parent. -/
def parseBlock : Nat → Nat → List PyTok → PRes (List IRNode × List PyTok)
  | 0, _, _ => .error .stackOverflow
  | fuel + 1, parentIndent, ts => parseBlockLoop fuel 0 parentIndent ts
termination_by structural a _ _ => a

/-- The statement loop of `parseBlock`. -/
def parseBlockLoop : Nat → Nat → Nat → List PyTok → PRes (List IRNode × List PyTok)
  | 0, _, _, _ => .error .stackOverflow
  | fuel + 1, iterations, parentIndent, ts =>
    if !ts.isEmpty && iterations < maxIterations then
      let ts := skipNewlines ts
      match ts with
      | [] => .ok ([], ts)
      | token :: _ =>
        if token.indent ≤ parentIndent then .ok ([], ts)
        else do
          let (stmt, ts) ← parseStatement fuel (parentIndent + 4) ts
          match stmt with
          | some stmt => do
            let (rest, ts) ← parseBlockLoop fuel (iterations + 1) parentIndent ts
            .ok (stmt :: rest, ts)
          | none => .ok ([], ts)
    else .ok ([], ts)
termination_by structural a _ _ _ => a

/-- `parseClassDef` — collects methods, designates `__init__` as the
constructor and promotes its `self.x = …` assignments to members. -/
def parseClassDef : Nat → List PyTok → PRes (IRNode × List PyTok)
  | 0, _ => .error .stackOverflow
  | fuel + 1, ts => do
    let (classToken, ts) := pConsumeV ts "KEYWORD" "class"
    let classIndent := (classToken.map PyTok.indent).getD 0
    let (nameToken, ts) := pConsume ts "IDENTIFIER"
    let name := (nameToken.map PyTok.value).getD "Unknown"
    let (_, ts) := pConsumeV ts "PUNCTUATION" ":"
    let ts := skipNewlines ts
    let (body, ts) ← parseBlock fuel classIndent ts
    let members := body.foldl (fun acc node =>
      match node with
      | .funcDecl fname _ _ fbody =>
        if fname == "__init__" then
          acc ++ fbody.foldl (fun acc2 stmt =>
            match stmt with
            | .assignment target _ =>
              if jsStartsWith target "self." then
                acc2 ++ [IRNode.varDecl (jsReplaceFirst target "self." "") .auto none false]
              else acc2
            | _ => acc2) []
        else acc
      | _ => acc) []
    let methods := body.filter fun node =>
      match node with
      | .funcDecl fname _ _ _ => fname != "__init__"
      | _ => false
    let ctor := body.find? fun node =>
      match node with
      | .funcDecl fname _ _ _ => fname == "__init__"
      | _ => false
    .ok (.classDecl name members methods ctor none none, ts)
termination_by structural a _ => a

/-- `parseIf`. -/
def parseIf : Nat → List PyTok → PRes (IRNode × List PyTok)
  | 0, _ => .error .stackOverflow
  | fuel + 1, ts => do
    let (ifToken, ts) := pConsumeV ts "KEYWORD" "if"
    let ifIndent := (ifToken.map PyTok.indent).getD 0
    let (condition, ts) ← parseExpression fuel ts
    let (_, ts) := pConsumeV ts "PUNCTUATION" ":"
    let ts := skipNewlines ts
    let (thenBranch, ts) ← parseBlock fuel ifIndent ts
    let ts := skipNewlines ts
    match ts with
    | nextToken :: _ =>
      if nextToken.indent == ifIndent then
        if pMatchV ts "KEYWORD" "elif" then do
          let (elseIf, ts) ← parseElif fuel ifIndent ts
          .ok (.ifStmt condition thenBranch none (some elseIf), ts)
        else if pMatchV ts "KEYWORD" "else" then do
          let ts := ts.drop 1
          let (_, ts) := pConsumeV ts "PUNCTUATION" ":"
          let ts := skipNewlines ts
          let (elseBranch, ts) ← parseBlock fuel ifIndent ts
          .ok (.ifStmt condition thenBranch (some elseBranch) none, ts)
        else .ok (.ifStmt condition thenBranch none none, ts)
      else .ok (.ifStmt condition thenBranch none none, ts)
    | [] => .ok (.ifStmt condition thenBranch none none, ts)
termination_by structural a _ => a

/-- `parseElif`. -/
def parseElif : Nat → Nat → List PyTok → PRes (IRNode × List PyTok)
  | 0, _, _ => .error .stackOverflow
  | fuel + 1, parentIndent, ts => do
    let (_, ts) := pConsumeV ts "KEYWORD" "elif"
    let (condition, ts) ← parseExpression fuel ts
    let (_, ts) := pConsumeV ts "PUNCTUATION" ":"
    let ts := skipNewlines ts
    let (thenBranch, ts) ← parseBlock fuel parentIndent ts
    let ts := skipNewlines ts
    match ts with
    | nextToken :: _ =>
      if nextToken.indent == parentIndent then
        if pMatchV ts "KEYWORD" "elif" then do
          let (elseIf, ts) ← parseElif fuel parentIndent ts
          .ok (.ifStmt condition thenBranch none (some elseIf), ts)
        else if pMatchV ts "KEYWORD" "else" then do
          let ts := ts.drop 1
          let (_, ts) := pConsumeV ts "PUNCTUATION" ":"
          let ts := skipNewlines ts
          let (elseBranch, ts) ← parseBlock fuel parentIndent ts
          .ok (.ifStmt condition thenBranch (some elseBranch) none, ts)
        else .ok (.ifStmt condition thenBranch none none, ts)
      else .ok (.ifStmt condition thenBranch none none, ts)
    | [] => .ok (.ifStmt condition thenBranch none none, ts)
termination_by structural a _ _ => a

/-- `parseFor` — `for x in range(…)` fills the range fields (defaults
start `0`, step `1`; an argument-less `range()` leaves them undefined);
any other iterable is kept as the `condition`. -/
def parseFor : Nat → List PyTok → PRes (IRNode × List PyTok)
  | 0, _ => .error .stackOverflow
  | fuel + 1, ts => do
    let (forToken, ts) := pConsumeV ts "KEYWORD" "for"
    let forIndent := (forToken.map PyTok.indent).getD 0
    let (iterToken, ts) := pConsume ts "IDENTIFIER"
    let iterator := (iterToken.map PyTok.value).getD "i"
    let (_, ts) := pConsumeV ts "KEYWORD" "in"
    if pMatchV ts "KEYWORD" "range" || pMatchV ts "IDENTIFIER" "range" then do
      let ts := ts.drop 1
      let (_, ts) := pConsumeV ts "PUNCTUATION" "("
      let (args, ts) ← parseArgList fuel 10 0 ts
      let (_, ts) := pConsumeV ts "PUNCTUATION" ")"
      let (_, ts) := pConsumeV ts "PUNCTUATION" ":"
      let ts := skipNewlines ts
      let (body, ts) ← parseBlock fuel forIndent ts
      let (rangeStart, rangeEnd, rangeStep) :=
        match args with
        | [a] => (some (IRNode.literal (.num (.int 0)) .int false), some a,
                  some (IRNode.literal (.num (.int 1)) .int false))
        | [a, b] => (some a, some b, some (IRNode.literal (.num (.int 1)) .int false))
        | _ => (args.get? 0, args.get? 1, args.get? 2)
      .ok (.forStmt none none none (some iterator) rangeStart rangeEnd rangeStep body, ts)
    else do
      let (iterable, ts) ← parseExpression fuel ts
      let (_, ts) := pConsumeV ts "PUNCTUATION" ":"
      let ts := skipNewlines ts
      let (body, ts) ← parseBlock fuel forIndent ts
      .ok (.forStmt none (some iterable) none (some iterator) none none none body, ts)
termination_by structural a _ => a

/-- The bounded argument-collection loop shared by `range(…)`, call and
conversion parsing (`while (!match(')') && args.length < cap)`). -/
def parseArgList : Nat → Nat → Nat → List PyTok → PRes (List IRNode × List PyTok)
  | 0, _, _, _ => .error .stackOverflow
  | fuel + 1, cap, count, ts =>
    if !pMatchV ts "PUNCTUATION" ")" && count < cap then do
      let (e, ts) ← parseExpression fuel ts
      let (comma, ts) := pConsumeV ts "PUNCTUATION" ","
      if comma.isSome then do
        let (rest, ts) ← parseArgList fuel cap (count + 1) ts
        .ok (e :: rest, ts)
      else .ok ([e], ts)
    else .ok ([], ts)
termination_by structural a _ _ _ => a

/-- `parseWhile`. -/
def parseWhile : Nat → List PyTok → PRes (IRNode × List PyTok)
  | 0, _ => .error .stackOverflow
  | fuel + 1, ts => do
    let (whileToken, ts) := pConsumeV ts "KEYWORD" "while"
    let whileIndent := (whileToken.map PyTok.indent).getD 0
    let (condition, ts) ← parseExpression fuel ts
    let (_, ts) := pConsumeV ts "PUNCTUATION" ":"
    let ts := skipNewlines ts
    let (body, ts) ← parseBlock fuel whileIndent ts
    .ok (.whileStmt condition body, ts)
termination_by structural a _ => a

/-- `parseReturn`. -/
def parseReturn : Nat → List PyTok → PRes (IRNode × List PyTok)
  | 0, _ => .error .stackOverflow
  | fuel + 1, ts => do
    let (_, ts) := pConsumeV ts "KEYWORD" "return"
    if pMatch ts "NEWLINE" || ts.isEmpty then .ok (.returnStmt none, ts)
    else do
      let (value, ts) ← parseExpression fuel ts
      .ok (.returnStmt (some value), ts)

/-- `parsePrint` — `newline = true`; `end=`/`sep=` keyword arguments are
consumed and discarded. -/
def parsePrint : Nat → List PyTok → PRes (IRNode × List PyTok)
  | 0, _ => .error .stackOverflow
  | fuel + 1, ts => do
    let (_, ts) := pConsumeV ts "KEYWORD" "print"
    let (_, ts) := pConsumeV ts "PUNCTUATION" "("
    let (args, ts) ← parsePrintArgs fuel 0 ts
    let (_, ts) := pConsumeV ts "PUNCTUATION" ")"
    .ok (.print args true, ts)
termination_by structural a _ => a

/-- The argument loop of `parsePrint` (cap 20, `end`/`sep` skipped). -/
def parsePrintArgs : Nat → Nat → List PyTok → PRes (List IRNode × List PyTok)
  | 0, _, _ => .error .stackOverflow
  | fuel + 1, count, ts =>
    if !pMatchV ts "PUNCTUATION" ")" && count < 20 then
      if pMatchV ts "IDENTIFIER" "end" || pMatchV ts "IDENTIFIER" "sep" then do
        let ts := ts.drop 1
        let (_, ts) := pConsumeV ts "OPERATOR" "="
        let (_, ts) ← parseExpression fuel ts
        let (comma, ts) := pConsumeV ts "PUNCTUATION" ","
        if comma.isSome then parsePrintArgs fuel count ts
        else .ok ([], ts)
      else do
        let (e, ts) ← parseExpression fuel ts
        let (comma, ts) := pConsumeV ts "PUNCTUATION" ","
        if comma.isSome then do
          let (rest, ts) ← parsePrintArgs fuel (count + 1) ts
          .ok (e :: rest, ts)
        else .ok ([e], ts)
    else .ok ([], ts)
termination_by structural a _ _ => a

/-- `parseInput` (statement position). -/
def parseInput : Nat → List PyTok → PRes (IRNode × List PyTok)
  | 0, _ => .error .stackOverflow
  | fuel + 1, ts => do
    let _ := fuel
    let (_, ts) := pConsumeV ts "KEYWORD" "input"
    let (_, ts) := pConsumeV ts "PUNCTUATION" "("
    let (prompt, ts) :=
      match ts with
      | t :: rest => if t.ttype == "STRING" then (some (sliceDropEnds t.value), rest) else (none, ts)
      | [] => (none, ts)
    let (_, ts) := pConsumeV ts "PUNCTUATION" ")"
    .ok (.input prompt none none, ts)

/-- `parseAssignmentOrExpression` — a fresh (undotted) identifier target
becomes a typed Variable declaration, a dotted one an Assignment; compound
operators desugar to `target = target ⟨op⟩ rhs`. -/
def parseAssignmentOrExpression : Nat → List PyTok → PRes (IRNode × List PyTok)
  | 0, _ => .error .stackOverflow
  | fuel + 1, ts => do
    let (left, ts) ← parseExpression fuel ts
    if pMatchV ts "OPERATOR" "=" then do
      let (value, ts) ← parseExpression fuel (ts.drop 1)
      match left with
      | .identifier target =>
        if !jsIncludes target "." then
          .ok (.varDecl target (inferType value) (some value) false, ts)
        else
          .ok (.assignment target value, ts)
      | _ => compoundLoop fuel left ["+=", "-=", "*=", "/="] ts
    else
      compoundLoop fuel left ["+=", "-=", "*=", "/="] ts

/-- The compound-assignment trial loop at the end of
`parseAssignmentOrExpression`. -/
def compoundLoop : Nat → IRNode → List String → List PyTok → PRes (IRNode × List PyTok)
  | 0, _, _, _ => .error .stackOverflow
  | _, left, [], ts => .ok (left, ts)
  | fuel + 1, left, op :: ops, ts =>
    if pMatchV ts "OPERATOR" op then do
      let (right, ts) ← parseExpression fuel (ts.drop 1)
      match left with
      | .identifier target =>
        .ok (.assignment target (.binaryOp ⟨[op.data.getD 0 ' ']⟩ left right), ts)
      | _ => compoundLoop fuel left ops ts
    else compoundLoop fuel left ops ts
termination_by structural a _ _ _ => a

/-- `parseExpression`. -/
def parseExpression : Nat → List PyTok → PRes (IRNode × List PyTok)
  | 0, _ => .error .stackOverflow
  | fuel + 1, ts => parseOr fuel ts
termination_by structural a _ => a

/-- `parseOr` (`or` lowers to `||`). -/
def parseOr : Nat → List PyTok → PRes (IRNode × List PyTok)
  | 0, _ => .error .stackOverflow
  | fuel + 1, ts => do
    let (left, ts) ← parseAnd fuel ts
    parseOrLoop fuel left ts
termination_by structural a _ => a

/-- The `or` accumulation loop. -/
def parseOrLoop : Nat → IRNode → List PyTok → PRes (IRNode × List PyTok)
  | 0, _, _ => .error .stackOverflow
  | fuel + 1, left, ts =>
    if pMatchV ts "KEYWORD" "or" then do
      let (right, ts) ← parseAnd fuel (ts.drop 1)
      parseOrLoop fuel (.binaryOp "||" left right) ts
    else .ok (left, ts)
termination_by structural a _ _ => a

/-- `parseAnd` (`and` lowers to `&&`). -/
def parseAnd : Nat → List PyTok → PRes (IRNode × List PyTok)
  | 0, _ => .error .stackOverflow
  | fuel + 1, ts => do
    let (left, ts) ← parseNot fuel ts
    parseAndLoop fuel left ts
termination_by structural a _ => a

/-- The `and` accumulation loop. -/
def parseAndLoop : Nat → IRNode → List PyTok → PRes (IRNode × List PyTok)
  | 0, _, _ => .error .stackOverflow
  | fuel + 1, left, ts =>
    if pMatchV ts "KEYWORD" "and" then do
      let (right, ts) ← parseNot fuel (ts.drop 1)
      parseAndLoop fuel (.binaryOp "&&" left right) ts
    else .ok (left, ts)
termination_by structural a _ _ => a

/-- `parseNot` (`not` lowers to `!`). -/
def parseNot : Nat → List PyTok → PRes (IRNode × List PyTok)
  | 0, _ => .error .stackOverflow
  | fuel + 1, ts =>
    if pMatchV ts "KEYWORD" "not" then do
      let (operand, ts) ← parseNot fuel (ts.drop 1)
      .ok (.unaryOp "!" operand, ts)
    else parseComparison fuel ts
termination_by structural a _ => a

/-- `parseComparison` (bounded to 20 iterations like the source). -/
def parseComparison : Nat → List PyTok → PRes (IRNode × List PyTok)
  | 0, _ => .error .stackOverflow
  | fuel + 1, ts => do
    let (left, ts) ← parseAddSub fuel ts
    parseComparisonLoop fuel 0 left ts
termination_by structural a _ => a

/-- The comparison accumulation loop. -/
def parseComparisonLoop : Nat → Nat → IRNode → List PyTok → PRes (IRNode × List PyTok)
  | 0, _, _, _ => .error .stackOverflow
  | fuel + 1, iterations, left, ts =>
    if iterations < 20 then
      match ["==", "!=", "<", ">", "<=", ">="].find? (fun op => pMatchV ts "OPERATOR" op) with
      | some op => do
        let (right, ts) ← parseAddSub fuel (ts.drop 1)
        parseComparisonLoop fuel (iterations + 1) (.binaryOp op left right) ts
      | none => .ok (left, ts)
    else .ok (left, ts)
termination_by structural a _ _ _ => a

/-- `parseAddSub`. -/
def parseAddSub : Nat → List PyTok → PRes (IRNode × List PyTok)
  | 0, _ => .error .stackOverflow
  | fuel + 1, ts => do
    let (left, ts) ← parseMulDiv fuel ts
    parseAddSubLoop fuel left ts
termination_by structural a _ => a

/-- The `+ -` accumulation loop. -/
def parseAddSubLoop : Nat → IRNode → List PyTok → PRes (IRNode × List PyTok)
  | 0, _, _ => .error .stackOverflow
  | fuel + 1, left, ts =>
    if pMatchV ts "OPERATOR" "+" || pMatchV ts "OPERATOR" "-" then
      match ts with
      | op :: ts => do
        let (right, ts) ← parseMulDiv fuel ts
        parseAddSubLoop fuel (.binaryOp op.value left right) ts
      | [] => .ok (left, ts)
    else .ok (left, ts)
termination_by structural a _ _ => a

/-- `parseMulDiv`. -/
def parseMulDiv : Nat → List PyTok → PRes (IRNode × List PyTok)
  | 0, _ => .error .stackOverflow
  | fuel + 1, ts => do
    let (left, ts) ← parseUnary fuel ts
    parseMulDivLoop fuel left ts
termination_by structural a _ => a

/-- The `* / %` accumulation loop. -/
def parseMulDivLoop : Nat → IRNode → List PyTok → PRes (IRNode × List PyTok)
  | 0, _, _ => .error .stackOverflow
  | fuel + 1, left, ts =>
    if pMatchV ts "OPERATOR" "*" || pMatchV ts "OPERATOR" "/" || pMatchV ts "OPERATOR" "%" then
      match ts with
      | op :: ts => do
        let (right, ts) ← parseUnary fuel ts
        parseMulDivLoop fuel (.binaryOp op.value left right) ts
      | [] => .ok (left, ts)
    else .ok (left, ts)
termination_by structural a _ _ => a

/-- `parseUnary` — prefix `- +`. -/
def parseUnary : Nat → List PyTok → PRes (IRNode × List PyTok)
  | 0, _ => .error .stackOverflow
  | fuel + 1, ts =>
    if pMatchV ts "OPERATOR" "-" || pMatchV ts "OPERATOR" "+" then
      match ts with
      | op :: ts => do
        let (operand, ts) ← parseUnary fuel ts
        .ok (.unaryOp op.value operand, ts)
      | [] => parsePrimary fuel ts
    else parsePrimary fuel ts
termination_by structural a _ => a

/-- `parsePrimary`. -/
def parsePrimary : Nat → List PyTok → PRes (IRNode × List PyTok)
  | 0, _ => .error .stackOverflow
  | fuel + 1, ts =>
    if pMatchV ts "PUNCTUATION" "(" then do
      let (expr, ts) ← parseExpression fuel (ts.drop 1)
      let (_, ts) := pConsumeV ts "PUNCTUATION" ")"
      .ok (expr, ts)
    else if pMatch ts "NUMBER" then
      match ts with
      | t :: ts =>
        if jsIncludes t.value "." then
          .ok (.literal (.num (jsParseFloat t.value)) .float false, ts)
        else
          .ok (.literal (.num (jsParseInt t.value)) .int false, ts)
      | [] => .ok (.literal (.str "") .void false, ts)
    else if pMatch ts "STRING" then
      match ts with
      | t :: ts =>
        let isFString := jsStartsWith t.value "f\"" || jsStartsWith t.value "f\'"
        let value := if isFString then sliceDrop2Ends t.value else sliceDropEnds t.value
        .ok (.literal (.str value) .string isFString, ts)
      | [] => .ok (.literal (.str "") .void false, ts)
    else if pMatchV ts "KEYWORD" "True" then
      .ok (.literal (.bool true) .bool false, ts.drop 1)
    else if pMatchV ts "KEYWORD" "False" then
      .ok (.literal (.bool false) .bool false, ts.drop 1)
    else if pMatchV ts "KEYWORD" "None" then
      .ok (.literal (.str "null") .void false, ts.drop 1)
    else if pMatchV ts "KEYWORD" "int" || pMatchV ts "KEYWORD" "float" ||
        pMatchV ts "KEYWORD" "str" then
      match ts with
      | t :: ts => do
        let (_, ts) := pConsumeV ts "PUNCTUATION" "("
        let (args, ts) ← parseArgList fuel 10 0 ts
        let (_, ts) := pConsumeV ts "PUNCTUATION" ")"
        .ok (.call t.value args false none, ts)
      | [] => .ok (.literal (.str "") .void false, ts)
    else if pMatchV ts "KEYWORD" "input" then do
      let ts := ts.drop 1
      let (_, ts) := pConsumeV ts "PUNCTUATION" "("
      let (prompt, ts) :=
        match ts with
        | t :: rest => if t.ttype == "STRING" then (some (sliceDropEnds t.value), rest) else (none, ts)
        | [] => (none, ts)
      let (_, ts) := pConsumeV ts "PUNCTUATION" ")"
      .ok (.input prompt none none, ts)
    else if pMatchV ts "KEYWORD" "print" then
      parsePrint fuel ts
    else if pMatchV ts "KEYWORD" "range" || pMatchV ts "IDENTIFIER" "range" then do
      let ts := ts.drop 1
      let (_, ts) := pConsumeV ts "PUNCTUATION" "("
      let (args, ts) ← parseArgList fuel 10 0 ts
      let (_, ts) := pConsumeV ts "PUNCTUATION" ")"
      .ok (.call "range" args false none, ts)
    else if pMatch ts "IDENTIFIER" || pMatchV ts "KEYWORD" "self" then
      match ts with
      | t :: ts => do
        let (name, ts) ← dottedNameLoop fuel t.value ts
        if pMatchV ts "PUNCTUATION" "(" then do
          let (args, ts) ← parseArgList fuel 20 0 (ts.drop 1)
          let (_, ts) := pConsumeV ts "PUNCTUATION" ")"
          let parts := splitOnChar '.' name
          if parts.length > 1 then
            .ok (.call (parts.getLastD "") args true
                  (some (jsJoin "." (parts.dropLast))), ts)
          else
            .ok (.call name args false none, ts)
        else
          .ok (.identifier name, ts)
      | [] => .ok (.literal (.str "") .void false, ts)
    else
      .ok (.literal (.str "") .void false, ts.drop 1)
termination_by structural a _ => a

/-- The attribute-access loop (`while match '.' name += '.' + attr`). -/
def dottedNameLoop : Nat → String → List PyTok → PRes (String × List PyTok)
  | 0, _, _ => .error .stackOverflow
  | fuel + 1, name, ts =>
    if pMatchV ts "PUNCTUATION" "." then do
      let (attr, ts) := pConsume (ts.drop 1) "IDENTIFIER"
      match attr with
      | some attr => dottedNameLoop fuel (name ++ "." ++ attr.value) ts
      | none => dottedNameLoop fuel name ts
    else .ok (name, ts)
termination_by structural a _ _ => a

end

/-- The body of `parse` before its `try`/`catch`. -/
def parseCore (code : String) : PRes IRProgram := do
  let ts := tokenize code
  let body ← progLoop (code.data.length * 20 + 1000) 0 ts
  .ok ⟨body, detectImports code⟩

/-- `PythonParser.parse` — the `catch` turns any internal failure into an
empty `Program` (the accumulated body is discarded). -/
def parse (code : String) : IRProgram :=
  match parseCore code with
  | .ok p => p
  | .error _ => ⟨[], []⟩

end PythonParser

namespace CppParser

/-! ### `cpp-parser.ts` — lexer -/

/-- The CPP reserved-word list. -/
def keywords : List String :=
  ["int", "float", "double", "char", "void", "bool", "auto",
   "if", "else", "for", "while", "switch", "case", "default", "break",
   "return", "class", "struct", "public", "private", "protected",
   "const", "static", "virtual", "new", "delete", "this", "nullptr",
   "true", "false", "using", "namespace", "std", "cout", "cin", "endl", "string"]

/-- The multi-character operator table (all two characters; `->` listed
twice in the source regex, harmlessly). -/
def opTable : List String :=
  ["<<", ">>", "==", "!=", "<=", ">=", "&&", "||", "++", "--", "->", "::",
   "+=", "-=", "*=", "/="]

/-- Match a multi-character operator at the head of the input. -/
def opMunch : List Char → Option (String × List Char)
  | a :: b :: rest =>
    let two : String := ⟨[a, b]⟩
    if opTable.contains two then some (two, rest) else none
  | _ => none

/-- String-literal scan: like the C one but with the bounds-checked second
append (`if (i < code.length) …`) — a lone trailing backslash stays a lone
backslash. -/
def stringScan : List Char → List Char × List Char
  | [] => ([], [])
  | '"' :: rest => ([], rest)
  | '\\' :: [] => (['\\'], [])
  | '\\' :: d :: rest =>
    let (s, r) := stringScan rest
    ('\\' :: d :: s, r)
  | c :: rest =>
    let (s, r) := stringScan rest
    (c :: s, r)

/-- Char-literal scan (same loop with the other quote). -/
def charScan : List Char → List Char × List Char
  | [] => ([], [])
  | '\'' :: rest => ([], rest)
  | '\\' :: [] => (['\\'], [])
  | '\\' :: d :: rest =>
    let (s, r) := charScan rest
    ('\\' :: d :: s, r)
  | c :: rest =>
    let (s, r) := charScan rest
    (c :: s, r)

/-- `tokenize` (same branch order as the C lexer; the operator table and
keyword set differ). -/
def tokenizeAux : Nat → List Char → List Tok
  | 0, _ => []
  | _, [] => []
  | fuel + 1, c :: cs =>
    if isJsSpace c then tokenizeAux fuel cs
    else if c == '#' then
      let line := (c :: cs).takeWhile (· != '\n')
      let rest := (c :: cs).dropWhile (· != '\n')
      ⟨"PREPROCESSOR", ⟨line⟩⟩ :: tokenizeAux fuel rest
    else if listStartsWith (c :: cs) ['/', '/'] then
      let body := (cs.drop 1).takeWhile (· != '\n')
      let rest := (cs.drop 1).dropWhile (· != '\n')
      ⟨"COMMENT", ⟨body⟩⟩ :: tokenizeAux fuel rest
    else if listStartsWith (c :: cs) ['/', '*'] then
      let (body, rest) := CParser.multiCommentScan (cs.drop 1)
      ⟨"MULTILINE_COMMENT", ⟨body⟩⟩ :: tokenizeAux fuel rest
    else if c == '"' then
      let (body, rest) := stringScan cs
      ⟨"STRING", "\"" ++ ⟨body⟩ ++ "\""⟩ :: tokenizeAux fuel rest
    else if c == '\'' then
      let (body, rest) := charScan cs
      ⟨"CHAR", "\'" ++ ⟨body⟩ ++ "\'"⟩ :: tokenizeAux fuel rest
    else
      match CParser.numMunch (c :: cs) with
      | some (num, rest) => ⟨"NUMBER", ⟨num⟩⟩ :: tokenizeAux fuel rest
      | none =>
        match CParser.wordMunch (c :: cs) with
        | some (word, rest) =>
          let w : String := ⟨word⟩
          ⟨if keywords.contains w then "KEYWORD" else "IDENTIFIER", w⟩ ::
            tokenizeAux fuel rest
        | none =>
          match opMunch (c :: cs) with
          | some (op, rest) => ⟨"OPERATOR", op⟩ :: tokenizeAux fuel rest
          | none => ⟨"PUNCTUATION", c.toString⟩ :: tokenizeAux fuel cs

/-- `CppParser.tokenize`. -/
def tokenize (code : String) : List Tok :=
  tokenizeAux (code.data.length + 1) code.data

/-! ### `cpp-parser.ts` — parser -/

/-- `isType` — type keywords plus the identifiers `string` and `std`;
arbitrary identifiers are not promoted to types. -/
def isType : Option Tok → Bool
  | none => false
  | some t =>
    (t.ttype == "KEYWORD" &&
      ["int", "float", "double", "char", "void", "bool", "auto", "const",
       "static", "string", "unsigned", "signed", "long", "short"].contains t.value) ||
    (t.ttype == "IDENTIFIER" && t.value == "string") ||
    (t.ttype == "IDENTIFIER" && t.value == "std")

/-- `mapCppType`. -/
def mapCppType (ty : String) : DataType :=
  if ty == "int" then .int
  else if ty == "float" then .float
  else if ty == "double" then .double
  else if ty == "char" then .char
  else if ty == "void" then .void
  else if ty == "bool" then .bool
  else if ty == "auto" then .auto
  else if ty == "string" then .string
  else .auto

/-- The range-extraction block of this front-end's `parseFor` (only `++` and
`+=` update forms populate the step). -/
def extractRange (init condition update : Option IRNode) :
    Option String × Option IRNode × Option IRNode × Option IRNode :=
  let (iterator, rangeStart) :=
    match init with
    | some (.varDecl name _ value _) => (some name, value)
    | _ => (none, none)
  let rangeEnd :=
    match condition with
    | some (.binaryOp op _ right) =>
      if op == "<" then some right
      else if op == "<=" then
        some (.binaryOp "+" right (.literal (.num (.int 1)) .int false))
      else none
    | _ => none
  let rangeStep :=
    match update with
    | some (.unaryOp op _) =>
      if op == "++" || op == "++_post" then
        some (IRNode.literal (.num (.int 1)) .int false)
      else none
    | some (.binaryOp op _ right) =>
      if op == "+=" then some right else none
    | _ => none
  (iterator, rangeStart, rangeEnd, rangeStep)

mutual

/-- `parseTopLevel`. -/
def parseTopLevel : Nat → List Tok → PRes (Option IRNode × List Tok)
  | 0, _ => .error .stackOverflow
  | fuel + 1, ts =>
    if tokMatch ts "COMMENT" then
      match ts with
      | t :: rest => .ok (some (.comment (jsTrim t.value) false), rest)
      | [] => .ok (none, ts)
    else if tokMatch ts "MULTILINE_COMMENT" then
      match ts with
      | t :: rest => .ok (some (.comment (jsTrim t.value) true), rest)
      | [] => .ok (none, ts)
    else if tokMatchV ts "KEYWORD" "class" then do
      let (c, ts) ← parseClass fuel ts
      .ok (some c, ts)
    else if isType ts.head? then
      parseFunctionOrVariable fuel ts
    else
      .ok (none, ts.drop 1)

/-- `parseClass`. -/
def parseClass : Nat → List Tok → PRes (IRNode × List Tok)
  | 0, _ => .error .stackOverflow
  | fuel + 1, ts => do
    let (_, ts) := tokConsumeV ts "KEYWORD" "class"
    let (nameToken, ts) := tokConsume ts "IDENTIFIER"
    let name := (nameToken.map Tok.value).getD "Unknown"
    let (_, ts) := tokConsumeV ts "PUNCTUATION" "\x7b"
    let (members, methods, ctor, ts) ← parseClassBody fuel name ts
    let (_, ts) := tokConsumeV ts "PUNCTUATION" "\x7d"
    let (_, ts) := tokConsumeV ts "PUNCTUATION" ";"
    .ok (.classDecl name members methods ctor none none, ts)

/-- The member loop of `parseClass`. -/
def parseClassBody (fuel : Nat) (name : String) (ts : List Tok) :
    PRes (List IRNode × List IRNode × Option IRNode × List Tok) :=
  match fuel with
  | 0 => .error .stackOverflow
  | fuel + 1 =>
    if !tokMatchV ts "PUNCTUATION" "\x7d" && !ts.isEmpty then
      if tokMatchV ts "KEYWORD" "public" || tokMatchV ts "KEYWORD" "private" ||
          tokMatchV ts "KEYWORD" "protected" then
        let ts := ts.drop 1
        let (_, ts) := tokConsumeV ts "PUNCTUATION" ":"
        parseClassBody fuel name ts
      else if tokMatchV ts "IDENTIFIER" name then do
        let (c, ts) ← parseConstructor fuel name ts
        let (members, methods, lastCtor, ts) ← parseClassBody fuel name ts
        .ok (members, methods, some (lastCtor.getD c), ts)
      else if isType ts.head? then do
        let (memberOrMethod, ts) ← parseMemberOrMethod fuel ts
        let (members, methods, ctor, ts) ← parseClassBody fuel name ts
        match memberOrMethod with
        | some (.funcDecl n p r b) => .ok (members, .funcDecl n p r b :: methods, ctor, ts)
        | some (.varDecl n d v c) => .ok (.varDecl n d v c :: members, methods, ctor, ts)
        | _ => .ok (members, methods, ctor, ts)
      else if tokMatch ts "COMMENT" || tokMatch ts "MULTILINE_COMMENT" then
        parseClassBody fuel name (ts.drop 1)
      else
        parseClassBody fuel name (ts.drop 1)
    else .ok ([], [], none, ts)

/-- `parseConstructor` (named like the class; initializer lists skipped;
normalized to a `__init__` function). -/
def parseConstructor : Nat → String → List Tok → PRes (IRNode × List Tok)
  | 0, _, _ => .error .stackOverflow
  | fuel + 1, _name, ts => do
    let (_, ts) := tokConsume ts "IDENTIFIER"
    let (_, ts) := tokConsumeV ts "PUNCTUATION" "("
    let (params, ts) ← parseParams fuel ts
    let (_, ts) := tokConsumeV ts "PUNCTUATION" ")"
    let ts ←
      if tokMatchV ts "PUNCTUATION" ":" then skipToLBrace fuel ts
      else pure ts
    let (body, ts) ← parseBlock fuel ts
    .ok (.funcDecl "__init__" params .void body, ts)

/-- The initializer-list skip loop (`while (!match('{') && pos < length)`). -/
def skipToLBrace : Nat → List Tok → PRes (List Tok)
  | 0, _ => .error .stackOverflow
  | fuel + 1, ts =>
    if !tokMatchV ts "PUNCTUATION" "\x7b" && !ts.isEmpty then
      skipToLBrace fuel (ts.drop 1)
    else .ok ts

/-- `parseMemberOrMethod`. -/
def parseMemberOrMethod : Nat → List Tok → PRes (Option IRNode × List Tok)
  | 0, _ => .error .stackOverflow
  | fuel + 1, ts => do
    let ts ← skipModifiers fuel ts
    match ts with
    | [] => .ok (none, ts)
    | typeToken :: ts => do
      let dataType := mapCppType typeToken.value
      let (dataType, ts) ←
        if typeToken.value == "std" && tokMatchV ts "OPERATOR" "::" then
          match ts.drop 1 with
          | subType :: ts => pure (mapCppType subType.value, ts)
          | [] => pure (mapCppType "", ([] : List Tok))
        else pure (dataType, ts)
      let (_, ts) := tokConsumeV ts "PUNCTUATION" "*"
      let (_, ts) := tokConsumeV ts "PUNCTUATION" "&"
      let (nameToken, ts) := tokConsume ts "IDENTIFIER"
      match nameToken with
      | none => .ok (none, ts)
      | some nameToken =>
        if tokMatchV ts "PUNCTUATION" "(" then do
          let (m, ts) ← parseMethod fuel nameToken.value dataType ts
          .ok (some m, ts)
        else do
          let (m, ts) ← parseMember fuel nameToken.value dataType ts
          .ok (some m, ts)

/-- The `const`/`static`/`virtual` modifier skip loop. -/
def skipModifiers : Nat → List Tok → PRes (List Tok)
  | 0, _ => .error .stackOverflow
  | fuel + 1, ts =>
    if tokMatchV ts "KEYWORD" "const" || tokMatchV ts "KEYWORD" "static" ||
        tokMatchV ts "KEYWORD" "virtual" then
      skipModifiers fuel (ts.drop 1)
    else .ok ts

/-- `parseMethod`. -/
def parseMethod : Nat → String → DataType → List Tok → PRes (IRNode × List Tok)
  | 0, _, _, _ => .error .stackOverflow
  | fuel + 1, name, returnType, ts => do
    let (_, ts) := tokConsumeV ts "PUNCTUATION" "("
    let (params, ts) ← parseParams fuel ts
    let (_, ts) := tokConsumeV ts "PUNCTUATION" ")"
    let (_, ts) := tokConsumeV ts "KEYWORD" "const"
    let (body, ts) ← parseBlock fuel ts
    .ok (.funcDecl name params returnType body, ts)

/-- `parseMember`. -/
def parseMember : Nat → String → DataType → List Tok → PRes (IRNode × List Tok)
  | 0, _, _, _ => .error .stackOverflow
  | fuel + 1, name, dataType, ts => do
    let (value, ts) ←
      if tokMatchV ts "PUNCTUATION" "=" then do
        let (e, ts) ← parseExpression fuel (ts.drop 1)
        pure (some e, ts)
      else pure (none, ts)
    let (_, ts) := tokConsumeV ts "PUNCTUATION" ";"
    .ok (.varDecl name dataType value false, ts)

/-- `parseFunctionOrVariable`. -/
def parseFunctionOrVariable : Nat → List Tok → PRes (Option IRNode × List Tok)
  | 0, _ => .error .stackOverflow
  | fuel + 1, ts => do
    let ts ← skipConstStatic fuel ts
    match ts with
    | [] => .ok (none, ts)
    | typeToken :: ts => do
      let dataType := mapCppType typeToken.value
      let (dataType, ts) ←
        if typeToken.value == "std" && tokMatchV ts "OPERATOR" "::" then
          match ts.drop 1 with
          | subType :: ts => pure (mapCppType subType.value, ts)
          | [] => pure (mapCppType "", ([] : List Tok))
        else pure (dataType, ts)
      let (_, ts) := tokConsumeV ts "PUNCTUATION" "*"
      let (_, ts) := tokConsumeV ts "PUNCTUATION" "&"
      let (nameToken, ts) := tokConsume ts "IDENTIFIER"
      match nameToken with
      | none => .ok (none, ts)
      | some nameToken =>
        if tokMatchV ts "PUNCTUATION" "(" then do
          let (f, ts) ← parseFunctionDef fuel nameToken.value dataType ts
          .ok (some f, ts)
        else do
          let (v, ts) ← parseVariableDecl fuel nameToken.value dataType ts
          .ok (some v, ts)

/-- The `const`/`static` skip loop of `parseFunctionOrVariable`. -/
def skipConstStatic : Nat → List Tok → PRes (List Tok)
  | 0, _ => .error .stackOverflow
  | fuel + 1, ts =>
    if tokMatchV ts "KEYWORD" "const" || tokMatchV ts "KEYWORD" "static" then
      skipConstStatic fuel (ts.drop 1)
    else .ok ts

/-- `parseFunctionDef`. -/
def parseFunctionDef : Nat → String → DataType → List Tok → PRes (IRNode × List Tok)
  | 0, _, _, _ => .error .stackOverflow
  | fuel + 1, name, returnType, ts => do
    let (_, ts) := tokConsumeV ts "PUNCTUATION" "("
    let (params, ts) ← parseParams fuel ts
    let (_, ts) := tokConsumeV ts "PUNCTUATION" ")"
    let (body, ts) ← parseBlock fuel ts
    .ok (.funcDecl name params returnType body, ts)

/-- `parseParams`. -/
def parseParams : Nat → List Tok → PRes (List IRNode × List Tok)
  | 0, _ => .error .stackOverflow
  | fuel + 1, ts =>
    if tokMatchV ts "PUNCTUATION" ")" then .ok ([], ts)
    else
      match ts with
      | [] => .ok ([], ts)
      | typeToken :: ts => do
        let dataType := mapCppType typeToken.value
        let (dataType, ts) ←
          if typeToken.value == "std" && tokMatchV ts "OPERATOR" "::" then
            match ts.drop 1 with
            | subType :: ts => pure (mapCppType subType.value, ts)
            | [] => pure (mapCppType "", ([] : List Tok))
          else pure (dataType, ts)
        let (_, ts) := tokConsumeV ts "PUNCTUATION" "*"
        let (_, ts) := tokConsumeV ts "PUNCTUATION" "&"
        let (nameToken, ts) := tokConsume ts "IDENTIFIER"
        let p := nameToken.map fun t => IRNode.varDecl t.value dataType none false
        let (comma, ts) := tokConsumeV ts "PUNCTUATION" ","
        if comma.isSome then do
          let (rest, ts) ← parseParams fuel ts
          .ok (p.toList ++ rest, ts)
        else .ok (p.toList, ts)

/-- `parseVariableDecl`. -/
def parseVariableDecl : Nat → String → DataType → List Tok → PRes (IRNode × List Tok)
  | 0, _, _, _ => .error .stackOverflow
  | fuel + 1, name, dataType, ts => do
    let (value, ts) ←
      if tokMatchV ts "PUNCTUATION" "=" then do
        let (e, ts) ← parseExpression fuel (ts.drop 1)
        pure (some e, ts)
      else pure (none, ts)
    let (_, ts) := tokConsumeV ts "PUNCTUATION" ";"
    .ok (.varDecl name dataType value false, ts)

/-- `parseBlock`. -/
def parseBlock : Nat → List Tok → PRes (List IRNode × List Tok)
  | 0, _ => .error .stackOverflow
  | fuel + 1, ts => do
    let (brace, ts) := tokConsumeV ts "PUNCTUATION" "\x7b"
    if brace.isNone then do
      let (stmt, ts) ← parseStatement fuel ts
      .ok (stmt.toList, ts)
    else do
      let (stmts, ts) ← parseBlockLoop fuel ts
      let (_, ts) := tokConsumeV ts "PUNCTUATION" "\x7d"
      .ok (stmts, ts)

/-- The statement loop of `parseBlock`. -/
def parseBlockLoop : Nat → List Tok → PRes (List IRNode × List Tok)
  | 0, _ => .error .stackOverflow
  | fuel + 1, ts =>
    if !tokMatchV ts "PUNCTUATION" "\x7d" && !ts.isEmpty then do
      let (stmt, ts) ← parseStatement fuel ts
      let (rest, ts) ← parseBlockLoop fuel ts
      .ok (stmt.toList ++ rest, ts)
    else .ok ([], ts)

/-- `parseStatement`. -/
def parseStatement : Nat → List Tok → PRes (Option IRNode × List Tok)
  | 0, _ => .error .stackOverflow
  | fuel + 1, ts =>
    if tokMatch ts "COMMENT" then
      match ts with
      | t :: rest => .ok (some (.comment (jsTrim t.value) false), rest)
      | [] => .ok (none, ts)
    else if tokMatch ts "MULTILINE_COMMENT" then
      match ts with
      | t :: rest => .ok (some (.comment (jsTrim t.value) true), rest)
      | [] => .ok (none, ts)
    else if tokMatchV ts "KEYWORD" "if" then do
      let (n, ts) ← parseIf fuel ts
      .ok (some n, ts)
    else if tokMatchV ts "KEYWORD" "for" then do
      let (n, ts) ← parseFor fuel ts
      .ok (some n, ts)
    else if tokMatchV ts "KEYWORD" "while" then do
      let (n, ts) ← parseWhile fuel ts
      .ok (some n, ts)
    else if tokMatchV ts "KEYWORD" "switch" then do
      let (n, ts) ← parseSwitch fuel ts
      .ok (some n, ts)
    else if tokMatchV ts "KEYWORD" "break" then
      let ts := ts.drop 1
      let (_, ts) := tokConsumeV ts "PUNCTUATION" ";"
      .ok (some .breakStmt, ts)
    else if tokMatchV ts "KEYWORD" "return" then do
      let (n, ts) ← parseReturn fuel ts
      .ok (some n, ts)
    else if tokMatchV ts "KEYWORD" "std" &&
        ((ts.get? 1).map Tok.value == some "::") &&
        ((ts.get? 2).map Tok.value == some "cout") then do
      let (n, ts) ← parseCout fuel ts
      .ok (some n, ts)
    else if tokMatchV ts "KEYWORD" "std" &&
        ((ts.get? 1).map Tok.value == some "::") &&
        ((ts.get? 2).map Tok.value == some "cin") then do
      let (n, ts) ← parseCin fuel ts
      .ok (some n, ts)
    else if tokMatchV ts "KEYWORD" "cout" then do
      let (n, ts) ← parseCout fuel ts
      .ok (some n, ts)
    else if tokMatchV ts "KEYWORD" "cin" then do
      let (n, ts) ← parseCin fuel ts
      .ok (some n, ts)
    else if isType ts.head? then do
      let (n, ts) ← parseLocalVariable fuel ts
      .ok (some n, ts)
    else do
      let (expr, ts) ← parseExpression fuel ts
      let (_, ts) := tokConsumeV ts "PUNCTUATION" ";"
      .ok (some expr, ts)

/-- `parseSwitch`. -/
def parseSwitch : Nat → List Tok → PRes (IRNode × List Tok)
  | 0, _ => .error .stackOverflow
  | fuel + 1, ts => do
    let (_, ts) := tokConsumeV ts "KEYWORD" "switch"
    let (_, ts) := tokConsumeV ts "PUNCTUATION" "("
    let (expression, ts) ← parseExpression fuel ts
    let (_, ts) := tokConsumeV ts "PUNCTUATION" ")"
    let (_, ts) := tokConsumeV ts "PUNCTUATION" "\x7b"
    let (cases, defaultBody, ts) ← parseSwitchCases fuel ts
    let (_, ts) := tokConsumeV ts "PUNCTUATION" "\x7d"
    .ok (.switchStmt expression cases defaultBody, ts)

/-- The case loop of `parseSwitch`. -/
def parseSwitchCases (fuel : Nat) (ts : List Tok) :
    PRes (List IRNode × Option (List IRNode) × List Tok) :=
  match fuel with
  | 0 => .error .stackOverflow
  | fuel + 1 =>
    if !tokMatchV ts "PUNCTUATION" "\x7d" && !ts.isEmpty then
      if tokMatchV ts "KEYWORD" "case" then do
        let (value, ts) ← parseExpression fuel (ts.drop 1)
        let (_, ts) := tokConsumeV ts "PUNCTUATION" ":"
        let (body, ts) ← parseCaseBody fuel ts
        let (cases, defaultBody, ts) ← parseSwitchCases fuel ts
        .ok (.switchCase value body :: cases, defaultBody, ts)
      else if tokMatchV ts "KEYWORD" "default" then do
        let ts := ts.drop 1
        let (_, ts) := tokConsumeV ts "PUNCTUATION" ":"
        let (body, ts) ← parseDefaultBody fuel ts
        let (cases, _, ts) ← parseSwitchCases fuel ts
        .ok (cases, some body, ts)
      else
        parseSwitchCases fuel (ts.drop 1)
    else .ok ([], none, ts)

/-- A `case` body: statements up to the next `case`/`default`/`}`; a `break`
is consumed and ends the body without being recorded. -/
def parseCaseBody : Nat → List Tok → PRes (List IRNode × List Tok)
  | 0, _ => .error .stackOverflow
  | fuel + 1, ts =>
    if !tokMatchV ts "KEYWORD" "case" && !tokMatchV ts "KEYWORD" "default" &&
        !tokMatchV ts "PUNCTUATION" "\x7d" && !ts.isEmpty then
      if tokMatchV ts "KEYWORD" "break" then
        let ts := ts.drop 1
        let (_, ts) := tokConsumeV ts "PUNCTUATION" ";"
        .ok ([], ts)
      else do
        let (stmt, ts) ← parseStatement fuel ts
        let (rest, ts) ← parseCaseBody fuel ts
        .ok (stmt.toList ++ rest, ts)
    else .ok ([], ts)

/-- The `default` body loop (stops at `case` or `}`). -/
def parseDefaultBody : Nat → List Tok → PRes (List IRNode × List Tok)
  | 0, _ => .error .stackOverflow
  | fuel + 1, ts =>
    if !tokMatchV ts "KEYWORD" "case" && !tokMatchV ts "PUNCTUATION" "\x7d" && !ts.isEmpty then
      if tokMatchV ts "KEYWORD" "break" then
        let ts := ts.drop 1
        let (_, ts) := tokConsumeV ts "PUNCTUATION" ";"
        .ok ([], ts)
      else do
        let (stmt, ts) ← parseStatement fuel ts
        let (rest, ts) ← parseDefaultBody fuel ts
        .ok (stmt.toList ++ rest, ts)
    else .ok ([], ts)

/-- `parseIf`. -/
def parseIf : Nat → List Tok → PRes (IRNode × List Tok)
  | 0, _ => .error .stackOverflow
  | fuel + 1, ts => do
    let (_, ts) := tokConsumeV ts "KEYWORD" "if"
    let (_, ts) := tokConsumeV ts "PUNCTUATION" "("
    let (condition, ts) ← parseExpression fuel ts
    let (_, ts) := tokConsumeV ts "PUNCTUATION" ")"
    let (thenBranch, ts) ← parseBlock fuel ts
    if tokMatchV ts "KEYWORD" "else" then
      let ts := ts.drop 1
      if tokMatchV ts "KEYWORD" "if" then do
        let (elseIf, ts) ← parseIf fuel ts
        .ok (.ifStmt condition thenBranch none (some elseIf), ts)
      else do
        let (elseBranch, ts) ← parseBlock fuel ts
        .ok (.ifStmt condition thenBranch (some elseBranch) none, ts)
    else
      .ok (.ifStmt condition thenBranch none none, ts)

/-- `parseFor`. -/
def parseFor : Nat → List Tok → PRes (IRNode × List Tok)
  | 0, _ => .error .stackOverflow
  | fuel + 1, ts => do
    let (_, ts) := tokConsumeV ts "KEYWORD" "for"
    let (_, ts) := tokConsumeV ts "PUNCTUATION" "("
    let (init, ts) ←
      if !tokMatchV ts "PUNCTUATION" ";" then
        if isType ts.head? then do
          let (v, ts) ← parseLocalVariable fuel ts
          pure (some v, ts)
        else do
          let (e, ts) ← parseExpression fuel ts
          let (_, ts) := tokConsumeV ts "PUNCTUATION" ";"
          pure (some e, ts)
      else pure (none, ts.drop 1)
    let (condition, ts) ←
      if !tokMatchV ts "PUNCTUATION" ";" then do
        let (e, ts) ← parseExpression fuel ts
        pure (some e, ts)
      else pure (none, ts)
    let (_, ts) := tokConsumeV ts "PUNCTUATION" ";"
    let (update, ts) ←
      if !tokMatchV ts "PUNCTUATION" ")" then do
        let (e, ts) ← parseExpression fuel ts
        pure (some e, ts)
      else pure (none, ts)
    let (_, ts) := tokConsumeV ts "PUNCTUATION" ")"
    let (body, ts) ← parseBlock fuel ts
    let (iterator, rangeStart, rangeEnd, rangeStep) := extractRange init condition update
    .ok (.forStmt init condition update iterator rangeStart rangeEnd rangeStep body, ts)

/-- `parseWhile`. -/
def parseWhile : Nat → List Tok → PRes (IRNode × List Tok)
  | 0, _ => .error .stackOverflow
  | fuel + 1, ts => do
    let (_, ts) := tokConsumeV ts "KEYWORD" "while"
    let (_, ts) := tokConsumeV ts "PUNCTUATION" "("
    let (condition, ts) ← parseExpression fuel ts
    let (_, ts) := tokConsumeV ts "PUNCTUATION" ")"
    let (body, ts) ← parseBlock fuel ts
    .ok (.whileStmt condition body, ts)

/-- `parseReturn`. -/
def parseReturn : Nat → List Tok → PRes (IRNode × List Tok)
  | 0, _ => .error .stackOverflow
  | fuel + 1, ts => do
    let (_, ts) := tokConsumeV ts "KEYWORD" "return"
    if tokMatchV ts "PUNCTUATION" ";" then
      .ok (.returnStmt none, ts.drop 1)
    else do
      let (value, ts) ← parseExpression fuel ts
      let (_, ts) := tokConsumeV ts "PUNCTUATION" ";"
      .ok (.returnStmt (some value), ts)

/-- `parseCout` — chained `<<` operands become Print arguments; any
`endl`/`std::endl` operand sets the newline flag instead. -/
def parseCout : Nat → List Tok → PRes (IRNode × List Tok)
  | 0, _ => .error .stackOverflow
  | fuel + 1, ts => do
    let ts :=
      if tokMatchV ts "KEYWORD" "std" then
        let ts := ts.drop 1
        let (_, ts) := tokConsumeV ts "OPERATOR" "::"
        ts
      else ts
    let (_, ts) := tokConsumeV ts "KEYWORD" "cout"
    let (args, newline, ts) ← parseCoutArgs fuel ts
    let (_, ts) := tokConsumeV ts "PUNCTUATION" ";"
    .ok (.print args newline, ts)

/-- The `<<` operand loop of `parseCout`. -/
def parseCoutArgs (fuel : Nat) (ts : List Tok) : PRes (List IRNode × Bool × List Tok) :=
  match fuel with
  | 0 => .error .stackOverflow
  | fuel + 1 =>
    if tokMatchV ts "OPERATOR" "<<" then
      let ts := ts.drop 1
      if tokMatchV ts "KEYWORD" "endl" || tokMatchV ts "KEYWORD" "std" then
        let ts :=
          if tokMatchV ts "KEYWORD" "std" then
            let ts := ts.drop 1
            let (_, ts) := tokConsumeV ts "OPERATOR" "::"
            ts
          else ts
        if tokMatchV ts "KEYWORD" "endl" then do
          let (args, _, ts) ← parseCoutArgs fuel (ts.drop 1)
          .ok (args, true, ts)
        else do
          let (e, ts) ← parseExpression fuel ts
          let (args, newline, ts) ← parseCoutArgs fuel ts
          .ok (e :: args, newline, ts)
      else do
        let (e, ts) ← parseExpression fuel ts
        let (args, newline, ts) ← parseCoutArgs fuel ts
        .ok (e :: args, newline, ts)
    else .ok ([], false, ts)

/-- `parseCin`. -/
def parseCin : Nat → List Tok → PRes (IRNode × List Tok)
  | 0, _ => .error .stackOverflow
  | fuel + 1, ts => do
    let _ := fuel
    let ts :=
      if tokMatchV ts "KEYWORD" "std" then
        let ts := ts.drop 1
        let (_, ts) := tokConsumeV ts "OPERATOR" "::"
        ts
      else ts
    let (_, ts) := tokConsumeV ts "KEYWORD" "cin"
    let (_, ts) := tokConsumeV ts "OPERATOR" ">>"
    let (targetVar, ts) :=
      match ts with
      | t :: rest => if t.ttype == "IDENTIFIER" then (some t.value, rest) else (none, ts)
      | [] => (none, ts)
    let (_, ts) := tokConsumeV ts "PUNCTUATION" ";"
    .ok (.input none targetVar none, ts)

/-- `parseLocalVariable`. -/
def parseLocalVariable : Nat → List Tok → PRes (IRNode × List Tok)
  | 0, _ => .error .stackOverflow
  | fuel + 1, ts => do
    let ts ← skipConstStatic fuel ts
    match ts with
    | [] => .ok (.varDecl "unknown" .int none false, ts)
    | typeToken :: ts => do
      let dataType := mapCppType typeToken.value
      let (dataType, ts) ←
        if typeToken.value == "std" && tokMatchV ts "OPERATOR" "::" then
          match ts.drop 1 with
          | subType :: ts => pure (mapCppType subType.value, ts)
          | [] => pure (mapCppType "", ([] : List Tok))
        else pure (dataType, ts)
      let (_, ts) := tokConsumeV ts "PUNCTUATION" "*"
      let (_, ts) := tokConsumeV ts "PUNCTUATION" "&"
      let (nameToken, ts) := tokConsume ts "IDENTIFIER"
      match nameToken with
      | none => .ok (.varDecl "unknown" dataType none false, ts)
      | some nameToken => do
        let (value, ts) ←
          if tokMatchV ts "PUNCTUATION" "=" then do
            let (e, ts) ← parseExpression fuel (ts.drop 1)
            pure (some e, ts)
          else pure (none, ts)
        let (_, ts) := tokConsumeV ts "PUNCTUATION" ";"
        .ok (.varDecl nameToken.value dataType value false, ts)

/-- `parseExpression`. -/
def parseExpression : Nat → List Tok → PRes (IRNode × List Tok)
  | 0, _ => .error .stackOverflow
  | fuel + 1, ts => parseAssignment fuel ts

/-- `parseAssignment`. -/
def parseAssignment : Nat → List Tok → PRes (IRNode × List Tok)
  | 0, _ => .error .stackOverflow
  | fuel + 1, ts => do
    let (left, ts) ← parseLogicalOr fuel ts
    if tokMatchV ts "PUNCTUATION" "=" || tokMatchV ts "OPERATOR" "+=" ||
        tokMatchV ts "OPERATOR" "-=" || tokMatchV ts "OPERATOR" "*=" ||
        tokMatchV ts "OPERATOR" "/=" then
      match ts with
      | op :: ts => do
        let (right, ts) ← parseAssignment fuel ts
        .ok (.binaryOp op.value left right, ts)
      | [] => .ok (left, ts)
    else .ok (left, ts)

/-- `parseLogicalOr`. -/
def parseLogicalOr : Nat → List Tok → PRes (IRNode × List Tok)
  | 0, _ => .error .stackOverflow
  | fuel + 1, ts => do
    let (left, ts) ← parseLogicalAnd fuel ts
    parseLogicalOrLoop fuel left ts

/-- The `||` accumulation loop. -/
def parseLogicalOrLoop : Nat → IRNode → List Tok → PRes (IRNode × List Tok)
  | 0, _, _ => .error .stackOverflow
  | fuel + 1, left, ts =>
    if tokMatchV ts "OPERATOR" "||" then do
      let (right, ts) ← parseLogicalAnd fuel (ts.drop 1)
      parseLogicalOrLoop fuel (.binaryOp "||" left right) ts
    else .ok (left, ts)

/-- `parseLogicalAnd`. -/
def parseLogicalAnd : Nat → List Tok → PRes (IRNode × List Tok)
  | 0, _ => .error .stackOverflow
  | fuel + 1, ts => do
    let (left, ts) ← parseComparison fuel ts
    parseLogicalAndLoop fuel left ts

/-- The `&&` accumulation loop. -/
def parseLogicalAndLoop : Nat → IRNode → List Tok → PRes (IRNode × List Tok)
  | 0, _, _ => .error .stackOverflow
  | fuel + 1, left, ts =>
    if tokMatchV ts "OPERATOR" "&&" then do
      let (right, ts) ← parseComparison fuel (ts.drop 1)
      parseLogicalAndLoop fuel (.binaryOp "&&" left right) ts
    else .ok (left, ts)

/-- `parseComparison`. -/
def parseComparison : Nat → List Tok → PRes (IRNode × List Tok)
  | 0, _ => .error .stackOverflow
  | fuel + 1, ts => do
    let (left, ts) ← parseAddSub fuel ts
    parseComparisonLoop fuel left ts

/-- The comparison accumulation loop. -/
def parseComparisonLoop : Nat → IRNode → List Tok → PRes (IRNode × List Tok)
  | 0, _, _ => .error .stackOverflow
  | fuel + 1, left, ts =>
    if tokMatchV ts "OPERATOR" "==" || tokMatchV ts "OPERATOR" "!=" ||
        tokMatchV ts "PUNCTUATION" "<" || tokMatchV ts "PUNCTUATION" ">" ||
        tokMatchV ts "OPERATOR" "<=" || tokMatchV ts "OPERATOR" ">=" then
      match ts with
      | op :: ts => do
        let (right, ts) ← parseAddSub fuel ts
        parseComparisonLoop fuel (.binaryOp op.value left right) ts
      | [] => .ok (left, ts)
    else .ok (left, ts)

/-- `parseAddSub`. -/
def parseAddSub : Nat → List Tok → PRes (IRNode × List Tok)
  | 0, _ => .error .stackOverflow
  | fuel + 1, ts => do
    let (left, ts) ← parseMulDiv fuel ts
    parseAddSubLoop fuel left ts

/-- The `+ -` accumulation loop. -/
def parseAddSubLoop : Nat → IRNode → List Tok → PRes (IRNode × List Tok)
  | 0, _, _ => .error .stackOverflow
  | fuel + 1, left, ts =>
    if tokMatchV ts "PUNCTUATION" "+" || tokMatchV ts "PUNCTUATION" "-" then
      match ts with
      | op :: ts => do
        let (right, ts) ← parseMulDiv fuel ts
        parseAddSubLoop fuel (.binaryOp op.value left right) ts
      | [] => .ok (left, ts)
    else .ok (left, ts)

/-- `parseMulDiv`. -/
def parseMulDiv : Nat → List Tok → PRes (IRNode × List Tok)
  | 0, _ => .error .stackOverflow
  | fuel + 1, ts => do
    let (left, ts) ← parseUnary fuel ts
    parseMulDivLoop fuel left ts

/-- The `* / %` accumulation loop. -/
def parseMulDivLoop : Nat → IRNode → List Tok → PRes (IRNode × List Tok)
  | 0, _, _ => .error .stackOverflow
  | fuel + 1, left, ts =>
    if tokMatchV ts "PUNCTUATION" "*" || tokMatchV ts "PUNCTUATION" "/" ||
        tokMatchV ts "PUNCTUATION" "%" then
      match ts with
      | op :: ts => do
        let (right, ts) ← parseUnary fuel ts
        parseMulDivLoop fuel (.binaryOp op.value left right) ts
      | [] => .ok (left, ts)
    else .ok (left, ts)

/-- `parseUnary` — prefix `! -` (punctuation) and `++ --` (operators). -/
def parseUnary : Nat → List Tok → PRes (IRNode × List Tok)
  | 0, _ => .error .stackOverflow
  | fuel + 1, ts =>
    if tokMatchV ts "PUNCTUATION" "!" || tokMatchV ts "PUNCTUATION" "-" ||
        tokMatchV ts "OPERATOR" "++" || tokMatchV ts "OPERATOR" "--" then
      match ts with
      | op :: ts => do
        let (operand, ts) ← parseUnary fuel ts
        .ok (.unaryOp op.value operand, ts)
      | [] => parsePostfixExpr fuel ts
    else parsePostfixExpr fuel ts

/-- `parsePostfix`. -/
def parsePostfixExpr : Nat → List Tok → PRes (IRNode × List Tok)
  | 0, _ => .error .stackOverflow
  | fuel + 1, ts => do
    let (expr, ts) ← parsePrimary fuel ts
    parsePostfixLoop fuel expr ts

/-- The postfix `++`/`--` accumulation loop. -/
def parsePostfixLoop : Nat → IRNode → List Tok → PRes (IRNode × List Tok)
  | 0, _, _ => .error .stackOverflow
  | fuel + 1, expr, ts =>
    if tokMatchV ts "OPERATOR" "++" || tokMatchV ts "OPERATOR" "--" then
      match ts with
      | op :: ts => parsePostfixLoop fuel (.unaryOp (op.value ++ "_post") expr) ts
      | [] => .ok (expr, ts)
    else .ok (expr, ts)

/-- `parsePrimary`. -/
def parsePrimary : Nat → List Tok → PRes (IRNode × List Tok)
  | 0, _ => .error .stackOverflow
  | fuel + 1, ts =>
    if tokMatchV ts "PUNCTUATION" "(" then do
      let (expr, ts) ← parseExpression fuel (ts.drop 1)
      let (_, ts) := tokConsumeV ts "PUNCTUATION" ")"
      .ok (expr, ts)
    else if tokMatch ts "STRING" then
      match ts with
      | t :: ts => .ok (.literal (.str (sliceDropEnds t.value)) .string false, ts)
      | [] => .ok (.literal (.str "") .string false, ts)
    else if tokMatch ts "CHAR" then
      match ts with
      | t :: ts => .ok (.literal (.str (sliceDropEnds t.value)) .char false, ts)
      | [] => .ok (.literal (.str "") .string false, ts)
    else if tokMatch ts "NUMBER" then
      match ts with
      | t :: ts =>
        let value : String := ⟨t.value.data.filter fun c => !(c == 'f' || c == 'F' || c == 'l' || c == 'L')⟩
        if jsIncludes value "." then
          .ok (.literal (.num (jsParseFloat value)) .float false, ts)
        else
          .ok (.literal (.num (jsParseInt value)) .int false, ts)
      | [] => .ok (.literal (.str "") .string false, ts)
    else if tokMatchV ts "KEYWORD" "true" then
      .ok (.literal (.bool true) .bool false, ts.drop 1)
    else if tokMatchV ts "KEYWORD" "false" then
      .ok (.literal (.bool false) .bool false, ts.drop 1)
    else if tokMatchV ts "KEYWORD" "nullptr" then
      .ok (.literal (.str "null") .void false, ts.drop 1)
    else if tokMatch ts "IDENTIFIER" || tokMatch ts "KEYWORD" then
      match ts with
      | t :: ts =>
        if tokMatchV ts "PUNCTUATION" "(" then do
          let (args, ts) ← parseCallArgs fuel (ts.drop 1)
          let (_, ts) := tokConsumeV ts "PUNCTUATION" ")"
          .ok (.call t.value args false none, ts)
        else
          .ok (.identifier t.value, ts)
      | [] => .ok (.literal (.str "") .string false, ts)
    else
      .ok (.literal (.str "") .string false, ts.drop 1)

/-- The call-argument loop. -/
def parseCallArgs : Nat → List Tok → PRes (List IRNode × List Tok)
  | 0, _ => .error .stackOverflow
  | fuel + 1, ts =>
    if tokMatchV ts "PUNCTUATION" ")" then .ok ([], ts)
    else do
      let (e, ts) ← parseExpression fuel ts
      let (comma, ts) := tokConsumeV ts "PUNCTUATION" ","
      if comma.isSome then do
        let (rest, ts) ← parseCallArgs fuel ts
        .ok (e :: rest, ts)
      else .ok ([e], ts)

end

/-- The `while (!match(';') && pos < length) advance` skip loop. -/
def skipToSemicolon : Nat → List Tok → PRes (List Tok)
  | 0, _ => .error .stackOverflow
  | fuel + 1, ts =>
    if !tokMatchV ts "PUNCTUATION" ";" && !ts.isEmpty then
      skipToSemicolon fuel (ts.drop 1)
    else .ok ts

/-- The top-level parse loop (preprocessor directives all feed the imports
list; `using namespace` lines are skipped to the `;`). -/
def parseLoop : Nat → List Tok → PRes (List IRNode × List String)
  | 0, _ => .error .stackOverflow
  | fuel + 1, ts =>
    match ts with
    | [] => .ok ([], [])
    | t :: rest =>
      if t.ttype == "PREPROCESSOR" then do
        let (body, imports) ← parseLoop fuel rest
        .ok (body, t.value :: imports)
      else if t.ttype == "KEYWORD" && t.value == "using" then do
        let ts ← skipToSemicolon fuel (t :: rest)
        let (_, ts) := tokConsumeV ts "PUNCTUATION" ";"
        parseLoop fuel ts
      else do
        let (node, ts) ← parseTopLevel fuel (t :: rest)
        let (body, imports) ← parseLoop fuel ts
        .ok (node.toList ++ body, imports)

/-- The body of `parse` before its `try`/`catch`. -/
def parseCore (code : String) : PRes IRProgram := do
  let ts := tokenize code
  let (body, imports) ← parseLoop (code.data.length * 20 + 1000) ts
  .ok ⟨body, imports⟩

/-- `CppParser.parse` — the `catch` returns an empty `Program` on any
internal failure. -/
def parse (code : String) : IRProgram :=
  match parseCore code with
  | .ok p => p
  | .error _ => ⟨[], []⟩

end CppParser

namespace JavaParser

/-! ### `java-parser.ts` — lexer -/

/-- The JV reserved-word list. -/
def keywords : List String :=
  ["public", "private", "protected", "static", "final", "abstract",
   "class", "interface", "extends", "implements", "new", "this", "super",
   "if", "else", "for", "while", "do", "switch", "case", "default", "break",
   "continue", "return", "void", "int", "float", "double", "boolean",
   "char", "String", "true", "false", "null", "package", "import",
   "try", "catch", "finally", "throw", "throws"]

/-- Match `/^\d+\.?\d*[fFdDlL]?/`. -/
def numMunch (l : List Char) : Option (List Char × List Char) :=
  match l with
  | c :: _ =>
    if c.isDigit then
      let d1 := l.takeWhile Char.isDigit
      let r1 := l.dropWhile Char.isDigit
      let (dot, r2) :=
        match r1 with
        | '.' :: tl => (['.'], tl)
        | _ => ([], r1)
      let d2 := r2.takeWhile Char.isDigit
      let r3 := r2.dropWhile Char.isDigit
      let (suf, r4) :=
        match r3 with
        | s :: tl =>
          if s == 'f' || s == 'F' || s == 'd' || s == 'D' || s == 'l' || s == 'L' then
            ([s], tl)
          else ([], r3)
        | [] => ([], r3)
      some (d1 ++ dot ++ d2 ++ suf, r4)
    else none
  | [] => none

/-- `tokenize` — like the C lexer but with no preprocessor branch and the
bounds-checked string/char scans. -/
def tokenizeAux : Nat → List Char → List Tok
  | 0, _ => []
  | _, [] => []
  | fuel + 1, c :: cs =>
    if isJsSpace c then tokenizeAux fuel cs
    else if listStartsWith (c :: cs) ['/', '/'] then
      let body := (cs.drop 1).takeWhile (· != '\n')
      let rest := (cs.drop 1).dropWhile (· != '\n')
      ⟨"COMMENT", ⟨body⟩⟩ :: tokenizeAux fuel rest
    else if listStartsWith (c :: cs) ['/', '*'] then
      let (body, rest) := CParser.multiCommentScan (cs.drop 1)
      ⟨"MULTILINE_COMMENT", ⟨body⟩⟩ :: tokenizeAux fuel rest
    else if c == '"' then
      let (body, rest) := CppParser.stringScan cs
      ⟨"STRING", "\"" ++ ⟨body⟩ ++ "\""⟩ :: tokenizeAux fuel rest
    else if c == '\'' then
      let (body, rest) := CppParser.charScan cs
      ⟨"CHAR", "\'" ++ ⟨body⟩ ++ "\'"⟩ :: tokenizeAux fuel rest
    else
      match numMunch (c :: cs) with
      | some (num, rest) => ⟨"NUMBER", ⟨num⟩⟩ :: tokenizeAux fuel rest
      | none =>
        match CParser.wordMunch (c :: cs) with
        | some (word, rest) =>
          let w : String := ⟨word⟩
          ⟨if keywords.contains w then "KEYWORD" else "IDENTIFIER", w⟩ ::
            tokenizeAux fuel rest
        | none =>
          match CParser.opMunch (c :: cs) with
          | some (op, rest) => ⟨"OPERATOR", op⟩ :: tokenizeAux fuel rest
          | none => ⟨"PUNCTUATION", c.toString⟩ :: tokenizeAux fuel cs

/-- `JavaParser.tokenize`. -/
def tokenize (code : String) : List Tok :=
  tokenizeAux (code.data.length + 1) code.data

/-! ### `java-parser.ts` — parser -/

/-- `isType` — type keywords, or any identifier. -/
def isType : Option Tok → Bool
  | none => false
  | some t =>
    (t.ttype == "KEYWORD" &&
      ["int", "float", "double", "boolean", "char", "void", "String"].contains t.value) ||
    t.ttype == "IDENTIFIER"

/-- `mapJavaType`. -/
def mapJavaType (ty : String) : DataType :=
  if ty == "int" then .int
  else if ty == "float" then .float
  else if ty == "double" then .double
  else if ty == "boolean" then .bool
  else if ty == "char" then .char
  else if ty == "void" then .void
  else if ty == "String" then .string
  else .auto

/-- ASCII lower-casing (JavaScript `toLowerCase` on the lexer's output). -/
def jsToLower (s : String) : String :=
  ⟨s.data.map fun c => if 'A' ≤ c && c ≤ 'Z' then Char.ofNat (c.toNat + 32) else c⟩

/-- The range-extraction block of this front-end's `parseFor` (identical to
the CPP one: only `++` and `+=` updates populate the step). -/
def extractRange (init condition update : Option IRNode) :
    Option String × Option IRNode × Option IRNode × Option IRNode :=
  CppParser.extractRange init condition update

/-- `parseImport` — the whole directive up to `;`, tokens re-joined without
separators after the keyword. -/
def parseImportAux : Nat → String → List Tok → String × List Tok
  | 0, acc, ts => (acc, ts)
  | fuel + 1, acc, ts =>
    if !tokMatchV ts "PUNCTUATION" ";" && !ts.isEmpty then
      match ts with
      | t :: rest => parseImportAux fuel (acc ++ t.value) rest
      | [] => (acc, ts)
    else
      let (_, ts) := tokConsumeV ts "PUNCTUATION" ";"
      (acc, ts)

mutual

/-- `parseTopLevel`. -/
def parseTopLevel : Nat → List Tok → PRes (Option IRNode × List Tok)
  | 0, _ => .error .stackOverflow
  | fuel + 1, ts => do
    if tokMatch ts "COMMENT" then
      match ts with
      | t :: rest => .ok (some (.comment (jsTrim t.value) false), rest)
      | [] => .ok (none, ts)
    else if tokMatch ts "MULTILINE_COMMENT" then
      match ts with
      | t :: rest => .ok (some (.comment (jsTrim t.value) true), rest)
      | [] => .ok (none, ts)
    else do
      let ts ← skipAccessModifiers fuel ts
      if tokMatchV ts "KEYWORD" "class" then do
        let (c, ts) ← parseClass fuel ts
        .ok (some c, ts)
      else if isType ts.head? then do
        let (m, ts) ← parseMethodOrField fuel ts
        .ok (m, ts)
      else
        .ok (none, ts.drop 1)

/-- The access-modifier skip loop of `parseTopLevel`. -/
def skipAccessModifiers : Nat → List Tok → PRes (List Tok)
  | 0, _ => .error .stackOverflow
  | fuel + 1, ts =>
    if tokMatchV ts "KEYWORD" "public" || tokMatchV ts "KEYWORD" "private" ||
        tokMatchV ts "KEYWORD" "protected" || tokMatchV ts "KEYWORD" "static" ||
        tokMatchV ts "KEYWORD" "final" || tokMatchV ts "KEYWORD" "abstract" then
      skipAccessModifiers fuel (ts.drop 1)
    else .ok ts

/-- `parseClass` — a `static`-modified `main` method becomes the attached
`mainMethod` (and is not placed in `methods`); every other parsed method
lands in `methods`; `staticMethods` is never attached. -/
def parseClass : Nat → List Tok → PRes (IRNode × List Tok)
  | 0, _ => .error .stackOverflow
  | fuel + 1, ts => do
    let (_, ts) := tokConsumeV ts "KEYWORD" "class"
    let (nameToken, ts) := tokConsume ts "IDENTIFIER"
    let name := (nameToken.map Tok.value).getD "Unknown"
    let ts ← skipExtends fuel ts
    let (_, ts) := tokConsumeV ts "PUNCTUATION" "\x7b"
    let (members, methods, ctor, mainMethod, ts) ← parseClassBody fuel name ts
    let (_, ts) := tokConsumeV ts "PUNCTUATION" "\x7d"
    .ok (.classDecl name members methods ctor mainMethod none, ts)

/-- The `extends`/`implements` skip loop. -/
def skipExtends : Nat → List Tok → PRes (List Tok)
  | 0, _ => .error .stackOverflow
  | fuel + 1, ts =>
    if tokMatchV ts "KEYWORD" "extends" || tokMatchV ts "KEYWORD" "implements" then
      let ts := ts.drop 1
      let (_, ts) := tokConsume ts "IDENTIFIER"
      skipExtends fuel ts
    else .ok ts

/-- The member loop of `parseClass` (returns members, methods, the last
parsed constructor and the last `static main`). -/
def parseClassBody (fuel : Nat) (name : String) (ts : List Tok) :
    PRes (List IRNode × List IRNode × Option IRNode × Option IRNode × List Tok) :=
  match fuel with
  | 0 => .error .stackOverflow
  | fuel + 1 =>
    if !tokMatchV ts "PUNCTUATION" "\x7d" && !ts.isEmpty then do
      let (isStatic, ts) ← skipMemberModifiers fuel false ts
      if tokMatchV ts "IDENTIFIER" name then do
        let (c, ts) ← parseConstructor fuel name ts
        let (members, methods, lastCtor, mainMethod, ts) ← parseClassBody fuel name ts
        .ok (members, methods, some (lastCtor.getD c), mainMethod, ts)
      else if isType ts.head? then do
        let (memberOrMethod, ts) ← parseMethodOrField fuel ts
        match memberOrMethod with
        | some (.funcDecl fn p r b) =>
          if fn == "main" && isStatic then do
            let (members, methods, ctor, lastMain, ts) ← parseClassBody fuel name ts
            .ok (members, methods, ctor, some (lastMain.getD (.funcDecl fn p r b)), ts)
          else do
            let (members, methods, ctor, mainMethod, ts) ← parseClassBody fuel name ts
            .ok (members, .funcDecl fn p r b :: methods, ctor, mainMethod, ts)
        | some (.varDecl n d v c) => do
          let (members, methods, ctor, mainMethod, ts) ← parseClassBody fuel name ts
          .ok (.varDecl n d v c :: members, methods, ctor, mainMethod, ts)
        | _ => parseClassBody fuel name ts
      else if tokMatch ts "COMMENT" || tokMatch ts "MULTILINE_COMMENT" then
        parseClassBody fuel name (ts.drop 1)
      else
        parseClassBody fuel name (ts.drop 1)
    else .ok ([], [], none, none, ts)

/-- The modifier skip loop inside the class body, tracking `static`. -/
def skipMemberModifiers : Nat → Bool → List Tok → PRes (Bool × List Tok)
  | 0, _, _ => .error .stackOverflow
  | fuel + 1, isStatic, ts =>
    if tokMatchV ts "KEYWORD" "public" || tokMatchV ts "KEYWORD" "private" ||
        tokMatchV ts "KEYWORD" "protected" || tokMatchV ts "KEYWORD" "static" ||
        tokMatchV ts "KEYWORD" "final" then
      let isStatic := isStatic || tokMatchV ts "KEYWORD" "static"
      skipMemberModifiers fuel isStatic (ts.drop 1)
    else .ok (isStatic, ts)

/-- `parseConstructor` — normalized to a `__init__` function. -/
def parseConstructor : Nat → String → List Tok → PRes (IRNode × List Tok)
  | 0, _, _ => .error .stackOverflow
  | fuel + 1, _name, ts => do
    let (_, ts) := tokConsume ts "IDENTIFIER"
    let (_, ts) := tokConsumeV ts "PUNCTUATION" "("
    let (params, ts) ← parseParams fuel ts
    let (_, ts) := tokConsumeV ts "PUNCTUATION" ")"
    let (body, ts) ← parseBlock fuel ts
    .ok (.funcDecl "__init__" params .void body, ts)

/-- `parseMethodOrField`. -/
def parseMethodOrField : Nat → List Tok → PRes (Option IRNode × List Tok)
  | 0, _ => .error .stackOverflow
  | fuel + 1, ts =>
    match ts with
    | [] => .ok (none, ts)
    | typeToken :: ts => do
      let dataType := mapJavaType typeToken.value
      let (nameToken, ts) := tokConsume ts "IDENTIFIER"
      match nameToken with
      | none => .ok (none, ts)
      | some nameToken =>
        if tokMatchV ts "PUNCTUATION" "(" then do
          let (m, ts) ← parseMethod fuel nameToken.value dataType ts
          .ok (some m, ts)
        else do
          let (f, ts) ← parseField fuel nameToken.value dataType ts
          .ok (some f, ts)

/-- `parseMethod`. -/
def parseMethod : Nat → String → DataType → List Tok → PRes (IRNode × List Tok)
  | 0, _, _, _ => .error .stackOverflow
  | fuel + 1, name, returnType, ts => do
    let (_, ts) := tokConsumeV ts "PUNCTUATION" "("
    let (params, ts) ← parseParams fuel ts
    let (_, ts) := tokConsumeV ts "PUNCTUATION" ")"
    let (body, ts) ← parseBlock fuel ts
    .ok (.funcDecl name params returnType body, ts)

/-- `parseField`. -/
def parseField : Nat → String → DataType → List Tok → PRes (IRNode × List Tok)
  | 0, _, _, _ => .error .stackOverflow
  | fuel + 1, name, dataType, ts => do
    let (value, ts) ←
      if tokMatchV ts "PUNCTUATION" "=" then do
        let (e, ts) ← parseExpression fuel (ts.drop 1)
        pure (some e, ts)
      else pure (none, ts)
    let (_, ts) := tokConsumeV ts "PUNCTUATION" ";"
    .ok (.varDecl name dataType value false, ts)

/-- `parseParams` (array markers like `String[]` skipped). -/
def parseParams : Nat → List Tok → PRes (List IRNode × List Tok)
  | 0, _ => .error .stackOverflow
  | fuel + 1, ts =>
    if tokMatchV ts "PUNCTUATION" ")" then .ok ([], ts)
    else
      match ts with
      | [] => .ok ([], ts)
      | typeToken :: ts => do
        let ts :=
          if tokMatchV ts "PUNCTUATION" "[" then
            let ts := ts.drop 1
            let (_, ts) := tokConsumeV ts "PUNCTUATION" "]"
            ts
          else ts
        let (nameToken, ts) := tokConsume ts "IDENTIFIER"
        let p := nameToken.map fun t =>
          IRNode.varDecl t.value (mapJavaType typeToken.value) none false
        let (comma, ts) := tokConsumeV ts "PUNCTUATION" ","
        if comma.isSome then do
          let (rest, ts) ← parseParams fuel ts
          .ok (p.toList ++ rest, ts)
        else .ok (p.toList, ts)

/-- `parseBlock`. -/
def parseBlock : Nat → List Tok → PRes (List IRNode × List Tok)
  | 0, _ => .error .stackOverflow
  | fuel + 1, ts => do
    let (brace, ts) := tokConsumeV ts "PUNCTUATION" "\x7b"
    if brace.isNone then do
      let (stmt, ts) ← parseStatement fuel ts
      .ok (stmt.toList, ts)
    else do
      let (stmts, ts) ← parseBlockLoop fuel ts
      let (_, ts) := tokConsumeV ts "PUNCTUATION" "\x7d"
      .ok (stmts, ts)

/-- The statement loop of `parseBlock`. -/
def parseBlockLoop : Nat → List Tok → PRes (List IRNode × List Tok)
  | 0, _ => .error .stackOverflow
  | fuel + 1, ts =>
    if !tokMatchV ts "PUNCTUATION" "\x7d" && !ts.isEmpty then do
      let (stmt, ts) ← parseStatement fuel ts
      let (rest, ts) ← parseBlockLoop fuel ts
      .ok (stmt.toList ++ rest, ts)
    else .ok ([], ts)

/-- `parseStatement`. -/
def parseStatement : Nat → List Tok → PRes (Option IRNode × List Tok)
  | 0, _ => .error .stackOverflow
  | fuel + 1, ts =>
    if tokMatch ts "COMMENT" then
      match ts with
      | t :: rest => .ok (some (.comment (jsTrim t.value) false), rest)
      | [] => .ok (none, ts)
    else if tokMatch ts "MULTILINE_COMMENT" then
      match ts with
      | t :: rest => .ok (some (.comment (jsTrim t.value) true), rest)
      | [] => .ok (none, ts)
    else if tokMatchV ts "KEYWORD" "if" then do
      let (n, ts) ← parseIf fuel ts
      .ok (some n, ts)
    else if tokMatchV ts "KEYWORD" "for" then do
      let (n, ts) ← parseFor fuel ts
      .ok (some n, ts)
    else if tokMatchV ts "KEYWORD" "while" then do
      let (n, ts) ← parseWhile fuel ts
      .ok (some n, ts)
    else if tokMatchV ts "KEYWORD" "return" then do
      let (n, ts) ← parseReturn fuel ts
      .ok (some n, ts)
    else if tokMatchV ts "IDENTIFIER" "System" then do
      let (n, ts) ← parsePrintln fuel ts
      .ok (some n, ts)
    else if isType ts.head? then do
      let (n, ts) ← parseLocalVariable fuel ts
      .ok (some n, ts)
    else do
      let (expr, ts) ← parseExpression fuel ts
      let (_, ts) := tokConsumeV ts "PUNCTUATION" ";"
      .ok (some expr, ts)

/-- `parseIf`. -/
def parseIf : Nat → List Tok → PRes (IRNode × List Tok)
  | 0, _ => .error .stackOverflow
  | fuel + 1, ts => do
    let (_, ts) := tokConsumeV ts "KEYWORD" "if"
    let (_, ts) := tokConsumeV ts "PUNCTUATION" "("
    let (condition, ts) ← parseExpression fuel ts
    let (_, ts) := tokConsumeV ts "PUNCTUATION" ")"
    let (thenBranch, ts) ← parseBlock fuel ts
    if tokMatchV ts "KEYWORD" "else" then
      let ts := ts.drop 1
      if tokMatchV ts "KEYWORD" "if" then do
        let (elseIf, ts) ← parseIf fuel ts
        .ok (.ifStmt condition thenBranch none (some elseIf), ts)
      else do
        let (elseBranch, ts) ← parseBlock fuel ts
        .ok (.ifStmt condition thenBranch (some elseBranch) none, ts)
    else
      .ok (.ifStmt condition thenBranch none none, ts)

/-- `parseFor`. -/
def parseFor : Nat → List Tok → PRes (IRNode × List Tok)
  | 0, _ => .error .stackOverflow
  | fuel + 1, ts => do
    let (_, ts) := tokConsumeV ts "KEYWORD" "for"
    let (_, ts) := tokConsumeV ts "PUNCTUATION" "("
    let (init, ts) ←
      if !tokMatchV ts "PUNCTUATION" ";" then
        if isType ts.head? then do
          let (v, ts) ← parseLocalVariable fuel ts
          pure (some v, ts)
        else do
          let (e, ts) ← parseExpression fuel ts
          let (_, ts) := tokConsumeV ts "PUNCTUATION" ";"
          pure (some e, ts)
      else pure (none, ts.drop 1)
    let (condition, ts) ←
      if !tokMatchV ts "PUNCTUATION" ";" then do
        let (e, ts) ← parseExpression fuel ts
        pure (some e, ts)
      else pure (none, ts)
    let (_, ts) := tokConsumeV ts "PUNCTUATION" ";"
    let (update, ts) ←
      if !tokMatchV ts "PUNCTUATION" ")" then do
        let (e, ts) ← parseExpression fuel ts
        pure (some e, ts)
      else pure (none, ts)
    let (_, ts) := tokConsumeV ts "PUNCTUATION" ")"
    let (body, ts) ← parseBlock fuel ts
    let (iterator, rangeStart, rangeEnd, rangeStep) := extractRange init condition update
    .ok (.forStmt init condition update iterator rangeStart rangeEnd rangeStep body, ts)

/-- `parseWhile`. -/
def parseWhile : Nat → List Tok → PRes (IRNode × List Tok)
  | 0, _ => .error .stackOverflow
  | fuel + 1, ts => do
    let (_, ts) := tokConsumeV ts "KEYWORD" "while"
    let (_, ts) := tokConsumeV ts "PUNCTUATION" "("
    let (condition, ts) ← parseExpression fuel ts
    let (_, ts) := tokConsumeV ts "PUNCTUATION" ")"
    let (body, ts) ← parseBlock fuel ts
    .ok (.whileStmt condition body, ts)

/-- `parseReturn`. -/
def parseReturn : Nat → List Tok → PRes (IRNode × List Tok)
  | 0, _ => .error .stackOverflow
  | fuel + 1, ts => do
    let (_, ts) := tokConsumeV ts "KEYWORD" "return"
    if tokMatchV ts "PUNCTUATION" ";" then
      .ok (.returnStmt none, ts.drop 1)
    else do
      let (value, ts) ← parseExpression fuel ts
      let (_, ts) := tokConsumeV ts "PUNCTUATION" ";"
      .ok (.returnStmt (some value), ts)

/-- `parsePrintln` — `System.out.print`/`println`. -/
def parsePrintln : Nat → List Tok → PRes (IRNode × List Tok)
  | 0, _ => .error .stackOverflow
  | fuel + 1, ts => do
    let (_, ts) := tokConsumeV ts "IDENTIFIER" "System"
    let (_, ts) := tokConsumeV ts "PUNCTUATION" "."
    let (_, ts) := tokConsumeV ts "IDENTIFIER" "out"
    let (_, ts) := tokConsumeV ts "PUNCTUATION" "."
    let (methodToken, ts) :=
      match ts with
      | t :: rest => (some t, rest)
      | [] => (none, ts)
    let newline := (methodToken.map Tok.value) == some "println"
    let (_, ts) := tokConsumeV ts "PUNCTUATION" "("
    let (args, ts) ← parsePrintlnArgs fuel ts
    let (_, ts) := tokConsumeV ts "PUNCTUATION" ")"
    let (_, ts) := tokConsumeV ts "PUNCTUATION" ";"
    .ok (.print args newline, ts)

/-- The argument loop of `parsePrintln`. -/
def parsePrintlnArgs : Nat → List Tok → PRes (List IRNode × List Tok)
  | 0, _ => .error .stackOverflow
  | fuel + 1, ts =>
    if tokMatchV ts "PUNCTUATION" ")" then .ok ([], ts)
    else do
      let (e, ts) ← parseExpression fuel ts
      let (comma, ts) := tokConsumeV ts "PUNCTUATION" ","
      if comma.isSome then do
        let (rest, ts) ← parsePrintlnArgs fuel ts
        .ok (e :: rest, ts)
      else .ok ([e], ts)

/-- `parseLocalVariable`. -/
def parseLocalVariable : Nat → List Tok → PRes (IRNode × List Tok)
  | 0, _ => .error .stackOverflow
  | fuel + 1, ts =>
    match ts with
    | [] => .ok (.varDecl "unknown" .int none false, ts)
    | typeToken :: ts => do
      let dataType := mapJavaType typeToken.value
      let (nameToken, ts) := tokConsume ts "IDENTIFIER"
      match nameToken with
      | none => .ok (.varDecl "unknown" dataType none false, ts)
      | some nameToken => do
        let (value, ts) ←
          if tokMatchV ts "PUNCTUATION" "=" then do
            let (e, ts) ← parseExpression fuel (ts.drop 1)
            pure (some e, ts)
          else pure (none, ts)
        let (_, ts) := tokConsumeV ts "PUNCTUATION" ";"
        .ok (.varDecl nameToken.value dataType value false, ts)

/-- `parseExpression`. -/
def parseExpression : Nat → List Tok → PRes (IRNode × List Tok)
  | 0, _ => .error .stackOverflow
  | fuel + 1, ts => parseAssignment fuel ts

/-- `parseAssignment`. -/
def parseAssignment : Nat → List Tok → PRes (IRNode × List Tok)
  | 0, _ => .error .stackOverflow
  | fuel + 1, ts => do
    let (left, ts) ← parseLogicalOr fuel ts
    if tokMatchV ts "PUNCTUATION" "=" || tokMatchV ts "OPERATOR" "+=" ||
        tokMatchV ts "OPERATOR" "-=" || tokMatchV ts "OPERATOR" "*=" ||
        tokMatchV ts "OPERATOR" "/=" then
      match ts with
      | op :: ts => do
        let (right, ts) ← parseAssignment fuel ts
        .ok (.binaryOp op.value left right, ts)
      | [] => .ok (left, ts)
    else .ok (left, ts)

/-- `parseLogicalOr`. -/
def parseLogicalOr : Nat → List Tok → PRes (IRNode × List Tok)
  | 0, _ => .error .stackOverflow
  | fuel + 1, ts => do
    let (left, ts) ← parseLogicalAnd fuel ts
    parseLogicalOrLoop fuel left ts

/-- The `||` accumulation loop. -/
def parseLogicalOrLoop : Nat → IRNode → List Tok → PRes (IRNode × List Tok)
  | 0, _, _ => .error .stackOverflow
  | fuel + 1, left, ts =>
    if tokMatchV ts "OPERATOR" "||" then do
      let (right, ts) ← parseLogicalAnd fuel (ts.drop 1)
      parseLogicalOrLoop fuel (.binaryOp "||" left right) ts
    else .ok (left, ts)

/-- `parseLogicalAnd`. -/
def parseLogicalAnd : Nat → List Tok → PRes (IRNode × List Tok)
  | 0, _ => .error .stackOverflow
  | fuel + 1, ts => do
    let (left, ts) ← parseComparison fuel ts
    parseLogicalAndLoop fuel left ts

/-- The `&&` accumulation loop. -/
def parseLogicalAndLoop : Nat → IRNode → List Tok → PRes (IRNode × List Tok)
  | 0, _, _ => .error .stackOverflow
  | fuel + 1, left, ts =>
    if tokMatchV ts "OPERATOR" "&&" then do
      let (right, ts) ← parseComparison fuel (ts.drop 1)
      parseLogicalAndLoop fuel (.binaryOp "&&" left right) ts
    else .ok (left, ts)

/-- `parseComparison`. -/
def parseComparison : Nat → List Tok → PRes (IRNode × List Tok)
  | 0, _ => .error .stackOverflow
  | fuel + 1, ts => do
    let (left, ts) ← parseAddSub fuel ts
    parseComparisonLoop fuel left ts

/-- The comparison accumulation loop. -/
def parseComparisonLoop : Nat → IRNode → List Tok → PRes (IRNode × List Tok)
  | 0, _, _ => .error .stackOverflow
  | fuel + 1, left, ts =>
    if tokMatchV ts "OPERATOR" "==" || tokMatchV ts "OPERATOR" "!=" ||
        tokMatchV ts "PUNCTUATION" "<" || tokMatchV ts "PUNCTUATION" ">" ||
        tokMatchV ts "OPERATOR" "<=" || tokMatchV ts "OPERATOR" ">=" then
      match ts with
      | op :: ts => do
        let (right, ts) ← parseAddSub fuel ts
        parseComparisonLoop fuel (.binaryOp op.value left right) ts
      | [] => .ok (left, ts)
    else .ok (left, ts)

/-- `parseAddSub`. -/
def parseAddSub : Nat → List Tok → PRes (IRNode × List Tok)
  | 0, _ => .error .stackOverflow
  | fuel + 1, ts => do
    let (left, ts) ← parseMulDiv fuel ts
    parseAddSubLoop fuel left ts

/-- The `+ -` accumulation loop. -/
def parseAddSubLoop : Nat → IRNode → List Tok → PRes (IRNode × List Tok)
  | 0, _, _ => .error .stackOverflow
  | fuel + 1, left, ts =>
    if tokMatchV ts "PUNCTUATION" "+" || tokMatchV ts "PUNCTUATION" "-" then
      match ts with
      | op :: ts => do
        let (right, ts) ← parseMulDiv fuel ts
        parseAddSubLoop fuel (.binaryOp op.value left right) ts
      | [] => .ok (left, ts)
    else .ok (left, ts)

/-- `parseMulDiv`. -/
def parseMulDiv : Nat → List Tok → PRes (IRNode × List Tok)
  | 0, _ => .error .stackOverflow
  | fuel + 1, ts => do
    let (left, ts) ← parseUnary fuel ts
    parseMulDivLoop fuel left ts

/-- The `* / %` accumulation loop. -/
def parseMulDivLoop : Nat → IRNode → List Tok → PRes (IRNode × List Tok)
  | 0, _, _ => .error .stackOverflow
  | fuel + 1, left, ts =>
    if tokMatchV ts "PUNCTUATION" "*" || tokMatchV ts "PUNCTUATION" "/" ||
        tokMatchV ts "PUNCTUATION" "%" then
      match ts with
      | op :: ts => do
        let (right, ts) ← parseUnary fuel ts
        parseMulDivLoop fuel (.binaryOp op.value left right) ts
      | [] => .ok (left, ts)
    else .ok (left, ts)

/-- `parseUnary`. -/
def parseUnary : Nat → List Tok → PRes (IRNode × List Tok)
  | 0, _ => .error .stackOverflow
  | fuel + 1, ts =>
    if tokMatchV ts "PUNCTUATION" "!" || tokMatchV ts "PUNCTUATION" "-" ||
        tokMatchV ts "OPERATOR" "++" || tokMatchV ts "OPERATOR" "--" then
      match ts with
      | op :: ts => do
        let (operand, ts) ← parseUnary fuel ts
        .ok (.unaryOp op.value operand, ts)
      | [] => parsePostfixExpr fuel ts
    else parsePostfixExpr fuel ts

/-- `parsePostfix` — postfix `++ --`, and `.member(…)` method calls (a bare
`.member` without a call leaves the expression unchanged). -/
def parsePostfixExpr : Nat → List Tok → PRes (IRNode × List Tok)
  | 0, _ => .error .stackOverflow
  | fuel + 1, ts => do
    let (expr, ts) ← parsePrimary fuel ts
    parsePostfixLoop fuel expr ts

/-- The postfix accumulation loop. -/
def parsePostfixLoop : Nat → IRNode → List Tok → PRes (IRNode × List Tok)
  | 0, _, _ => .error .stackOverflow
  | fuel + 1, expr, ts =>
    if tokMatchV ts "OPERATOR" "++" || tokMatchV ts "OPERATOR" "--" then
      match ts with
      | op :: ts => parsePostfixLoop fuel (.unaryOp (op.value ++ "_post") expr) ts
      | [] => .ok (expr, ts)
    else if tokMatchV ts "PUNCTUATION" "." then do
      let (member, ts) := tokConsume (ts.drop 1) "IDENTIFIER"
      if tokMatchV ts "PUNCTUATION" "(" then do
        let (args, ts) ← parseCallArgs fuel (ts.drop 1)
        let (_, ts) := tokConsumeV ts "PUNCTUATION" ")"
        let objName :=
          match expr with
          | .identifier n => n
          | _ => "obj"
        parsePostfixLoop fuel
          (.call ((member.map Tok.value).getD "") args true (some objName)) ts
      else
        parsePostfixLoop fuel expr ts
    else .ok (expr, ts)

/-- `parsePrimary`. -/
def parsePrimary : Nat → List Tok → PRes (IRNode × List Tok)
  | 0, _ => .error .stackOverflow
  | fuel + 1, ts =>
    if tokMatchV ts "PUNCTUATION" "(" then do
      let (expr, ts) ← parseExpression fuel (ts.drop 1)
      let (_, ts) := tokConsumeV ts "PUNCTUATION" ")"
      .ok (expr, ts)
    else if tokMatchV ts "KEYWORD" "new" then do
      let (classNameTok, ts) := tokConsume (ts.drop 1) "IDENTIFIER"
      let className := (classNameTok.map Tok.value).getD "Object"
      let (_, ts) := tokConsumeV ts "PUNCTUATION" "("
      let (args, ts) ← parseCallArgs fuel ts
      let (_, ts) := tokConsumeV ts "PUNCTUATION" ")"
      .ok (.call className args false none, ts)
    else if tokMatchV ts "IDENTIFIER" "scanner" || tokMatchV ts "IDENTIFIER" "sc" ||
        tokMatchV ts "IDENTIFIER" "input" then
      let ts := ts.drop 1
      let (_, ts) := tokConsumeV ts "PUNCTUATION" "."
      let (methodTok, ts) :=
        match ts with
        | t :: rest => (some t, rest)
        | [] => (none, ts)
      let method := (methodTok.map Tok.value).getD "nextLine"
      let (_, ts) := tokConsumeV ts "PUNCTUATION" "("
      let (_, ts) := tokConsumeV ts "PUNCTUATION" ")"
      let targetType : DataType :=
        if method == "nextInt" then .int
        else if method == "nextFloat" || method == "nextDouble" then .float
        else .string
      .ok (.input none none (some targetType), ts)
    else if tokMatch ts "STRING" then
      match ts with
      | t :: ts => .ok (.literal (.str (sliceDropEnds t.value)) .string false, ts)
      | [] => .ok (.literal (.str "") .string false, ts)
    else if tokMatch ts "CHAR" then
      match ts with
      | t :: ts => .ok (.literal (.str (sliceDropEnds t.value)) .char false, ts)
      | [] => .ok (.literal (.str "") .string false, ts)
    else if tokMatch ts "NUMBER" then
      match ts with
      | t :: ts =>
        let value : String :=
          ⟨t.value.data.filter fun c =>
            !(c == 'f' || c == 'F' || c == 'd' || c == 'D' || c == 'l' || c == 'L')⟩
        let isFloat := jsIncludes value "." || jsIncludes (jsToLower t.value) "f"
        if isFloat then
          .ok (.literal (.num (jsParseFloat value)) .float false, ts)
        else
          .ok (.literal (.num (jsParseInt value)) .int false, ts)
      | [] => .ok (.literal (.str "") .string false, ts)
    else if tokMatchV ts "KEYWORD" "true" then
      .ok (.literal (.bool true) .bool false, ts.drop 1)
    else if tokMatchV ts "KEYWORD" "false" then
      .ok (.literal (.bool false) .bool false, ts.drop 1)
    else if tokMatchV ts "KEYWORD" "null" then
      .ok (.literal (.str "null") .void false, ts.drop 1)
    else if tokMatchV ts "KEYWORD" "this" then
      .ok (.identifier "this", ts.drop 1)
    else if tokMatch ts "IDENTIFIER" || tokMatch ts "KEYWORD" then
      match ts with
      | t :: ts =>
        if tokMatchV ts "PUNCTUATION" "(" then do
          let (args, ts) ← parseCallArgs fuel (ts.drop 1)
          let (_, ts) := tokConsumeV ts "PUNCTUATION" ")"
          .ok (.call t.value args false none, ts)
        else
          .ok (.identifier t.value, ts)
      | [] => .ok (.literal (.str "") .string false, ts)
    else
      .ok (.literal (.str "") .string false, ts.drop 1)

/-- The call-argument loop. -/
def parseCallArgs : Nat → List Tok → PRes (List IRNode × List Tok)
  | 0, _ => .error .stackOverflow
  | fuel + 1, ts =>
    if tokMatchV ts "PUNCTUATION" ")" then .ok ([], ts)
    else do
      let (e, ts) ← parseExpression fuel ts
      let (comma, ts) := tokConsumeV ts "PUNCTUATION" ","
      if comma.isSome then do
        let (rest, ts) ← parseCallArgs fuel ts
        .ok (e :: rest, ts)
      else .ok ([e], ts)

end

/-- The top-level parse loop (`package`/`import` lines feed the imports
list). -/
def parseLoop : Nat → List Tok → PRes (List IRNode × List String)
  | 0, _ => .error .stackOverflow
  | fuel + 1, ts =>
    match ts with
    | [] => .ok ([], [])
    | t :: rest =>
      if (t.ttype == "KEYWORD" && t.value == "package") ||
          (t.ttype == "KEYWORD" && t.value == "import") then
        let (stmt, ts) := parseImportAux fuel (t.value ++ " ") rest
        (do
          let (body, imports) ← parseLoop fuel ts
          .ok (body, stmt :: imports))
      else do
        let (node, ts) ← parseTopLevel fuel (t :: rest)
        let (body, imports) ← parseLoop fuel ts
        .ok (node.toList ++ body, imports)

/-- The body of `parse` before its `try`/`catch`. -/
def parseCore (code : String) : PRes IRProgram := do
  let ts := tokenize code
  let (body, imports) ← parseLoop (code.data.length * 20 + 1000) ts
  .ok ⟨body, imports⟩

/-- `JavaParser.parse` — the `catch` returns an empty `Program` on any
internal failure. -/
def parse (code : String) : IRProgram :=
  match parseCore code with
  | .ok p => p
  | .error _ => ⟨[], []⟩

end JavaParser

/-! ## Back-end emitters

Each emitter is a stateful walker in the source; here the indent counter is
passed explicitly and the pre-pass flags are computed by a pure analyzer.
JavaScript truthiness of an optional iterator name (`node.iterator && …`) is
`some` of a nonempty string. -/

/-- Truthiness of an optional string field. -/
def optStrTruthy : Option String → Bool
  | some s => s != ""
  | none => false

namespace CGenerator

/-- The include flags set by the analyzer pre-pass. -/
structure Flags where
  usesStdio : Bool
  usesString : Bool
  usesBool : Bool
deriving Repr, DecidableEq

mutual

/-- One step of `analyzeProgram`'s recursive `analyze` visitor. -/
def analyzeNode : Nat → Flags → IRNode → PRes Flags
  | 0, _, _ => .error .stackOverflow
  | fuel + 1, fl, node => do
    let fl :=
      match node with
      | .print _ _ => { fl with usesStdio := true }
      | .input _ _ _ => { fl with usesStdio := true }
      | .varDecl _ dt _ _ =>
        if dt == .string then { fl with usesString := true }
        else if dt == .bool then { fl with usesBool := true }
        else fl
      | _ => fl
    match node with
    | .funcDecl _ params _ body => do
      let fl ← analyzeList fuel fl body
      .ok (params.foldl (fun fl p =>
        match p with
        | .varDecl _ dt _ _ => if dt == .bool then { fl with usesBool := true } else fl
        | _ => fl) fl)
    | .classDecl _ members methods _ _ _ => do
      let fl ← analyzeList fuel fl members
      analyzeList fuel fl methods
    | .ifStmt _ thenB elseB _ => do
      let fl ← analyzeList fuel fl thenB
      analyzeList fuel fl (elseB.getD [])
    | .forStmt _ _ _ _ _ _ _ body => analyzeList fuel fl body
    | .whileStmt _ body => analyzeList fuel fl body
    | _ => .ok fl

/-- The list traversal of the analyzer. -/
def analyzeList : Nat → Flags → List IRNode → PRes Flags
  | 0, _, _ => .error .stackOverflow
  | _, fl, [] => .ok fl
  | fuel + 1, fl, n :: rest => do
    let fl ← analyzeNode fuel fl n
    analyzeList fuel fl rest

end

/-- `analyzeProgram`. -/
def analyzeProgram (ir : IRProgram) : PRes Flags :=
  analyzeList 10000 ⟨false, false, false⟩ ir.body

/-- `getIndent` (four spaces per level). -/
def getIndent (indent : Nat) : String :=
  jsRepeat "    " indent

/-- `mapType`. -/
def mapType (ty : DataType) (isParam : Bool := false) : String :=
  match ty with
  | .int => "int"
  | .float => "float"
  | .double => "double"
  | .char => "char"
  | .string => "char*"
  | .bool => "bool"
  | .void => "void"
  | .auto => if isParam then "const char*" else "int"

/-- `getDefaultValue`. -/
def getDefaultValue (ty : DataType) : String :=
  match ty with
  | .int => "0"
  | .float => "0.0"
  | .double => "0.0"
  | .string => "\"\""
  | .bool => "false"
  | .char => "\'\\0\'"
  | _ => "0"

/-- `inferType` — literals keep their tag, identifiers are `auto`, the three
conversion callees are known; everything else is `auto`. -/
def inferType : IRNode → DataType
  | .literal _ dt _ => dt
  | .identifier _ => .auto
  | .call callee _ _ _ =>
    if callee == "int" then .int
    else if callee == "float" then .float
    else if callee == "str" then .string
    else .auto
  | _ => .auto

/-- `parseFStringToFormat` — `{name}` placeholders become `%s` directives
and their names become extra arguments (fuel: one unit per consumed
character suffices). -/
def parseFStringToFormatAux : Nat → List Char → List Char × List String
  | 0, l => (l, [])
  | _, [] => ([], [])
  | fuel + 1, '\x7b' :: rest =>
    let content := rest.takeWhile (· != '\x7d')
    let after := rest.dropWhile (· != '\x7d')
    match after with
    | '\x7d' :: tail =>
      if content.isEmpty then
        let (f, args) := parseFStringToFormatAux fuel rest
        ('\x7b' :: f, args)
      else
        let (f, args) := parseFStringToFormatAux fuel tail
        ('%' :: 's' :: f, (⟨content⟩ : String) :: args)
    | _ =>
      let (f, args) := parseFStringToFormatAux fuel rest
      ('\x7b' :: f, args)
  | fuel + 1, c :: rest =>
    let (f, args) := parseFStringToFormatAux fuel rest
    (c :: f, args)

/-- `parseFStringToFormat` on strings. -/
def parseFStringToFormat (s : String) : String × List String :=
  let (f, args) := parseFStringToFormatAux (s.data.length + 1) s.data
  (⟨f⟩, args)

/-- `generateLiteral`. -/
def generateLiteral (v : LitVal) (dt : DataType) : String :=
  if dt == .string then "\"" ++ v.toStr ++ "\""
  else if dt == .char then "\'" ++ v.toStr ++ "\'"
  else if dt == .bool then (if v.truthy then "true" else "false")
  else if v == .str "null" then "NULL"
  else v.toStr

/-- `generateIdentifier` (`this` and a `self.` prefix lower to struct-pointer
form). -/
def generateIdentifier (name : String) : String :=
  if name == "this" then "self"
  else if jsStartsWith name "self." then jsReplaceFirst name "self." "self->"
  else name

/-- `generateInput` — a prompt printf plus a typed scanf. -/
def generateInput (indent : Nat) (node : IRNode) : String :=
  match node with
  | .input prompt targetVar targetType =>
    let fmt :=
      if targetType == some .int then "%d"
      else if targetType == some .float then "%f"
      else "%s"
    match prompt with
    | some prompt =>
      let printLine := getIndent indent ++ "printf(\"" ++ prompt ++ "\");\n"
      (match targetVar with
       | some tv => printLine ++ getIndent indent ++ "scanf(\"" ++ fmt ++ "\", &" ++ tv ++ ");"
       | none => printLine)
    | none =>
      match targetVar with
      | some tv => getIndent indent ++ "scanf(\"" ++ fmt ++ "\", &" ++ tv ++ ");"
      | none => ""
  | _ => ""

/-- `generateComment`. -/
def generateComment (indent : Nat) (text : String) (isMultiline : Bool) : String :=
  if isMultiline then
    getIndent indent ++ "/*\n" ++ getIndent indent ++ " * " ++ text ++ "\n" ++
      getIndent indent ++ " */"
  else
    getIndent indent ++ "// " ++ text

mutual

/-- `generateNode`. -/
def generateNode : Nat → Nat → IRNode → PRes String
  | 0, _, _ => .error .stackOverflow
  | fuel + 1, indent, node =>
    match node with
    | .comment text isMultiline => .ok (generateComment indent text isMultiline)
    | .varDecl _ _ _ _ => generateVariable fuel indent node
    | .funcDecl _ _ _ _ => generateFunction fuel indent node
    | .classDecl _ _ _ _ _ _ => generateClass fuel indent node
    | .ifStmt _ _ _ _ => generateIf fuel indent node
    | .forStmt _ _ _ _ _ _ _ _ => generateFor fuel indent node
    | .whileStmt _ _ => generateWhile fuel indent node
    | .returnStmt _ => generateReturn fuel indent node
    | .print _ _ => generatePrint fuel indent node
    | .input _ _ _ => .ok (generateInput indent node)
    | .assignment _ _ => generateAssignment fuel indent node
    | .call _ _ _ _ => do
      let c ← generateCall fuel node
      .ok (getIndent indent ++ c ++ ";")
    | .binaryOp _ _ _ => do
      let c ← generateBinaryOp fuel node
      .ok (getIndent indent ++ c ++ ";")
    | _ => .ok ""
termination_by structural a _ _ => a

/-- `generateVariable`. -/
def generateVariable : Nat → Nat → IRNode → PRes String
  | 0, _, _ => .error .stackOverflow
  | fuel + 1, indent, node =>
    match node with
    | .varDecl name dataType value _ => do
      if dataType == .string then do
        let v ←
          match value with
          | some v => generateExpression fuel v
          | none => pure "\"\""
        .ok (getIndent indent ++ "char " ++ name ++ "[256] = " ++ v ++ ";")
      else
        match value with
        | some v => do
          let v ← generateExpression fuel v
          .ok (getIndent indent ++ mapType dataType ++ " " ++ name ++ " = " ++ v ++ ";")
        | none =>
          .ok (getIndent indent ++ mapType dataType ++ " " ++ name ++ ";")
    | _ => .ok ""

/-- The `code += stmtCode + '\n'` body-emission loop shared by the block
forms. -/
def genBody : Nat → Nat → List IRNode → PRes String
  | 0, _, _ => .error .stackOverflow
  | _, _, [] => .ok ""
  | fuel + 1, indent, stmt :: rest => do
    let stmtCode ← generateNode fuel indent stmt
    let restCode ← genBody fuel indent rest
    .ok ((if stmtCode != "" then stmtCode ++ "\n" else "") ++ restCode)
termination_by structural a _ _ => a

/-- `generateFunction`. -/
def generateFunction : Nat → Nat → IRNode → PRes String
  | 0, _, _ => .error .stackOverflow
  | fuel + 1, indent, node =>
    match node with
    | .funcDecl name params returnType body => do
      let params := params.map fun p =>
        match p with
        | .varDecl pname pdt _ _ =>
          if pdt == .string then "char " ++ pname ++ "[]"
          else mapType pdt true ++ " " ++ pname
        | _ => ""
      let paramsStr := jsJoin ", " params
      let bodyCode ← genBody fuel (indent + 1) body
      .ok (getIndent indent ++ mapType returnType ++ " " ++ name ++ "(" ++
        (if paramsStr != "" then paramsStr else "void") ++ ") \x7b\n" ++
        bodyCode ++ getIndent indent ++ "\x7d")
    | _ => .ok ""
termination_by structural a _ _ => a

/-- `generateClass` — an entry-point shell (attached `mainMethod`, no
members, no methods) flattens to a free `int main()`; otherwise a
`typedef struct` with function pointers, per-method free functions, an
`_init` installer, and a trailing `int main()` when a `mainMethod` is
attached. -/
def generateClass : Nat → Nat → IRNode → PRes String
  | 0, _, _ => .error .stackOverflow
  | fuel + 1, indent, node =>
    match node with
    | .classDecl name members methods ctor mainMethod _ => do
      let hasOnlyMainMethod := mainMethod.isSome && methods.length == 0 && members.length == 0
      if hasOnlyMainMethod then do
        let mainBody :=
          match mainMethod with
          | some (.funcDecl _ _ _ b) => b
          | _ => []
        let bodyCode ← genBody fuel (indent + 1) mainBody
        .ok (getIndent indent ++ "int main() \x7b\n" ++ bodyCode ++
          getIndent (indent + 1) ++ "return 0;\n" ++ getIndent indent ++ "\x7d")
      else do
        let memberLines := members.foldl (fun acc m =>
          match m with
          | .varDecl mname mdt _ _ =>
            if mdt == .string then
              acc ++ getIndent (indent + 1) ++ "char " ++ mname ++ "[256];\n"
            else
              acc ++ getIndent (indent + 1) ++ mapType mdt ++ " " ++ mname ++ ";\n"
          | _ => acc) ""
        let methodPtrLines := methods.foldl (fun acc m =>
          match m with
          | .funcDecl mname mparams mret _ =>
            let params := jsJoin ", " (mparams.map fun p =>
              match p with
              | .varDecl _ pdt _ _ => mapType pdt
              | _ => "")
            acc ++ getIndent (indent + 1) ++ mapType mret ++ " (*" ++ mname ++ ")(" ++
              name ++ "*" ++ (if params != "" then ", " ++ params else "") ++ ");\n"
          | _ => acc) ""
        let methodImpls ← genMethodImpls fuel indent name methods
        let ctorParams :=
          match ctor with
          | some (.funcDecl _ cparams _ _) =>
            if cparams.length != 0 then
              ", " ++ jsJoin ", " (cparams.map fun p =>
                match p with
                | .varDecl pname pdt _ _ => mapType pdt ++ " " ++ pname
                | _ => "")
            else ""
          | _ => ""
        let initMembers := members.foldl (fun acc m =>
          match m with
          | .varDecl mname mdt _ _ =>
            acc ++ getIndent (indent + 1) ++ "self->" ++ mname ++ " = " ++
              getDefaultValue mdt ++ ";\n"
          | _ => acc) ""
        let initMethods := methods.foldl (fun acc m =>
          match m with
          | .funcDecl mname _ _ _ =>
            acc ++ getIndent (indent + 1) ++ "self->" ++ mname ++ " = " ++
              name ++ "_" ++ mname ++ ";\n"
          | _ => acc) ""
        let mainPart ←
          match mainMethod with
          | some (.funcDecl _ _ _ mbody) => do
            let bodyCode ← genBody fuel (indent + 1) mbody
            pure ("\n" ++ getIndent indent ++ "int main() \x7b\n" ++ bodyCode ++
              getIndent (indent + 1) ++ "return 0;\n" ++ getIndent indent ++ "\x7d")
          | _ => pure ""
        .ok (getIndent indent ++ "typedef struct " ++ name ++ " " ++ name ++ ";\n\n" ++
          getIndent indent ++ "struct " ++ name ++ " \x7b\n" ++
          memberLines ++ methodPtrLines ++
          getIndent indent ++ "\x7d;\n\n" ++
          methodImpls ++
          getIndent indent ++ "void " ++ name ++ "_init(" ++ name ++ "* self" ++
          ctorParams ++ ") \x7b\n" ++
          initMembers ++ initMethods ++
          getIndent indent ++ "\x7d\n" ++ mainPart)
    | _ => .ok ""
termination_by structural a _ _ => a

/-- The per-method free-function emission loop of `generateClass`. -/
def genMethodImpls : Nat → Nat → String → List IRNode → PRes String
  | 0, _, _, _ => .error .stackOverflow
  | _, _, _, [] => .ok ""
  | fuel + 1, indent, cname, m :: rest => do
    let cur ←
      match m with
      | .funcDecl mname mparams mret mbody => do
        let params := jsJoin ", " (mparams.map fun p =>
          match p with
          | .varDecl pname pdt _ _ => mapType pdt ++ " " ++ pname
          | _ => "")
        let bodyCode ← genBody fuel (indent + 1) mbody
        pure (getIndent indent ++ mapType mret ++ " " ++ cname ++ "_" ++ mname ++
          "(" ++ cname ++ "* self" ++ (if params != "" then ", " ++ params else "") ++
          ") \x7b\n" ++ bodyCode ++ getIndent indent ++ "\x7d\n\n")
      | _ => pure ""
    let restCode ← genMethodImpls fuel indent cname rest
    .ok (cur ++ restCode)
termination_by structural a _ _ _ => a

/-- `generateIf`. -/
def generateIf : Nat → Nat → IRNode → PRes String
  | 0, _, _ => .error .stackOverflow
  | fuel + 1, indent, node =>
    match node with
    | .ifStmt condition thenBranch elseBranch elseIf => do
      let cond ← generateExpression fuel condition
      let thenCode ← genBody fuel (indent + 1) thenBranch
      let base := getIndent indent ++ "if (" ++ cond ++ ") \x7b\n" ++ thenCode ++
        getIndent indent ++ "\x7d"
      match elseIf with
      | some elseIfNode => do
        let elseIfCode ← generateIf fuel indent elseIfNode
        .ok (base ++ " else " ++ jsTrimStart elseIfCode)
      | none =>
        match elseBranch with
        | some elseBranch =>
          if elseBranch.length > 0 then do
            let elseCode ← genBody fuel (indent + 1) elseBranch
            .ok (base ++ " else \x7b\n" ++ elseCode ++ getIndent indent ++ "\x7d")
          else .ok base
        | none => .ok base
    | _ => .ok ""
termination_by structural a _ _ => a

/-- `generateFor` — the range form is preferred when an iterator name and a
range end are present. -/
def generateFor : Nat → Nat → IRNode → PRes String
  | 0, _, _ => .error .stackOverflow
  | fuel + 1, indent, node =>
    match node with
    | .forStmt init condition update iterator rangeStart rangeEnd rangeStep body => do
      if optStrTruthy iterator && rangeEnd.isSome then do
        let iter := iterator.getD ""
        let start ←
          match rangeStart with
          | some s => generateExpression fuel s
          | none => pure "0"
        let endE ←
          match rangeEnd with
          | some e => generateExpression fuel e
          | none => pure "0"
        let step ←
          match rangeStep with
          | some s => generateExpression fuel s
          | none => pure "1"
        let bodyCode ← genBody fuel (indent + 1) body
        .ok (getIndent indent ++ "for (int " ++ iter ++ " = " ++ start ++ "; " ++
          iter ++ " < " ++ endE ++ "; " ++ iter ++ " += " ++ step ++ ") \x7b\n" ++
          bodyCode ++ getIndent indent ++ "\x7d")
      else do
        let initStr ←
          match init with
          | some (.varDecl name dt value _) => do
            let v ←
              match value with
              | some v => generateExpression fuel v
              | none => pure "0"
            pure (mapType dt ++ " " ++ name ++ " = " ++ v)
          | some e => generateExpression fuel e
          | none => pure ""
        let condStr ←
          match condition with
          | some c => generateExpression fuel c
          | none => pure ""
        let updateStr ←
          match update with
          | some u => generateExpression fuel u
          | none => pure ""
        let bodyCode ← genBody fuel (indent + 1) body
        .ok (getIndent indent ++ "for (" ++ initStr ++ "; " ++ condStr ++ "; " ++
          updateStr ++ ") \x7b\n" ++ bodyCode ++ getIndent indent ++ "\x7d")
    | _ => .ok ""
termination_by structural a _ _ => a

/-- `generateWhile`. -/
def generateWhile : Nat → Nat → IRNode → PRes String
  | 0, _, _ => .error .stackOverflow
  | fuel + 1, indent, node =>
    match node with
    | .whileStmt condition body => do
      let cond ← generateExpression fuel condition
      let bodyCode ← genBody fuel (indent + 1) body
      .ok (getIndent indent ++ "while (" ++ cond ++ ") \x7b\n" ++ bodyCode ++
        getIndent indent ++ "\x7d")
    | _ => .ok ""
termination_by structural a _ _ => a

/-- `generateReturn`. -/
def generateReturn : Nat → Nat → IRNode → PRes String
  | 0, _, _ => .error .stackOverflow
  | fuel + 1, indent, node =>
    match node with
    | .returnStmt (some value) => do
      let v ← generateExpression fuel value
      .ok (getIndent indent ++ "return " ++ v ++ ";")
    | .returnStmt none => .ok (getIndent indent ++ "return;")
    | _ => .ok ""

/-- `generatePrint` — rebuild a `printf` format string from the argument
sequence: string literals contribute their (placeholder-expanded) text,
other arguments contribute a directive chosen from the inferred type
(`%d` int, `%f` float/double, `%c` char, `%s` otherwise); `\n` is appended
when the newline flag is set and the format does not already end with it. -/
def generatePrint : Nat → Nat → IRNode → PRes String
  | 0, _, _ => .error .stackOverflow
  | fuel + 1, indent, node =>
    match node with
    | .print args newline => do
      if args.length == 0 then
        .ok (if newline then getIndent indent ++ "printf(\"\\n\");" else "")
      else do
        let (format, argStrs) ← printArgsLoop fuel args
        let format :=
          if newline && !jsEndsWith format "\\n" then format ++ "\\n" else format
        if argStrs.length == 0 then
          .ok (getIndent indent ++ "printf(\"" ++ format ++ "\");")
        else
          .ok (getIndent indent ++ "printf(\"" ++ format ++ "\", " ++
            jsJoin ", " argStrs ++ ");")
    | _ => .ok ""

/-- The format/argument accumulation loop of `generatePrint`. -/
def printArgsLoop : Nat → List IRNode → PRes (String × List String)
  | 0, _ => .error .stackOverflow
  | _, [] => .ok ("", [])
  | fuel + 1, arg :: rest => do
    let (fmt, args) ←
      match arg with
      | .literal (.str s) .string _ =>
        let (f, names) := parseFStringToFormat s
        pure (f, names)
      | _ => do
        let expr ← generateExpression fuel arg
        let fmt :=
          match inferType arg with
          | .int => "%d"
          | .float => "%f"
          | .double => "%f"
          | .char => "%c"
          | _ => "%s"
        pure (fmt, [expr])
    let (restFmt, restArgs) ← printArgsLoop fuel rest
    .ok (fmt ++ restFmt, args ++ restArgs)
termination_by structural a _ => a

/-- `generateAssignment` (a `self.` prefix becomes `self->`). -/
def generateAssignment : Nat → Nat → IRNode → PRes String
  | 0, _, _ => .error .stackOverflow
  | fuel + 1, indent, node =>
    match node with
    | .assignment target value => do
      let v ← generateExpression fuel value
      .ok (getIndent indent ++ jsReplaceFirst target "self." "self->" ++ " = " ++ v ++ ";")
    | _ => .ok ""

/-- `generateExpression`. -/
def generateExpression : Nat → IRNode → PRes String
  | 0, _ => .error .stackOverflow
  | fuel + 1, node =>
    match node with
    | .literal v dt _ => .ok (generateLiteral v dt)
    | .identifier name => .ok (generateIdentifier name)
    | .binaryOp _ _ _ => generateBinaryOp fuel node
    | .call _ _ _ _ => generateCall fuel node
    | .input _ _ _ => .ok "0"
    | .unaryOp op operand => do
      let o ← generateExpression fuel operand
      if op == "++_post" then .ok (o ++ "++")
      else if op == "--_post" then .ok (o ++ "--")
      else .ok (op ++ o)
    | _ => .ok ""
termination_by structural a _ => a

/-- `generateBinaryOp`. -/
def generateBinaryOp : Nat → IRNode → PRes String
  | 0, _ => .error .stackOverflow
  | fuel + 1, node =>
    match node with
    | .binaryOp op left right => do
      let l ← generateExpression fuel left
      let r ← generateExpression fuel right
      .ok (l ++ " " ++ op ++ " " ++ r)
    | _ => .ok ""
termination_by structural a _ => a

/-- `generateCall`. -/
def generateCall : Nat → IRNode → PRes String
  | 0, _ => .error .stackOverflow
  | fuel + 1, node =>
    match node with
    | .call callee args isMethod object => do
      let argStrs ← genExprList fuel args
      let argsStr := jsJoin ", " argStrs
      if callee == "int" then .ok ("(int)(" ++ argsStr ++ ")")
      else if callee == "float" then .ok ("(float)(" ++ argsStr ++ ")")
      else if callee == "str" then .ok argsStr
      else if isMethod && optStrTruthy object then
        let obj := object.getD ""
        let obj := if obj == "this" then "self" else obj
        .ok (obj ++ "->" ++ callee ++ "(" ++ obj ++
          (if argsStr != "" then ", " ++ argsStr else "") ++ ")")
      else
        .ok (callee ++ "(" ++ argsStr ++ ")")
    | _ => .ok ""
termination_by structural a _ => a

/-- The argument-mapping loop of `generateCall`. -/
def genExprList : Nat → List IRNode → PRes (List String)
  | 0, _ => .error .stackOverflow
  | _, [] => .ok []
  | fuel + 1, e :: rest => do
    let s ← generateExpression fuel e
    let restStrs ← genExprList fuel rest
    .ok (s :: restStrs)
termination_by structural a _ => a

end

/-- The `lines.push` loop of `generate` over a node list at indent 0. -/
def genLines : Nat → List IRNode → PRes (List String)
  | 0, _ => .error .stackOverflow
  | _, [] => .ok []
  | fuel + 1, n :: rest => do
    let code ← generateNode fuel 0 n
    let restLines ← genLines fuel rest
    .ok ((if code != "" then [code] else []) ++ restLines)

/-- The main-body `lines.push` loop at indent 1. -/
def genMainLines : Nat → List IRNode → PRes (List String)
  | 0, _ => .error .stackOverflow
  | _, [] => .ok []
  | fuel + 1, n :: rest => do
    let code ← generateNode fuel 1 n
    let restLines ← genMainLines fuel rest
    .ok ((if code != "" then [code] else []) ++ restLines)

/-- The function-emission loop of `generate` (`main` gets the special
wrapping). -/
def genFuncLines : Nat → List IRNode → PRes (List String)
  | 0, _ => .error .stackOverflow
  | _, [] => .ok []
  | fuel + 1, f :: rest => do
    let cur ←
      match f with
      | .funcDecl name _ _ body =>
        if name == "main" then do
          let inner ← genMainLines fuel body
          pure (["int main() \x7b"] ++ inner ++ [getIndent 1 ++ "return 0;", "\x7d"])
        else do
          let code ← generateNode fuel 0 f
          pure (if code != "" then [code] else [])
      | _ => pure []
    let restLines ← genFuncLines fuel rest
    .ok (cur ++ restLines)

/-- `CGenerator.generate` — includes, then classes, then functions (`main`
wrapped as `int main()` with a trailing `return 0;`), then leftover
main-content wrapped in `int main()` when no `main` function exists. -/
def generate (ir : IRProgram) : PRes String := do
  let fl ← analyzeProgram ir
  let includeLines :=
    (if fl.usesStdio then ["#include <stdio.h>"] else []) ++
    (if fl.usesString then ["#include <string.h>"] else []) ++
    (if fl.usesBool then ["#include <stdbool.h>"] else [])
  let includeLines := if includeLines.length > 0 then includeLines ++ [""] else includeLines
  let functions := ir.body.filter IRNode.isFunction
  let classes := ir.body.filter IRNode.isClass
  let mainContent := ir.body.filter fun n => !n.isFunction && !n.isClass
  let classLines ← genLines 10000 classes
  let funcLines ← genFuncLines 10000 functions
  let hasMainFn := functions.any fun f =>
    match f with
    | .funcDecl name _ _ _ => name == "main"
    | _ => false
  let mainLines ←
    if mainContent.length > 0 && !hasMainFn then do
      let inner ← genMainLines 10000 mainContent
      pure (["int main() \x7b"] ++ inner ++ [getIndent 1 ++ "return 0;", "\x7d"])
    else pure []
  .ok (jsJoin "\n" (includeLines ++ classLines ++ funcLines ++ mainLines))

end CGenerator

namespace PythonGenerator

/-- `getIndent`. -/
def getIndent (indent : Nat) : String :=
  jsRepeat "    " indent

/-- `getDefaultValue`. -/
def getDefaultValue (ty : DataType) : String :=
  match ty with
  | .int => "0"
  | .float => "0.0"
  | .double => "0.0"
  | .string => "\"\""
  | .bool => "False"
  | _ => "None"

/-- `/%[dsifc]/.test(s)` — does `s` contain a `%` directly followed by one
of `d s i f c`? -/
def hasFmtDirective : List Char → Bool
  | '%' :: d :: rest =>
    ['d', 's', 'i', 'f', 'c'].contains d || hasFmtDirective (d :: rest)
  | _ :: rest => hasFmtDirective rest
  | [] => false

/-- `replace(/%[dsifc]/g, …)` — each directive becomes `{nextVar}` pulling
from `varArgs` in order (an exhausted list yields the empty name). -/
def fmtToFString : Nat → List Char → List String → List Char
  | 0, l, _ => l
  | _, [], _ => []
  | fuel + 1, '%' :: d :: rest, varArgs =>
    if ['d', 's', 'i', 'f', 'c'].contains d then
      let varName := (varArgs.head?).getD ""
      '\x7b' :: varName.data ++ '\x7d' :: fmtToFString fuel rest (varArgs.drop 1)
    else '%' :: fmtToFString fuel (d :: rest) varArgs
  | fuel + 1, c :: rest, varArgs => c :: fmtToFString fuel rest varArgs

/-- `generateLiteral`. -/
def generateLiteral (v : LitVal) (dt : DataType) : String :=
  if dt == .string then
    let value := v.toStr
    if jsIncludes value "\x7b" && jsIncludes value "\x7d" then
      "f\"" ++ stripTrailingNL value ++ "\""
    else
      "\"" ++ stripTrailingNL value ++ "\""
  else if dt == .bool then (if v.truthy then "True" else "False")
  else if v == .str "null" then "None"
  else if v == .str "true" then "True"
  else if v == .str "false" then "False"
  else v.toStr

/-- `generateIdentifier`. -/
def generateIdentifier (name : String) : String :=
  if name == "this" then "self" else name

/-- `generateInput` (statement position). -/
def generateInput (indent : Nat) (node : IRNode) : String :=
  match node with
  | .input prompt targetVar targetType =>
    let promptStr :=
      match prompt with
      | some p => "\"" ++ p ++ "\""
      | none => "\"\""
    (match targetVar with
     | some tv =>
       if targetType == some .int then
         getIndent indent ++ tv ++ " = int(input(" ++ promptStr ++ "))"
       else if targetType == some .float then
         getIndent indent ++ tv ++ " = float(input(" ++ promptStr ++ "))"
       else
         getIndent indent ++ tv ++ " = input(" ++ promptStr ++ ")"
     | none => getIndent indent ++ "input(" ++ promptStr ++ ")")
  | _ => ""

mutual

/-- `generateNode`. -/
def generateNode : Nat → Nat → IRNode → PRes String
  | 0, _, _ => .error .stackOverflow
  | fuel + 1, indent, node =>
    match node with
    | .comment text isMultiline =>
      if isMultiline then
        .ok (getIndent indent ++ "\"\"\"\n" ++ getIndent indent ++ text ++ "\n" ++
          getIndent indent ++ "\"\"\"")
      else .ok (getIndent indent ++ "# " ++ text)
    | .varDecl _ _ _ _ => generateVariable fuel indent node
    | .funcDecl _ _ _ _ => generateFunction fuel indent node
    | .classDecl _ _ _ _ _ _ => generateClass fuel indent node
    | .ifStmt _ _ _ _ => generateIf fuel indent node
    | .forStmt _ _ _ _ _ _ _ _ => generateFor fuel indent node
    | .whileStmt _ _ => generateWhile fuel indent node
    | .switchStmt _ _ _ => generateSwitch fuel indent node
    | .returnStmt _ => generateReturn fuel indent node
    | .print _ _ => generatePrint fuel indent node
    | .input _ _ _ => .ok (generateInput indent node)
    | .assignment _ _ => generateAssignment fuel indent node
    | .call _ _ _ _ => do
      let c ← generateCall fuel node
      .ok (getIndent indent ++ c)
    | .binaryOp _ _ _ => do
      let c ← generateBinaryOp fuel node
      .ok (getIndent indent ++ c)
    | .literal v dt _ => .ok (getIndent indent ++ generateLiteral v dt)
    | .identifier name => .ok (getIndent indent ++ generateIdentifier name)
    | .breakStmt => .ok (getIndent indent ++ "break")
    | _ => .ok ""
termination_by structural a _ _ => a

/-- `generateVariable`. -/
def generateVariable : Nat → Nat → IRNode → PRes String
  | 0, _, _ => .error .stackOverflow
  | fuel + 1, indent, node =>
    match node with
    | .varDecl name dataType value _ =>
      match value with
      | some (.input prompt _ _) =>
        let promptStr :=
          match prompt with
          | some p => "\"" ++ p ++ "\""
          | none => ""
        if dataType == .int then
          .ok (getIndent indent ++ name ++ " = int(input(" ++ promptStr ++ "))")
        else if dataType == .float then
          .ok (getIndent indent ++ name ++ " = float(input(" ++ promptStr ++ "))")
        else
          .ok (getIndent indent ++ name ++ " = input(" ++ promptStr ++ ")")
      | some v => do
        let vs ← generateExpression fuel v
        .ok (getIndent indent ++ name ++ " = " ++ vs)
      | none =>
        .ok (getIndent indent ++ name ++ " = " ++ getDefaultValue dataType)
    | _ => .ok ""

/-- The `code += stmtCode + '\n'` body loop. -/
def genBody : Nat → Nat → List IRNode → PRes String
  | 0, _, _ => .error .stackOverflow
  | _, _, [] => .ok ""
  | fuel + 1, indent, stmt :: rest => do
    let stmtCode ← generateNode fuel indent stmt
    let restCode ← genBody fuel indent rest
    .ok ((if stmtCode != "" then stmtCode ++ "\n" else "") ++ restCode)
termination_by structural a _ _ => a

/-- `generateFunction` (empty bodies get `pass`; the result keeps its
trailing newline). -/
def generateFunction : Nat → Nat → IRNode → PRes String
  | 0, _, _ => .error .stackOverflow
  | fuel + 1, indent, node =>
    match node with
    | .funcDecl name params _ body => do
      let paramsStr := jsJoin ", " (params.map fun p =>
        match p with
        | .varDecl pname _ _ _ => pname
        | _ => "")
      let bodyCode ←
        if body.length == 0 then pure (getIndent (indent + 1) ++ "pass\n")
        else genBody fuel (indent + 1) body
      .ok (getIndent indent ++ "def " ++ name ++ "(" ++ paramsStr ++ "):\n" ++ bodyCode)
    | _ => .ok ""
termination_by structural a _ _ => a

/-- `generateClass` — the entry-point-shell branch flattens the attached
`mainMethod` (and the `staticMethods` list, when present) to module level;
otherwise a `class` with `__init__` and the methods. -/
def generateClass : Nat → Nat → IRNode → PRes String
  | 0, _, _ => .error .stackOverflow
  | fuel + 1, indent, node =>
    match node with
    | .classDecl name members methods ctor mainMethod staticMethods => do
      let hasOnlyMainMethod := mainMethod.isSome && methods.length == 0 && members.length == 0
      if hasOnlyMainMethod || (mainMethod.isSome && staticMethods.isSome) then do
        let staticCode ← genStaticFns fuel indent (staticMethods.getD [])
        let mainBody :=
          match mainMethod with
          | some (.funcDecl _ _ _ b) => b
          | _ => []
        let mainCode ← genMainBody fuel indent mainBody
        .ok (jsTrimEnd (staticCode ++ "# Main program\n" ++ mainCode))
      else do
        let ctorPart ←
          if ctor.isSome || members.length > 0 then do
            let params :=
              match ctor with
              | some (.funcDecl _ cparams _ _) =>
                jsJoin ", " (cparams.map fun p =>
                  match p with
                  | .varDecl pname _ _ _ => pname
                  | _ => "")
              | _ => ""
            let memberLines ← genMemberInits fuel (indent + 2) members
            let ctorBody ←
              match ctor with
              | some (.funcDecl _ _ _ cbody) => genCtorBody fuel (indent + 2) cbody
              | _ => pure ""
            let passLine :=
              if members.length == 0 &&
                  (match ctor with
                   | some (.funcDecl _ _ _ cbody) => cbody.length == 0
                   | _ => true) then
                getIndent (indent + 2) ++ "pass\n"
              else ""
            pure (getIndent (indent + 1) ++ "def __init__(self" ++
              (if params != "" then ", " ++ params else "") ++ "):\n" ++
              memberLines ++ ctorBody ++ passLine)
          else pure ""
        let methodsPart ← genMethods fuel (indent + 1) methods
        .ok (getIndent indent ++ "class " ++ name ++ ":\n" ++ ctorPart ++ methodsPart)
    | _ => .ok ""
termination_by structural a _ _ => a

/-- The static-method flattening loop of `generateClass`. -/
def genStaticFns : Nat → Nat → List IRNode → PRes String
  | 0, _, _ => .error .stackOverflow
  | _, _, [] => .ok ""
  | fuel + 1, indent, m :: rest => do
    let funcCode ← generateFunction fuel indent m
    let restCode ← genStaticFns fuel indent rest
    .ok (funcCode ++ "\n" ++ restCode)
termination_by structural a _ _ => a

/-- The main-body flattening loop of `generateClass`
(`return 0` statements skipped). -/
def genMainBody : Nat → Nat → List IRNode → PRes String
  | 0, _, _ => .error .stackOverflow
  | _, _, [] => .ok ""
  | fuel + 1, indent, stmt :: rest => do
    let skip : Bool :=
      match stmt with
      | .returnStmt (some (.literal v _ _)) => v == .num (.int 0)
      | _ => false
    if skip then genMainBody fuel indent rest
    else do
      let stmtCode ← generateNode fuel indent stmt
      let restCode ← genMainBody fuel indent rest
      .ok ((if stmtCode != "" then stmtCode ++ "\n" else "") ++ restCode)
termination_by structural a _ _ => a

/-- The `self.x = default` member-initialization loop of `__init__`. -/
def genMemberInits : Nat → Nat → List IRNode → PRes String
  | 0, _, _ => .error .stackOverflow
  | _, _, [] => .ok ""
  | fuel + 1, indent, m :: rest => do
    let cur ←
      match m with
      | .varDecl mname mdt value _ => do
        let v ←
          match value with
          | some v => generateExpression fuel v
          | none => pure (getDefaultValue mdt)
        pure (getIndent indent ++ "self." ++ mname ++ " = " ++ v ++ "\n")
      | _ => pure ""
    let restCode ← genMemberInits fuel indent rest
    .ok (cur ++ restCode)
termination_by structural a _ _ => a

/-- The constructor-body loop of `__init__` (statements mentioning `self.`
are dropped, having been promoted to member initializers). -/
def genCtorBody : Nat → Nat → List IRNode → PRes String
  | 0, _, _ => .error .stackOverflow
  | _, _, [] => .ok ""
  | fuel + 1, indent, stmt :: rest => do
    let stmtCode ← generateNode fuel indent stmt
    let restCode ← genCtorBody fuel indent rest
    .ok ((if stmtCode != "" && !jsIncludes stmtCode "self." then stmtCode ++ "\n" else "") ++
      restCode)
termination_by structural a _ _ => a

/-- The method-emission loop of `generateClass`. -/
def genMethods : Nat → Nat → List IRNode → PRes String
  | 0, _, _ => .error .stackOverflow
  | _, _, [] => .ok ""
  | fuel + 1, indent, m :: rest => do
    let cur ←
      match m with
      | .funcDecl mname mparams _ mbody => do
        let params := jsJoin ", " (mparams.map fun p =>
          match p with
          | .varDecl pname _ _ _ => pname
          | _ => "")
        let bodyCode ←
          if mbody.length == 0 then pure (getIndent (indent + 1) ++ "pass\n")
          else genBody fuel (indent + 1) mbody
        pure ("\n" ++ getIndent indent ++ "def " ++ mname ++ "(self" ++
          (if params != "" then ", " ++ params else "") ++ "):\n" ++ bodyCode)
      | _ => pure ""
    let restCode ← genMethods fuel indent rest
    .ok (cur ++ restCode)
termination_by structural a _ _ => a

/-- `generateIf` (empty then-branches get `pass`; chained `elif`). -/
def generateIf : Nat → Nat → IRNode → PRes String
  | 0, _, _ => .error .stackOverflow
  | fuel + 1, indent, node =>
    match node with
    | .ifStmt condition thenBranch elseBranch elseIf => do
      let cond ← generateExpression fuel condition
      let thenCode ← genBody fuel (indent + 1) thenBranch
      let thenCode :=
        thenCode ++ (if thenBranch.length == 0 then getIndent (indent + 1) ++ "pass\n" else "")
      let base := getIndent indent ++ "if " ++ cond ++ ":\n" ++ thenCode
      match elseIf with
      | some elseIfNode => do
        let elseIfCode ← generateIf fuel indent elseIfNode
        .ok (jsTrimEnd (base ++ getIndent indent ++ "el" ++ jsTrimStart elseIfCode))
      | none =>
        match elseBranch with
        | some elseBranch =>
          if elseBranch.length > 0 then do
            let elseCode ← genBody fuel (indent + 1) elseBranch
            .ok (jsTrimEnd (base ++ getIndent indent ++ "else:\n" ++ elseCode))
          else .ok (jsTrimEnd base)
        | none => .ok (jsTrimEnd base)
    | _ => .ok ""
termination_by structural a _ _ => a

/-- `generateFor` — the range form collapses `range` arguments when start is
`0` and/or step is `1`; otherwise an init/while/update lowering. -/
def generateFor : Nat → Nat → IRNode → PRes String
  | 0, _, _ => .error .stackOverflow
  | fuel + 1, indent, node =>
    match node with
    | .forStmt init condition update iterator _rangeStart rangeEnd rangeStep body => do
      let iter := iterator.getD "i"
      let iter := if iter == "" then "i" else iter
      match rangeEnd with
      | some rangeEndNode => do
        let start ←
          match _rangeStart with
          | some s => generateExpression fuel s
          | none => pure "0"
        let endE ← generateExpression fuel rangeEndNode
        let step ←
          match rangeStep with
          | some s => generateExpression fuel s
          | none => pure "1"
        let rangeArgs :=
          if start == "0" && step == "1" then endE
          else if step == "1" then start ++ ", " ++ endE
          else start ++ ", " ++ endE ++ ", " ++ step
        let bodyCode ← genBody fuel (indent + 1) body
        let bodyCode :=
          bodyCode ++ (if body.length == 0 then getIndent (indent + 1) ++ "pass\n" else "")
        .ok (jsTrimEnd (getIndent indent ++ "for " ++ iter ++ " in range(" ++ rangeArgs ++
          "):\n" ++ bodyCode))
      | none => do
        let initCode ←
          match init with
          | some initNode => do
            let c ← generateNode fuel indent initNode
            pure (c ++ "\n")
          | none => pure ""
        let cond ←
          match condition with
          | some c => generateExpression fuel c
          | none => pure "True"
        let bodyCode ← genBody fuel (indent + 1) body
        let updateCode ←
          match update with
          | some u => do
            let c ← generateNode fuel (indent + 1) u
            pure (c ++ "\n")
          | none => pure ""
        .ok (jsTrimEnd (initCode ++ getIndent indent ++ "while " ++ cond ++ ":\n" ++
          bodyCode ++ updateCode))
    | _ => .ok ""
termination_by structural a _ _ => a

/-- `generateWhile`. -/
def generateWhile : Nat → Nat → IRNode → PRes String
  | 0, _, _ => .error .stackOverflow
  | fuel + 1, indent, node =>
    match node with
    | .whileStmt condition body => do
      let cond ← generateExpression fuel condition
      let bodyCode ← genBody fuel (indent + 1) body
      let bodyCode :=
        bodyCode ++ (if body.length == 0 then getIndent (indent + 1) ++ "pass\n" else "")
      .ok (jsTrimEnd (getIndent indent ++ "while " ++ cond ++ ":\n" ++ bodyCode))
    | _ => .ok ""
termination_by structural a _ _ => a

/-- `generateSwitch` — lowered to an `if`/`elif` chain comparing the
discriminant; `break` statements are skipped. -/
def generateSwitch : Nat → Nat → IRNode → PRes String
  | 0, _, _ => .error .stackOverflow
  | fuel + 1, indent, node =>
    match node with
    | .switchStmt expression cases defaultBody => do
      let expr ← generateExpression fuel expression
      let casesCode ← genSwitchCases fuel indent expr 0 cases
      let defaultCode ←
        match defaultBody with
        | some db =>
          if db.length > 0 then do
            let bodyCode ← genSwitchBody fuel (indent + 1) db
            pure (getIndent indent ++ "else:\n" ++ bodyCode)
          else pure ""
        | none => pure ""
      .ok (jsTrimEnd (casesCode ++ defaultCode))
    | _ => .ok ""
termination_by structural a _ _ => a

/-- The per-case loop of `generateSwitch`. -/
def genSwitchCases : Nat → Nat → String → Nat → List IRNode → PRes String
  | 0, _, _, _, _ => .error .stackOverflow
  | _, _, _, _, [] => .ok ""
  | fuel + 1, indent, expr, i, c :: rest => do
    let cur ←
      match c with
      | .switchCase value body => do
        let v ← generateExpression fuel value
        let keyword := if i == 0 then "if" else "elif"
        let bodyCode ← genSwitchBody fuel (indent + 1) body
        let passLine :=
          if (body.filter fun s =>
              match s with
              | .breakStmt => false
              | _ => true).length == 0 then
            getIndent (indent + 1) ++ "pass\n"
          else ""
        pure (getIndent indent ++ keyword ++ " " ++ expr ++ " == " ++ v ++ ":\n" ++
          bodyCode ++ passLine)
      | _ => pure ""
    let restCode ← genSwitchCases fuel indent expr (i + 1) rest
    .ok (cur ++ restCode)
termination_by structural a _ _ _ _ => a

/-- A case body with `break` statements skipped. -/
def genSwitchBody : Nat → Nat → List IRNode → PRes String
  | 0, _, _ => .error .stackOverflow
  | _, _, [] => .ok ""
  | fuel + 1, indent, stmt :: rest =>
    match stmt with
    | .breakStmt => genSwitchBody fuel indent rest
    | _ => do
      let stmtCode ← generateNode fuel indent stmt
      let restCode ← genSwitchBody fuel indent rest
      .ok ((if stmtCode != "" then stmtCode ++ "\n" else "") ++ restCode)
termination_by structural a _ _ => a

/-- `generateReturn`. -/
def generateReturn : Nat → Nat → IRNode → PRes String
  | 0, _, _ => .error .stackOverflow
  | fuel + 1, indent, node =>
    match node with
    | .returnStmt (some value) => do
      let v ← generateExpression fuel value
      .ok (getIndent indent ++ "return " ++ v)
    | .returnStmt none => .ok (getIndent indent ++ "return")
    | _ => .ok ""

/-- `generatePrint` — a leading C-style format string is converted to an
f-string pulling the remaining arguments; otherwise the arguments are
joined with `, ` (string literals with `{…}` become f-strings); `end=''`
is appended when the newline flag is unset. -/
def generatePrint : Nat → Nat → IRNode → PRes String
  | 0, _, _ => .error .stackOverflow
  | fuel + 1, indent, node =>
    match node with
    | .print args newline => do
      let firstIsFmt :=
        match args with
        | .literal (.str s) .string _ :: _ => hasFmtDirective s.data
        | _ => false
      if args.length > 0 && firstIsFmt then do
        let formatStr :=
          match args with
          | .literal (.str s) _ _ :: _ => s
          | _ => ""
        let varArgs ← genExprList fuel (args.drop 1)
        let converted : String :=
          ⟨fmtToFString (formatStr.data.length + 1) (stripTrailingNL formatStr).data varArgs⟩
        if !newline then
          .ok (getIndent indent ++ "print(f\"" ++ converted ++ "\", end=\'\')")
        else
          .ok (getIndent indent ++ "print(f\"" ++ converted ++ "\")")
      else do
        let convertedArgs ← genConvertedArgs fuel args
        let argsStr := jsJoin ", " convertedArgs
        if !newline then
          .ok (getIndent indent ++ "print(" ++ argsStr ++ ", end=\'\')")
        else
          .ok (getIndent indent ++ "print(" ++ argsStr ++ ")")
    | _ => .ok ""

/-- The argument-conversion `map`/`filter(Boolean)` of `generatePrint`. -/
def genConvertedArgs : Nat → List IRNode → PRes (List String)
  | 0, _ => .error .stackOverflow
  | _, [] => .ok []
  | fuel + 1, arg :: rest => do
    let cur ←
      match arg with
      | .literal (.str s) .string _ =>
        if hasFmtDirective s.data then pure []
        else if jsIncludes s "\x7b" && jsIncludes s "\x7d" then
          pure ["f\"" ++ s ++ "\""]
        else do
          let e ← generateExpression fuel arg
          pure [e]
      | _ => do
        let e ← generateExpression fuel arg
        pure [e]
    let cur := cur.filter (· != "")
    let restArgs ← genConvertedArgs fuel rest
    .ok (cur ++ restArgs)
termination_by structural a _ => a

/-- `generateAssignment`. -/
def generateAssignment : Nat → Nat → IRNode → PRes String
  | 0, _, _ => .error .stackOverflow
  | fuel + 1, indent, node =>
    match node with
    | .assignment target value => do
      let v ← generateExpression fuel value
      .ok (getIndent indent ++ target ++ " = " ++ v)
    | _ => .ok ""

/-- `generateExpression`. -/
def generateExpression : Nat → IRNode → PRes String
  | 0, _ => .error .stackOverflow
  | fuel + 1, node =>
    match node with
    | .literal v dt _ => .ok (generateLiteral v dt)
    | .identifier name => .ok (generateIdentifier name)
    | .binaryOp _ _ _ => generateBinaryOp fuel node
    | .call _ _ _ _ => generateCall fuel node
    | .input prompt _ targetType =>
      let promptStr :=
        match prompt with
        | some p => "\"" ++ p ++ "\""
        | none => "\"\""
      if targetType == some .int then .ok ("int(input(" ++ promptStr ++ "))")
      else if targetType == some .float then .ok ("float(input(" ++ promptStr ++ "))")
      else .ok ("input(" ++ promptStr ++ ")")
    | .unaryOp op operand => do
      let o ← generateExpression fuel operand
      if op == "!" then .ok ("not " ++ o)
      else if op == "++_post" || op == "++" then .ok (o ++ " + 1")
      else if op == "--_post" || op == "--" then .ok (o ++ " - 1")
      else .ok (op ++ o)
    | _ => .ok ""
termination_by structural a _ => a

/-- `generateBinaryOp` (`&&`/`||` re-lowered to `and`/`or`). -/
def generateBinaryOp : Nat → IRNode → PRes String
  | 0, _ => .error .stackOverflow
  | fuel + 1, node =>
    match node with
    | .binaryOp op left right => do
      let l ← generateExpression fuel left
      let r ← generateExpression fuel right
      let op := if op == "&&" then "and" else if op == "||" then "or" else op
      .ok (l ++ " " ++ op ++ " " ++ r)
    | _ => .ok ""
termination_by structural a _ => a

/-- `generateCall`. -/
def generateCall : Nat → IRNode → PRes String
  | 0, _ => .error .stackOverflow
  | fuel + 1, node =>
    match node with
    | .call callee args isMethod object => do
      let argStrs ← genExprList fuel args
      let argsStr := jsJoin ", " argStrs
      if callee == "int" || callee == "float" || callee == "str" then
        .ok (callee ++ "(" ++ argsStr ++ ")")
      else if isMethod && optStrTruthy object then
        let obj := object.getD ""
        let obj := if obj == "this" then "self" else obj
        .ok (obj ++ "." ++ callee ++ "(" ++ argsStr ++ ")")
      else
        .ok (callee ++ "(" ++ argsStr ++ ")")
    | _ => .ok ""
termination_by structural a _ => a

/-- The argument-mapping loop. -/
def genExprList : Nat → List IRNode → PRes (List String)
  | 0, _ => .error .stackOverflow
  | _, [] => .ok []
  | fuel + 1, e :: rest => do
    let s ← generateExpression fuel e
    let restStrs ← genExprList fuel rest
    .ok (s :: restStrs)
termination_by structural a _ => a

end

/-- The `lines.push` loop of `generate`. -/
def genLines : Nat → List IRNode → PRes (List String)
  | 0, _ => .error .stackOverflow
  | _, [] => .ok []
  | fuel + 1, n :: rest => do
    let code ← generateNode fuel 0 n
    let restLines ← genLines fuel rest
    .ok ((if code != "" then [code] else []) ++ restLines)

/-- `PythonGenerator.generate`. -/
def generate (ir : IRProgram) : PRes String := do
  let lines ← genLines 10000 ir.body
  .ok (jsJoin "\n" lines)

end PythonGenerator

namespace CppGenerator

/-- The include flags set by the analyzer pre-pass. -/
structure Flags where
  usesIostream : Bool
  usesString : Bool
deriving Repr, DecidableEq

mutual

/-- One step of `analyzeProgram`'s visitor (note it also descends into a
class's attached `mainMethod`/`staticMethods`). -/
def analyzeNode : Nat → Flags → IRNode → PRes Flags
  | 0, _, _ => .error .stackOverflow
  | fuel + 1, fl, node => do
    let fl :=
      match node with
      | .print _ _ => { fl with usesIostream := true }
      | .input _ _ _ => { fl with usesIostream := true }
      | .varDecl _ dt _ _ => if dt == .string then { fl with usesString := true } else fl
      | _ => fl
    match node with
    | .funcDecl _ params _ body => do
      let fl ← analyzeList fuel fl body
      .ok (params.foldl (fun fl p =>
        match p with
        | .varDecl _ dt _ _ => if dt == .string then { fl with usesString := true } else fl
        | _ => fl) fl)
    | .classDecl _ members methods _ mainMethod staticMethods => do
      let fl ← analyzeList fuel fl members
      let fl ← analyzeList fuel fl methods
      let fl ←
        match mainMethod with
        | some m => analyzeNode fuel fl m
        | none => pure fl
      match staticMethods with
      | some sm => analyzeList fuel fl sm
      | none => pure fl
    | .ifStmt _ thenB elseB _ => do
      let fl ← analyzeList fuel fl thenB
      analyzeList fuel fl (elseB.getD [])
    | .forStmt _ _ _ _ _ _ _ body => analyzeList fuel fl body
    | .whileStmt _ body => analyzeList fuel fl body
    | _ => .ok fl

/-- The list traversal of the analyzer. -/
def analyzeList : Nat → Flags → List IRNode → PRes Flags
  | 0, _, _ => .error .stackOverflow
  | _, fl, [] => .ok fl
  | fuel + 1, fl, n :: rest => do
    let fl ← analyzeNode fuel fl n
    analyzeList fuel fl rest

end

/-- `analyzeProgram`. -/
def analyzeProgram (ir : IRProgram) : PRes Flags :=
  analyzeList 10000 ⟨false, false⟩ ir.body

/-- `getIndent`. -/
def getIndent (indent : Nat) : String :=
  jsRepeat "    " indent

/-- `mapType`. -/
def mapType (ty : DataType) (isParam : Bool := false) : String :=
  match ty with
  | .int => "int"
  | .float => "float"
  | .double => "double"
  | .char => "char"
  | .string => "string"
  | .bool => "bool"
  | .void => "void"
  | .auto => if isParam then "string" else "auto"

/-- `getDefaultValue`. -/
def getDefaultValue (ty : DataType) : String :=
  match ty with
  | .int => "0"
  | .float => "0.0"
  | .double => "0.0"
  | .string => "\"\""
  | .bool => "false"
  | .char => "\'\\0\'"
  | _ => "0"

/-- `generateLiteral` (`null` becomes `nullptr`). -/
def generateLiteral (v : LitVal) (dt : DataType) : String :=
  if dt == .string then "\"" ++ v.toStr ++ "\""
  else if dt == .char then "\'" ++ v.toStr ++ "\'"
  else if dt == .bool then (if v.truthy then "true" else "false")
  else if v == .str "null" then "nullptr"
  else v.toStr

/-- `generateIdentifier`. -/
def generateIdentifier (name : String) : String :=
  if name == "this" || name == "self" then "this"
  else if jsStartsWith name "self." then jsReplaceFirst name "self." "this->"
  else name

/-- `parseFString` — split a literal into text and `{var}` parts. -/
def parseFStringAux : Nat → List Char → List (String × Bool)
  | 0, l => if l.isEmpty then [] else [(⟨l⟩, false)]
  | _, [] => []
  | fuel + 1, '\x7b' :: rest =>
    let content := rest.takeWhile (· != '\x7d')
    let after := rest.dropWhile (· != '\x7d')
    (match after with
     | '\x7d' :: tail =>
       if content.isEmpty then
         match parseFStringAux fuel rest with
         | (s, false) :: parts => (("\x7b" ++ s : String), false) :: parts
         | parts => (("\x7b" : String), false) :: parts
       else ((⟨content⟩ : String), true) :: parseFStringAux fuel tail
     | _ =>
       match parseFStringAux fuel rest with
       | (s, false) :: parts => (("\x7b" ++ s : String), false) :: parts
       | parts => (("\x7b" : String), false) :: parts)
  | fuel + 1, c :: rest =>
    match parseFStringAux fuel rest with
    | (s, false) :: parts => ((c.toString ++ s : String), false) :: parts
    | parts => ((c.toString : String), false) :: parts

/-- `parseFString` on strings. -/
def parseFString (s : String) : List (String × Bool) :=
  parseFStringAux (s.data.length + 1) s.data

/-- `generateInput` (prompt `cout` plus `cin >>`). -/
def generateInput (indent : Nat) (node : IRNode) : String :=
  match node with
  | .input prompt targetVar _ =>
    (match prompt with
     | some p => getIndent indent ++ "cout << \"" ++ p ++ "\";\n"
     | none => "") ++
    (match targetVar with
     | some tv => getIndent indent ++ "cin >> " ++ tv ++ ";"
     | none => "")
  | _ => ""

mutual

/-- `generateNode`. -/
def generateNode : Nat → Nat → IRNode → PRes String
  | 0, _, _ => .error .stackOverflow
  | fuel + 1, indent, node =>
    match node with
    | .comment text isMultiline =>
      if isMultiline then
        .ok (getIndent indent ++ "/*\n" ++ getIndent indent ++ " * " ++ text ++ "\n" ++
          getIndent indent ++ " */")
      else .ok (getIndent indent ++ "// " ++ text)
    | .varDecl _ _ _ _ => generateVariable fuel indent node
    | .funcDecl _ _ _ _ => generateFunction fuel indent node
    | .classDecl _ _ _ _ _ _ => generateClass fuel indent node
    | .ifStmt _ _ _ _ => generateIf fuel indent node
    | .forStmt _ _ _ _ _ _ _ _ => generateFor fuel indent node
    | .whileStmt _ _ => generateWhile fuel indent node
    | .returnStmt _ => generateReturn fuel indent node
    | .print _ _ => generatePrint fuel indent node
    | .input _ _ _ => .ok (generateInput indent node)
    | .assignment _ _ => generateAssignment fuel indent node
    | .call _ _ _ _ => do
      let c ← generateCall fuel node
      .ok (getIndent indent ++ c ++ ";")
    | .binaryOp _ _ _ => do
      let c ← generateBinaryOp fuel node
      .ok (getIndent indent ++ c ++ ";")
    | _ => .ok ""
termination_by structural a _ _ => a

/-- `generateVariable`. -/
def generateVariable : Nat → Nat → IRNode → PRes String
  | 0, _, _ => .error .stackOverflow
  | fuel + 1, indent, node =>
    match node with
    | .varDecl name dataType value _ =>
      match value with
      | some v => do
        let vs ← generateExpression fuel v
        .ok (getIndent indent ++ mapType dataType ++ " " ++ name ++ " = " ++ vs ++ ";")
      | none => .ok (getIndent indent ++ mapType dataType ++ " " ++ name ++ ";")
    | _ => .ok ""

/-- The `code += stmtCode + '\n'` body loop. -/
def genBody : Nat → Nat → List IRNode → PRes String
  | 0, _, _ => .error .stackOverflow
  | _, _, [] => .ok ""
  | fuel + 1, indent, stmt :: rest => do
    let stmtCode ← generateNode fuel indent stmt
    let restCode ← genBody fuel indent rest
    .ok ((if stmtCode != "" then stmtCode ++ "\n" else "") ++ restCode)
termination_by structural a _ _ => a

/-- `generateFunction`. -/
def generateFunction : Nat → Nat → IRNode → PRes String
  | 0, _, _ => .error .stackOverflow
  | fuel + 1, indent, node =>
    match node with
    | .funcDecl name params returnType body => do
      let paramsStr := jsJoin ", " (params.map fun p =>
        match p with
        | .varDecl pname pdt _ _ => mapType pdt true ++ " " ++ pname
        | _ => "")
      let bodyCode ← genBody fuel (indent + 1) body
      .ok (getIndent indent ++ mapType returnType ++ " " ++ name ++ "(" ++ paramsStr ++
        ") \x7b\n" ++ bodyCode ++ getIndent indent ++ "\x7d")
    | _ => .ok ""
termination_by structural a _ _ => a

/-- `generateClass` — the shell branch flattens `staticMethods` and the
`mainMethod` to a free `int main()`; otherwise a `class` with a private
member section, a defaulting constructor, methods, and a trailing
`int main()` when a `mainMethod` is attached. -/
def generateClass : Nat → Nat → IRNode → PRes String
  | 0, _, _ => .error .stackOverflow
  | fuel + 1, indent, node =>
    match node with
    | .classDecl name members methods ctor mainMethod staticMethods => do
      let hasOnlyMainMethod := mainMethod.isSome && methods.length == 0 && members.length == 0
      if hasOnlyMainMethod || (mainMethod.isSome && staticMethods.isSome) then do
        let staticCode ← genStaticFns fuel (staticMethods.getD [])
        let mainBody :=
          match mainMethod with
          | some (.funcDecl _ _ _ b) => b
          | _ => []
        let bodyCode ← genBody fuel (indent + 1) mainBody
        .ok (staticCode ++ getIndent indent ++ "int main() \x7b\n" ++ bodyCode ++
          getIndent (indent + 1) ++ "return 0;\n" ++ getIndent indent ++ "\x7d")
      else do
        let memberLines := members.foldl (fun acc m =>
          match m with
          | .varDecl mname mdt _ _ =>
            acc ++ getIndent (indent + 1) ++ mapType mdt ++ " " ++ mname ++ ";\n"
          | _ => acc) ""
        let ctorParams :=
          match ctor with
          | some (.funcDecl _ cparams _ _) =>
            jsJoin ", " (cparams.map fun p =>
              match p with
              | .varDecl pname pdt _ _ => mapType pdt ++ " " ++ pname
              | _ => "")
          | _ => ""
        let memberInits := members.foldl (fun acc m =>
          match m with
          | .varDecl mname mdt _ _ =>
            acc ++ getIndent (indent + 2) ++ "this->" ++ mname ++ " = " ++
              getDefaultValue mdt ++ ";\n"
          | _ => acc) ""
        let ctorBody ←
          match ctor with
          | some (.funcDecl _ _ _ cbody) => genBody fuel (indent + 2) cbody
          | _ => pure ""
        let methodsCode ← genMethods fuel (indent + 1) methods
        let mainPart ←
          match mainMethod with
          | some (.funcDecl _ _ _ mbody) => do
            let bodyCode ← genBody fuel (indent + 1) mbody
            pure ("\n" ++ getIndent indent ++ "int main() \x7b\n" ++ bodyCode ++
              getIndent (indent + 1) ++ "return 0;\n" ++ getIndent indent ++ "\x7d")
          | _ => pure ""
        .ok (getIndent indent ++ "class " ++ name ++ " \x7b\n" ++
          getIndent indent ++ "private:\n" ++ memberLines ++
          "\n" ++ getIndent indent ++ "public:\n" ++
          getIndent (indent + 1) ++ name ++ "(" ++ ctorParams ++ ") \x7b\n" ++
          memberInits ++ ctorBody ++
          getIndent (indent + 1) ++ "\x7d\n" ++
          methodsCode ++
          getIndent indent ++ "\x7d;\n" ++ mainPart)
    | _ => .ok ""
termination_by structural a _ _ => a

/-- The static-method flattening loop of `generateClass`. -/
def genStaticFns : Nat → List IRNode → PRes String
  | 0, _ => .error .stackOverflow
  | _, [] => .ok ""
  | fuel + 1, m :: rest => do
    let funcCode ← generateFunction fuel 0 m
    let restCode ← genStaticFns fuel rest
    .ok (funcCode ++ "\n\n" ++ restCode)
termination_by structural a _ => a

/-- The method-emission loop of `generateClass`. -/
def genMethods : Nat → Nat → List IRNode → PRes String
  | 0, _, _ => .error .stackOverflow
  | _, _, [] => .ok ""
  | fuel + 1, indent, m :: rest => do
    let cur ←
      match m with
      | .funcDecl mname mparams mret mbody => do
        let params := jsJoin ", " (mparams.map fun p =>
          match p with
          | .varDecl pname pdt _ _ => mapType pdt ++ " " ++ pname
          | _ => "")
        let bodyCode ← genBody fuel (indent + 1) mbody
        pure ("\n" ++ getIndent indent ++ mapType mret ++ " " ++ mname ++ "(" ++ params ++
          ") \x7b\n" ++ bodyCode ++ getIndent indent ++ "\x7d\n")
      | _ => pure ""
    let restCode ← genMethods fuel indent rest
    .ok (cur ++ restCode)
termination_by structural a _ _ => a

/-- `generateIf`. -/
def generateIf : Nat → Nat → IRNode → PRes String
  | 0, _, _ => .error .stackOverflow
  | fuel + 1, indent, node =>
    match node with
    | .ifStmt condition thenBranch elseBranch elseIf => do
      let cond ← generateExpression fuel condition
      let thenCode ← genBody fuel (indent + 1) thenBranch
      let base := getIndent indent ++ "if (" ++ cond ++ ") \x7b\n" ++ thenCode ++
        getIndent indent ++ "\x7d"
      match elseIf with
      | some elseIfNode => do
        let elseIfCode ← generateIf fuel indent elseIfNode
        .ok (base ++ " else " ++ jsTrimStart elseIfCode)
      | none =>
        match elseBranch with
        | some elseBranch =>
          if elseBranch.length > 0 then do
            let elseCode ← genBody fuel (indent + 1) elseBranch
            .ok (base ++ " else \x7b\n" ++ elseCode ++ getIndent indent ++ "\x7d")
          else .ok base
        | none => .ok base
    | _ => .ok ""
termination_by structural a _ _ => a

/-- `generateFor`. -/
def generateFor : Nat → Nat → IRNode → PRes String
  | 0, _, _ => .error .stackOverflow
  | fuel + 1, indent, node =>
    match node with
    | .forStmt init condition update iterator rangeStart rangeEnd rangeStep body => do
      if optStrTruthy iterator && rangeEnd.isSome then do
        let iter := iterator.getD ""
        let start ←
          match rangeStart with
          | some s => generateExpression fuel s
          | none => pure "0"
        let endE ←
          match rangeEnd with
          | some e => generateExpression fuel e
          | none => pure "0"
        let step ←
          match rangeStep with
          | some s => generateExpression fuel s
          | none => pure "1"
        let bodyCode ← genBody fuel (indent + 1) body
        .ok (getIndent indent ++ "for (int " ++ iter ++ " = " ++ start ++ "; " ++
          iter ++ " < " ++ endE ++ "; " ++ iter ++ " += " ++ step ++ ") \x7b\n" ++
          bodyCode ++ getIndent indent ++ "\x7d")
      else do
        let initStr ←
          match init with
          | some (.varDecl name dt value _) => do
            let v ←
              match value with
              | some v => generateExpression fuel v
              | none => pure "0"
            pure (mapType dt ++ " " ++ name ++ " = " ++ v)
          | some e => generateExpression fuel e
          | none => pure ""
        let condStr ←
          match condition with
          | some c => generateExpression fuel c
          | none => pure ""
        let updateStr ←
          match update with
          | some u => generateExpression fuel u
          | none => pure ""
        let bodyCode ← genBody fuel (indent + 1) body
        .ok (getIndent indent ++ "for (" ++ initStr ++ "; " ++ condStr ++ "; " ++
          updateStr ++ ") \x7b\n" ++ bodyCode ++ getIndent indent ++ "\x7d")
    | _ => .ok ""
termination_by structural a _ _ => a

/-- `generateWhile`. -/
def generateWhile : Nat → Nat → IRNode → PRes String
  | 0, _, _ => .error .stackOverflow
  | fuel + 1, indent, node =>
    match node with
    | .whileStmt condition body => do
      let cond ← generateExpression fuel condition
      let bodyCode ← genBody fuel (indent + 1) body
      .ok (getIndent indent ++ "while (" ++ cond ++ ") \x7b\n" ++ bodyCode ++
        getIndent indent ++ "\x7d")
    | _ => .ok ""
termination_by structural a _ _ => a

/-- `generateReturn`. -/
def generateReturn : Nat → Nat → IRNode → PRes String
  | 0, _, _ => .error .stackOverflow
  | fuel + 1, indent, node =>
    match node with
    | .returnStmt (some value) => do
      let v ← generateExpression fuel value
      .ok (getIndent indent ++ "return " ++ v ++ ";")
    | .returnStmt none => .ok (getIndent indent ++ "return;")
    | _ => .ok ""

/-- `generatePrint` — a chained `cout`, string literals split at `{var}`
placeholders (empty literal parts skipped), `<< endl` when the newline flag
is set. -/
def generatePrint : Nat → Nat → IRNode → PRes String
  | 0, _, _ => .error .stackOverflow
  | fuel + 1, indent, node =>
    match node with
    | .print args newline => do
      if args.length == 0 then
        .ok (if newline then getIndent indent ++ "cout << endl;" else "")
      else do
        let chain ← genCoutChain fuel args
        .ok (getIndent indent ++ "cout" ++ chain ++
          (if newline then " << endl" else "") ++ ";")
    | _ => .ok ""

/-- The `<<`-chain accumulation loop of `generatePrint`. -/
def genCoutChain : Nat → List IRNode → PRes String
  | 0, _ => .error .stackOverflow
  | _, [] => .ok ""
  | fuel + 1, arg :: rest => do
    let cur ←
      match arg with
      | .literal v .string _ =>
        pure ((parseFString v.toStr).foldl (fun acc (part, isVar) =>
          if isVar then acc ++ " << " ++ part
          else if part != "" then acc ++ " << \"" ++ part ++ "\""
          else acc) "")
      | _ => do
        let e ← generateExpression fuel arg
        pure (" << " ++ e)
    let restCode ← genCoutChain fuel rest
    .ok (cur ++ restCode)
termination_by structural a _ => a

/-- `generateAssignment`. -/
def generateAssignment : Nat → Nat → IRNode → PRes String
  | 0, _, _ => .error .stackOverflow
  | fuel + 1, indent, node =>
    match node with
    | .assignment target value => do
      let v ← generateExpression fuel value
      .ok (getIndent indent ++ jsReplaceFirst target "self." "this->" ++ " = " ++ v ++ ";")
    | _ => .ok ""

/-- `generateExpression` (an Input in expression position yields the empty
string — there is no case for it). -/
def generateExpression : Nat → IRNode → PRes String
  | 0, _ => .error .stackOverflow
  | fuel + 1, node =>
    match node with
    | .literal v dt _ => .ok (generateLiteral v dt)
    | .identifier name => .ok (generateIdentifier name)
    | .binaryOp _ _ _ => generateBinaryOp fuel node
    | .call _ _ _ _ => generateCall fuel node
    | .unaryOp op operand => do
      let o ← generateExpression fuel operand
      if op == "++_post" then .ok (o ++ "++")
      else if op == "--_post" then .ok (o ++ "--")
      else .ok (op ++ o)
    | _ => .ok ""
termination_by structural a _ => a

/-- `generateBinaryOp`. -/
def generateBinaryOp : Nat → IRNode → PRes String
  | 0, _ => .error .stackOverflow
  | fuel + 1, node =>
    match node with
    | .binaryOp op left right => do
      let l ← generateExpression fuel left
      let r ← generateExpression fuel right
      .ok (l ++ " " ++ op ++ " " ++ r)
    | _ => .ok ""
termination_by structural a _ => a

/-- `generateCall`. -/
def generateCall : Nat → IRNode → PRes String
  | 0, _ => .error .stackOverflow
  | fuel + 1, node =>
    match node with
    | .call callee args isMethod object => do
      let argStrs ← genExprList fuel args
      let argsStr := jsJoin ", " argStrs
      if callee == "int" then .ok ("static_cast<int>(" ++ argsStr ++ ")")
      else if callee == "float" then .ok ("static_cast<float>(" ++ argsStr ++ ")")
      else if callee == "str" then .ok ("to_string(" ++ argsStr ++ ")")
      else if isMethod && optStrTruthy object then
        let obj := object.getD ""
        let obj := if obj == "self" then "this" else obj
        .ok (obj ++ "->" ++ callee ++ "(" ++ argsStr ++ ")")
      else
        .ok (callee ++ "(" ++ argsStr ++ ")")
    | _ => .ok ""
termination_by structural a _ => a

/-- The argument-mapping loop. -/
def genExprList : Nat → List IRNode → PRes (List String)
  | 0, _ => .error .stackOverflow
  | _, [] => .ok []
  | fuel + 1, e :: rest => do
    let s ← generateExpression fuel e
    let restStrs ← genExprList fuel rest
    .ok (s :: restStrs)
termination_by structural a _ => a

end

/-- The `lines.push` loop at indent 0. -/
def genLines : Nat → List IRNode → PRes (List String)
  | 0, _ => .error .stackOverflow
  | _, [] => .ok []
  | fuel + 1, n :: rest => do
    let code ← generateNode fuel 0 n
    let restLines ← genLines fuel rest
    .ok ((if code != "" then [code] else []) ++ restLines)

/-- The main-body `lines.push` loop at indent 1. -/
def genMainLines : Nat → List IRNode → PRes (List String)
  | 0, _ => .error .stackOverflow
  | _, [] => .ok []
  | fuel + 1, n :: rest => do
    let code ← generateNode fuel 1 n
    let restLines ← genMainLines fuel rest
    .ok ((if code != "" then [code] else []) ++ restLines)

/-- The function-emission loop of `generate` — `main` is wrapped as
`int main()`, keeping its own `return` statements and appending `return 0;`
only when the body had none (the `hasReturnInMain` flag persists across the
loop, exactly as the source variable does). -/
def genFuncLines : Nat → Bool → List IRNode → PRes (List String)
  | 0, _, _ => .error .stackOverflow
  | _, _, [] => .ok []
  | fuel + 1, hasReturnInMain, f :: rest => do
    let (cur, hasReturnInMain) ←
      match f with
      | .funcDecl name _ _ body =>
        if name == "main" then do
          let hasReturnInMain := hasReturnInMain || body.any fun stmt =>
            match stmt with
            | .returnStmt _ => true
            | _ => false
          let inner ← genMainLines fuel body
          pure ((["int main() \x7b"] ++ inner ++
            (if !hasReturnInMain then [getIndent 1 ++ "return 0;"] else []) ++
            ["\x7d"]), hasReturnInMain)
        else do
          let code ← generateNode fuel 0 f
          pure ((if code != "" then [code] else []), hasReturnInMain)
      | _ => pure ([], hasReturnInMain)
    let restLines ← genFuncLines fuel hasReturnInMain rest
    .ok (cur ++ restLines)

/-- `CppGenerator.generate`. -/
def generate (ir : IRProgram) : PRes String := do
  let fl ← analyzeProgram ir
  let includeLines :=
    (if fl.usesIostream then ["#include <iostream>"] else []) ++
    (if fl.usesString then ["#include <string>"] else [])
  let includeLines :=
    if includeLines.length > 0 then includeLines ++ ["", "using namespace std;", ""]
    else includeLines
  let functions := ir.body.filter IRNode.isFunction
  let classes := ir.body.filter IRNode.isClass
  let mainContent := ir.body.filter fun n => !n.isFunction && !n.isClass
  let classLines ← genLines 10000 classes
  let funcLines ← genFuncLines 10000 false functions
  let hasMainFn := functions.any fun f =>
    match f with
    | .funcDecl name _ _ _ => name == "main"
    | _ => false
  let mainLines ←
    if mainContent.length > 0 && !hasMainFn then do
      let inner ← genMainLines 10000 mainContent
      pure (["int main() \x7b"] ++ inner ++ [getIndent 1 ++ "return 0;", "\x7d"])
    else pure []
  .ok (jsJoin "\n" (includeLines ++ classLines ++ funcLines ++ mainLines))

end CppGenerator

namespace JavaGenerator

mutual

/-- The Scanner-analysis visitor of `analyzeProgram` (only `input` nodes
set the flag; it descends into function bodies, class methods and
constructor bodies, branches and loop bodies). -/
def analyzeNode : Nat → Bool → IRNode → PRes Bool
  | 0, _, _ => .error .stackOverflow
  | fuel + 1, us, node => do
    let us := if (match node with | .input _ _ _ => true | _ => false) then true else us
    match node with
    | .funcDecl _ _ _ body => analyzeList fuel us body
    | .classDecl _ _ methods ctor _ _ => do
      let us ← analyzeList fuel us methods
      match ctor with
      | some (.funcDecl _ _ _ cbody) => analyzeList fuel us cbody
      | _ => pure us
    | .ifStmt _ thenB elseB _ => do
      let us ← analyzeList fuel us thenB
      analyzeList fuel us (elseB.getD [])
    | .forStmt _ _ _ _ _ _ _ body => analyzeList fuel us body
    | .whileStmt _ body => analyzeList fuel us body
    | _ => .ok us

/-- The list traversal of the analyzer. -/
def analyzeList : Nat → Bool → List IRNode → PRes Bool
  | 0, _, _ => .error .stackOverflow
  | _, us, [] => .ok us
  | fuel + 1, us, n :: rest => do
    let us ← analyzeNode fuel us n
    analyzeList fuel us rest

end

/-- `analyzeProgram` — computes `usesScanner`. -/
def analyzeProgram (ir : IRProgram) : PRes Bool :=
  analyzeList 10000 false ir.body

/-- `getIndent`. -/
def getIndent (indent : Nat) : String :=
  jsRepeat "    " indent

/-- `mapType` (note `auto` mapping depends on position). -/
def mapType (ty : DataType) (isParam : Bool := false) (isReturnType : Bool := false) :
    String :=
  match ty with
  | .int => "int"
  | .float => "float"
  | .double => "double"
  | .char => "char"
  | .string => "String"
  | .bool => "boolean"
  | .void => "void"
  | .auto => if isReturnType then "void" else if isParam then "String" else "Object"

/-- `getDefaultValue`. -/
def getDefaultValue (ty : DataType) : String :=
  match ty with
  | .int => "0"
  | .float => "0.0"
  | .double => "0.0"
  | .string => "\"\""
  | .bool => "false"
  | .char => "\' \'"
  | _ => "null"

/-- `generateLiteral` (Java suffixes float literals with `f`). -/
def generateLiteral (v : LitVal) (dt : DataType) : String :=
  if dt == .string then "\"" ++ v.toStr ++ "\""
  else if dt == .char then "\'" ++ v.toStr ++ "\'"
  else if dt == .bool then (if v.truthy then "true" else "false")
  else if v == .str "null" then "null"
  else if dt == .float then v.toStr ++ "f"
  else v.toStr

/-- `generateIdentifier`. -/
def generateIdentifier (name : String) : String :=
  if name == "self" then "this"
  else if jsStartsWith name "self." then jsReplaceFirst name "self." "this."
  else name

/-- `parseFString` — trailing `\n` escape stripped, every `\x7bvar\x7d`
placeholder spliced out of the quotes, then the empty-quote fragments
produced by boundary placeholders removed. -/
def parseFString (s : String) : String :=
  let cleaned := stripTrailingNL s
  let result := (CppGenerator.parseFString cleaned).foldl
    (fun acc part =>
      acc ++ (if part.2 then "\" + " ++ part.1 ++ " + \"" else part.1)) ""
  jsReplaceAll (jsReplaceAll ("\"" ++ result ++ "\"") "\"\" + " "") " + \"\"" ""

/-- The Scanner method chosen for a target type. -/
def scannerMethod (ty : Option DataType) : String :=
  if ty == some .int then "nextInt()"
  else if ty == some .float then "nextFloat()"
  else "nextLine()"

/-- `generateInput` (prompt print plus `scanner.next…` assignment). -/
def generateInput (indent : Nat) (node : IRNode) : String :=
  match node with
  | .input prompt targetVar targetType =>
    (match prompt with
     | some p => getIndent indent ++ "System.out.print(\"" ++ p ++ "\");\n"
     | none => "") ++
    (match targetVar with
     | some tv =>
       getIndent indent ++ tv ++ " = scanner." ++ scannerMethod targetType ++ ";"
     | none => "")
  | _ => ""

/-- `shouldSkipReturnInMain` — inside the synthesized `void main`, a
`return` of a numeric literal is dropped. -/
def shouldSkipReturnInMain (insideMain : Bool) (node : IRNode) : Bool :=
  insideMain &&
    (match node with
     | .returnStmt (some (.literal (.num _) _ _)) => true
     | _ => false)

mutual

/-- `generateNode` — parameters: `us` is the `usesScanner` flag computed by
the pre-pass, `im` is `isInsideVoidMain`. -/
def generateNode : Nat → Bool → Bool → Nat → IRNode → PRes String
  | 0, _, _, _, _ => .error .stackOverflow
  | fuel + 1, us, im, indent, node =>
    match node with
    | .comment text isMultiline =>
      if isMultiline then
        .ok (getIndent indent ++ "/*\n" ++ getIndent indent ++ " * " ++ text ++ "\n" ++
          getIndent indent ++ " */")
      else .ok (getIndent indent ++ "// " ++ text)
    | .varDecl _ _ _ _ => generateVariable fuel us im indent node
    | .funcDecl _ _ _ _ => generateFunction fuel us im indent false node
    | .classDecl _ _ _ _ _ _ => generateClass fuel us im indent node
    | .ifStmt _ _ _ _ => generateIf fuel us im indent node
    | .forStmt _ _ _ _ _ _ _ _ => generateFor fuel us im indent node
    | .whileStmt _ _ => generateWhile fuel us im indent node
    | .switchStmt _ _ _ => generateSwitch fuel us im indent node
    | .returnStmt _ => generateReturn fuel us im indent node
    | .print _ _ => generatePrint fuel us im indent node
    | .input _ _ _ => .ok (generateInput indent node)
    | .assignment _ _ => generateAssignment fuel us im indent node
    | .call _ _ _ _ => do
      let c ← generateCall fuel us im node
      .ok (getIndent indent ++ c ++ ";")
    | .binaryOp _ _ _ => do
      let c ← generateBinaryOp fuel us im node
      .ok (getIndent indent ++ c ++ ";")
    | .breakStmt => .ok (getIndent indent ++ "break;")
    | _ => .ok ""
termination_by structural a _ _ _ _ => a

/-- `generateSwitch`. -/
def generateSwitch : Nat → Bool → Bool → Nat → IRNode → PRes String
  | 0, _, _, _, _ => .error .stackOverflow
  | fuel + 1, us, im, indent, node =>
    match node with
    | .switchStmt expression cases defaultBody => do
      let expr ← generateExpression fuel us im expression
      let casesCode ← genSwitchCases fuel us im indent cases
      let defaultCode ←
        match defaultBody with
        | some body => do
          let bodyCode ← genBody fuel us im (indent + 2) body
          pure (getIndent indent ++ "    default:\n" ++ bodyCode)
        | none => pure ""
      .ok (getIndent indent ++ "switch (" ++ expr ++ ") \x7b\n" ++ casesCode ++
        defaultCode ++ getIndent indent ++ "\x7d")
    | _ => .ok ""
termination_by structural a _ _ _ _ => a

/-- The case-emission loop of `generateSwitch` (each case gets a trailing
`break;`). -/
def genSwitchCases : Nat → Bool → Bool → Nat → List IRNode → PRes String
  | 0, _, _, _, _ => .error .stackOverflow
  | _, _, _, _, [] => .ok ""
  | fuel + 1, us, im, indent, c :: rest => do
    let cur ←
      match c with
      | .switchCase value body => do
        let v ← generateExpression fuel us im value
        let bodyCode ← genBody fuel us im (indent + 2) body
        pure (getIndent indent ++ "    case " ++ v ++ ":\n" ++ bodyCode ++
          getIndent (indent + 2) ++ "break;\n")
      | _ => pure ""
    let restCode ← genSwitchCases fuel us im indent rest
    .ok (cur ++ restCode)
termination_by structural a _ _ _ _ => a

/-- `generateVariable` (with the Scanner special case for input
initializers). -/
def generateVariable : Nat → Bool → Bool → Nat → IRNode → PRes String
  | 0, _, _, _, _ => .error .stackOverflow
  | fuel + 1, us, im, indent, node =>
    match node with
    | .varDecl name dataType value _ =>
      match value with
      | some (.input prompt _ _) =>
        let promptCode :=
          match prompt with
          | some p => getIndent indent ++ "System.out.print(\"" ++ p ++ "\");\n"
          | none => ""
        let method :=
          if dataType == .int then "nextInt()"
          else if dataType == .float then "nextFloat()"
          else "nextLine()"
        .ok (promptCode ++ getIndent indent ++ mapType dataType ++ " " ++ name ++
          " = scanner." ++ method ++ ";")
      | some v => do
        let vs ← generateExpression fuel us im v
        .ok (getIndent indent ++ mapType dataType ++ " " ++ name ++ " = " ++ vs ++ ";")
      | none => .ok (getIndent indent ++ mapType dataType ++ " " ++ name ++ ";")
    | _ => .ok ""

/-- The `code += stmtCode + '\n'` body loop. -/
def genBody : Nat → Bool → Bool → Nat → List IRNode → PRes String
  | 0, _, _, _, _ => .error .stackOverflow
  | _, _, _, _, [] => .ok ""
  | fuel + 1, us, im, indent, stmt :: rest => do
    let stmtCode ← generateNode fuel us im indent stmt
    let restCode ← genBody fuel us im indent rest
    .ok ((if stmtCode != "" then stmtCode ++ "\n" else "") ++ restCode)
termination_by structural a _ _ _ _ => a

/-- `generateFunction` (the `isStatic` flag adds the `static` modifier; the
return type is mapped in return position). -/
def generateFunction : Nat → Bool → Bool → Nat → Bool → IRNode → PRes String
  | 0, _, _, _, _, _ => .error .stackOverflow
  | fuel + 1, us, im, indent, isStatic, node =>
    match node with
    | .funcDecl name params returnType body => do
      let paramsStr := jsJoin ", " (params.map fun p =>
        match p with
        | .varDecl pname pdt _ _ => mapType pdt true ++ " " ++ pname
        | _ => "")
      let bodyCode ← genBody fuel us im (indent + 1) body
      .ok (getIndent indent ++ "public " ++ (if isStatic then "static " else "") ++
        mapType returnType false true ++ " " ++ name ++ "(" ++ paramsStr ++
        ") \x7b\n" ++ bodyCode ++ getIndent indent ++ "\x7d")
    | _ => .ok ""
termination_by structural a _ _ _ _ _ => a

/-- `generateClass` (a static Scanner member is added when the pre-pass saw
an input anywhere in the program). -/
def generateClass : Nat → Bool → Bool → Nat → IRNode → PRes String
  | 0, _, _, _, _ => .error .stackOverflow
  | fuel + 1, us, im, indent, node =>
    match node with
    | .classDecl name members _methods ctor _ _ => do
      let scannerLine :=
        if us then
          getIndent (indent + 1) ++ "static Scanner scanner = new Scanner(System.in);\n\n"
        else ""
      let memberLines := members.foldl (fun acc m =>
        match m with
        | .varDecl mname mdt _ _ =>
          acc ++ getIndent (indent + 1) ++ "private " ++ mapType mdt ++ " " ++
            mname ++ ";\n"
        | _ => acc) ""
      let memberLines := memberLines ++ (if members.length > 0 then "\n" else "")
      let ctorParams :=
        match ctor with
        | some (.funcDecl _ cparams _ _) =>
          jsJoin ", " (cparams.map fun p =>
            match p with
            | .varDecl pname pdt _ _ => mapType pdt ++ " " ++ pname
            | _ => "")
        | _ => ""
      let memberInits := members.foldl (fun acc m =>
        match m with
        | .varDecl mname mdt _ _ =>
          acc ++ getIndent (indent + 2) ++ "this." ++ mname ++ " = " ++
            getDefaultValue mdt ++ ";\n"
        | _ => acc) ""
      let ctorBody ←
        match ctor with
        | some (.funcDecl _ _ _ cbody) => genBody fuel us im (indent + 2) cbody
        | _ => pure ""
      let methodsCode ← genMethods fuel us im (indent + 1) _methods
      .ok (getIndent indent ++ "public class " ++ name ++ " \x7b\n" ++
        scannerLine ++ memberLines ++
        getIndent (indent + 1) ++ "public " ++ name ++ "(" ++ ctorParams ++ ") \x7b\n" ++
        memberInits ++ ctorBody ++
        getIndent (indent + 1) ++ "\x7d\n" ++
        methodsCode ++
        getIndent indent ++ "\x7d")
    | _ => .ok ""
termination_by structural a _ _ _ _ => a

/-- The method-emission loop of `generateClass`. -/
def genMethods : Nat → Bool → Bool → Nat → List IRNode → PRes String
  | 0, _, _, _, _ => .error .stackOverflow
  | _, _, _, _, [] => .ok ""
  | fuel + 1, us, im, indent, m :: rest => do
    let cur ←
      match m with
      | .funcDecl mname mparams mret mbody => do
        let params := jsJoin ", " (mparams.map fun p =>
          match p with
          | .varDecl pname pdt _ _ => mapType pdt ++ " " ++ pname
          | _ => "")
        let bodyCode ← genBody fuel us im (indent + 1) mbody
        pure ("\n" ++ getIndent indent ++ "public " ++ mapType mret ++ " " ++ mname ++
          "(" ++ params ++ ") \x7b\n" ++ bodyCode ++ getIndent indent ++ "\x7d\n")
      | _ => pure ""
    let restCode ← genMethods fuel us im indent rest
    .ok (cur ++ restCode)
termination_by structural a _ _ _ _ => a

/-- `generateIf`. -/
def generateIf : Nat → Bool → Bool → Nat → IRNode → PRes String
  | 0, _, _, _, _ => .error .stackOverflow
  | fuel + 1, us, im, indent, node =>
    match node with
    | .ifStmt condition thenBranch elseBranch elseIf => do
      let cond ← generateExpression fuel us im condition
      let thenCode ← genBody fuel us im (indent + 1) thenBranch
      let base := getIndent indent ++ "if (" ++ cond ++ ") \x7b\n" ++ thenCode ++
        getIndent indent ++ "\x7d"
      match elseIf with
      | some elseIfNode => do
        let elseIfCode ← generateIf fuel us im indent elseIfNode
        .ok (base ++ " else " ++ jsTrimStart elseIfCode)
      | none =>
        match elseBranch with
        | some elseBranch =>
          if elseBranch.length > 0 then do
            let elseCode ← genBody fuel us im (indent + 1) elseBranch
            .ok (base ++ " else \x7b\n" ++ elseCode ++ getIndent indent ++ "\x7d")
          else .ok base
        | none => .ok base
    | _ => .ok ""
termination_by structural a _ _ _ _ => a

/-- `generateFor`. -/
def generateFor : Nat → Bool → Bool → Nat → IRNode → PRes String
  | 0, _, _, _, _ => .error .stackOverflow
  | fuel + 1, us, im, indent, node =>
    match node with
    | .forStmt init condition update iterator rangeStart rangeEnd rangeStep body => do
      if optStrTruthy iterator && rangeEnd.isSome then do
        let iter := iterator.getD ""
        let start ←
          match rangeStart with
          | some s => generateExpression fuel us im s
          | none => pure "0"
        let endE ←
          match rangeEnd with
          | some e => generateExpression fuel us im e
          | none => pure "0"
        let step ←
          match rangeStep with
          | some s => generateExpression fuel us im s
          | none => pure "1"
        let bodyCode ← genBody fuel us im (indent + 1) body
        .ok (getIndent indent ++ "for (int " ++ iter ++ " = " ++ start ++ "; " ++
          iter ++ " < " ++ endE ++ "; " ++ iter ++ " += " ++ step ++ ") \x7b\n" ++
          bodyCode ++ getIndent indent ++ "\x7d")
      else do
        let initStr ←
          match init with
          | some (.varDecl name dt value _) => do
            let v ←
              match value with
              | some v => generateExpression fuel us im v
              | none => pure "0"
            pure (mapType dt ++ " " ++ name ++ " = " ++ v)
          | some e => generateExpression fuel us im e
          | none => pure ""
        let condStr ←
          match condition with
          | some c => generateExpression fuel us im c
          | none => pure ""
        let updateStr ←
          match update with
          | some u => generateExpression fuel us im u
          | none => pure ""
        let bodyCode ← genBody fuel us im (indent + 1) body
        .ok (getIndent indent ++ "for (" ++ initStr ++ "; " ++ condStr ++ "; " ++
          updateStr ++ ") \x7b\n" ++ bodyCode ++ getIndent indent ++ "\x7d")
    | _ => .ok ""
termination_by structural a _ _ _ _ => a

/-- `generateWhile`. -/
def generateWhile : Nat → Bool → Bool → Nat → IRNode → PRes String
  | 0, _, _, _, _ => .error .stackOverflow
  | fuel + 1, us, im, indent, node =>
    match node with
    | .whileStmt condition body => do
      let cond ← generateExpression fuel us im condition
      let bodyCode ← genBody fuel us im (indent + 1) body
      .ok (getIndent indent ++ "while (" ++ cond ++ ") \x7b\n" ++ bodyCode ++
        getIndent indent ++ "\x7d")
    | _ => .ok ""
termination_by structural a _ _ _ _ => a

/-- `generateReturn` (numeric-literal returns vanish inside the synthesized
`void main`). -/
def generateReturn : Nat → Bool → Bool → Nat → IRNode → PRes String
  | 0, _, _, _, _ => .error .stackOverflow
  | fuel + 1, us, im, indent, node =>
    match node with
    | .returnStmt value =>
      if im && (match value with
                | some (.literal (.num _) _ _) => true
                | _ => false) then
        .ok ""
      else
        match value with
        | some value => do
          let v ← generateExpression fuel us im value
          .ok (getIndent indent ++ "return " ++ v ++ ";")
        | none => .ok (getIndent indent ++ "return;")
    | _ => .ok ""

/-- `generatePrint` — the arguments become one string concatenation joined
with an explicit separating space literal. -/
def generatePrint : Nat → Bool → Bool → Nat → IRNode → PRes String
  | 0, _, _, _, _ => .error .stackOverflow
  | fuel + 1, us, im, indent, node =>
    match node with
    | .print args newline => do
      let method := if newline then "println" else "print"
      if args.length == 0 then
        .ok (getIndent indent ++ "System.out." ++ method ++ "();")
      else do
        let parts ← genPrintParts fuel us im args
        let output := jsJoin " + \" \" + " parts
        .ok (getIndent indent ++ "System.out." ++ method ++ "(" ++ output ++ ");")
    | _ => .ok ""

/-- The argument-part loop of `generatePrint` (string literals go through
`parseFString`). -/
def genPrintParts : Nat → Bool → Bool → List IRNode → PRes (List String)
  | 0, _, _, _ => .error .stackOverflow
  | _, _, _, [] => .ok []
  | fuel + 1, us, im, arg :: rest => do
    let cur ←
      match arg with
      | .literal v .string _ => pure (parseFString v.toStr)
      | _ => generateExpression fuel us im arg
    let restParts ← genPrintParts fuel us im rest
    .ok (cur :: restParts)
termination_by structural a _ _ _ => a

/-- `generateAssignment`. -/
def generateAssignment : Nat → Bool → Bool → Nat → IRNode → PRes String
  | 0, _, _, _, _ => .error .stackOverflow
  | fuel + 1, us, im, indent, node =>
    match node with
    | .assignment target value => do
      let v ← generateExpression fuel us im value
      .ok (getIndent indent ++ jsReplaceFirst target "self." "this." ++ " = " ++ v ++ ";")
    | _ => .ok ""

/-- `generateExpression` (an input in expression position becomes a bare
`scanner.next…`). -/
def generateExpression : Nat → Bool → Bool → IRNode → PRes String
  | 0, _, _, _ => .error .stackOverflow
  | fuel + 1, us, im, node =>
    match node with
    | .literal v dt _ => .ok (generateLiteral v dt)
    | .identifier name => .ok (generateIdentifier name)
    | .binaryOp _ _ _ => generateBinaryOp fuel us im node
    | .call _ _ _ _ => generateCall fuel us im node
    | .input _ _ targetType => .ok ("scanner." ++ scannerMethod targetType)
    | .unaryOp op operand => do
      let o ← generateExpression fuel us im operand
      if op == "++_post" then .ok (o ++ "++")
      else if op == "--_post" then .ok (o ++ "--")
      else .ok (op ++ o)
    | _ => .ok ""
termination_by structural a _ _ _ => a

/-- `generateBinaryOp`. -/
def generateBinaryOp : Nat → Bool → Bool → IRNode → PRes String
  | 0, _, _, _ => .error .stackOverflow
  | fuel + 1, us, im, node =>
    match node with
    | .binaryOp op left right => do
      let l ← generateExpression fuel us im left
      let r ← generateExpression fuel us im right
      .ok (l ++ " " ++ op ++ " " ++ r)
    | _ => .ok ""
termination_by structural a _ _ _ => a

/-- `generateCall` — note the uppercase-first-letter constructor heuristic
reads `callee[0].toUpperCase()`, which throws a `TypeError` when the callee
is the empty string. -/
def generateCall : Nat → Bool → Bool → IRNode → PRes String
  | 0, _, _, _ => .error .stackOverflow
  | fuel + 1, us, im, node =>
    match node with
    | .call callee args isMethod object => do
      let argStrs ← genExprList fuel us im args
      let argsStr := jsJoin ", " argStrs
      if callee == "int" then .ok ("Integer.parseInt(" ++ argsStr ++ ")")
      else if callee == "float" then .ok ("Float.parseFloat(" ++ argsStr ++ ")")
      else if callee == "str" then .ok ("String.valueOf(" ++ argsStr ++ ")")
      else if isMethod && optStrTruthy object then
        let obj := object.getD ""
        let obj := if obj == "self" then "this" else obj
        .ok (obj ++ "." ++ callee ++ "(" ++ argsStr ++ ")")
      else
        match callee.data with
        | [] =>
          .error (.typeError
            "Cannot read properties of undefined (reading \'toUpperCase\')")
        | c :: _ =>
          if c.toUpper == c && !isMethod then
            .ok ("new " ++ callee ++ "(" ++ argsStr ++ ")")
          else
            .ok (callee ++ "(" ++ argsStr ++ ")")
    | _ => .ok ""
termination_by structural a _ _ _ => a

/-- The argument-mapping loop. -/
def genExprList : Nat → Bool → Bool → List IRNode → PRes (List String)
  | 0, _, _, _ => .error .stackOverflow
  | _, _, _, [] => .ok []
  | fuel + 1, us, im, e :: rest => do
    let s ← generateExpression fuel us im e
    let restStrs ← genExprList fuel us im rest
    .ok (s :: restStrs)
termination_by structural a _ _ _ => a

end

/-- The node-emission loop of the `hasClass` branch of `generate`. -/
def genLines : Nat → Bool → List IRNode → PRes (List String)
  | 0, _, _ => .error .stackOverflow
  | _, _, [] => .ok []
  | fuel + 1, us, n :: rest => do
    let code ← generateNode fuel us false 0 n
    let restLines ← genLines fuel us rest
    .ok ((if code != "" then [code] else []) ++ restLines)

/-- The main-body emission loop of the wrapped branch: statements at indent
2 inside `public static void main`, numeric-literal returns skipped. -/
def genMainLines : Nat → Bool → List IRNode → PRes (List String)
  | 0, _, _ => .error .stackOverflow
  | _, _, [] => .ok []
  | fuel + 1, us, n :: rest => do
    let cur ←
      if shouldSkipReturnInMain true n then pure []
      else do
        let code ← generateNode fuel us true 2 n
        pure (if code != "" then [code] else [])
    let restLines ← genMainLines fuel us rest
    .ok (cur ++ restLines)

/-- The function-emission loop of the wrapped branch (a parsed `main`
becomes `public static void main(String[] args)`, other functions become
static methods). -/
def genFuncLines : Nat → Bool → List IRNode → PRes (List String)
  | 0, _, _ => .error .stackOverflow
  | _, _, [] => .ok []
  | fuel + 1, us, f :: rest => do
    let cur ←
      match f with
      | .funcDecl name _ _ body =>
        if name == "main" then do
          let inner ← genMainLines fuel us body
          pure ([getIndent 1 ++ "public static void main(String[] args) \x7b"] ++
            inner ++ [getIndent 1 ++ "\x7d"])
        else do
          let code ← generateFunction fuel us false 1 true f
          pure (if code != "" then [code] else [])
      | _ => pure []
    let restLines ← genFuncLines fuel us rest
    .ok (cur ++ restLines)

/-- `JavaGenerator.generate` (with the default class name). -/
def generate (ir : IRProgram) (className : String := "Main") : PRes String := do
  let us ← analyzeProgram ir
  let importLines := if us then ["import java.util.Scanner;", ""] else []
  let hasClass := ir.body.any IRNode.isClass
  if hasClass then do
    let bodyLines ← genLines 10000 us ir.body
    .ok (jsJoin "\n" (importLines ++ bodyLines))
  else do
    let functions := ir.body.filter IRNode.isFunction
    let mainContent := ir.body.filter fun n => !n.isFunction
    let scannerLines :=
      if us then [getIndent 1 ++ "static Scanner scanner = new Scanner(System.in);", ""]
      else []
    let funcLines ← genFuncLines 10000 us functions
    let hasMainFn := functions.any fun f =>
      match f with
      | .funcDecl name _ _ _ => name == "main"
      | _ => false
    let mainLines ←
      if !hasMainFn && mainContent.length > 0 then do
        let inner ← genMainLines 10000 us mainContent
        pure ([getIndent 1 ++ "public static void main(String[] args) \x7b"] ++
          inner ++ [getIndent 1 ++ "\x7d"])
      else pure []
    .ok (jsJoin "\n" (importLines ++
      ["public class " ++ className ++ " \x7b"] ++ scannerLines ++
      funcLines ++ mainLines ++ ["\x7d"]))

end JavaGenerator

/-! ## The orchestrator (`transpiler.ts`) -/

namespace Transpiler

/-- The `Language` union type. -/
inductive Language where
  | python
  | c
  | cpp
  | java
deriving Repr, DecidableEq

/-- `TranspileResult` — optional fields model the properties the source
only sets on success of the corresponding generator. -/
structure TranspileResult where
  success : Bool
  python : Option String
  c : Option String
  cpp : Option String
  java : Option String
  errors : List String
deriving Repr, DecidableEq

/-- `hasNonMainClasses` — a class trips the check exactly when it has
instance methods, members or a (parsed) constructor AND is not a pure
`Main` wrapper; the trailing `staticMethods` test in the source only
decides between `continue` and falling off the loop body, so it cannot
affect the returned value. -/
def hasNonMainClasses (ir : IRProgram) : Bool :=
  ir.body.any fun node =>
    match node with
    | .classDecl name members methods ctor mainMethod _ =>
      let hasOnlyMainMethod :=
        mainMethod.isSome && methods.length == 0 && members.length == 0
      (methods.length > 0 || members.length > 0 || ctor.isSome) &&
        (name != "Main" || !hasOnlyMainMethod)
    | _ => false

/-- The value an `ok` outcome stores in the result record. -/
def optOf : PRes String → Option String
  | .ok s => some s
  | .error _ => none

/-- The error-list entry a caught generator exception contributes. -/
def errOf (tag : String) : PRes String → List String
  | .error e => [tag ++ e.toStr]
  | .ok _ => []

/-- The generation phase of `transpile`, parameterized over the outcome of
each generator call: each target is attempted under its own `try`, the C
target is replaced by the sentinel comment when `hasClasses` holds (the C
generator is then not called at all), errors accumulate in source order,
and `success` is `errors.length === 0`. -/
def runTargets (hasClasses : Bool) (pyR cR cppR jvR : PRes String) : TranspileResult :=
  let cEff : PRes String := if hasClasses then .ok "// C does not support classes" else cR
  let errors :=
    errOf "Python generation error: " pyR ++
    errOf "C generation error: " cEff ++
    errOf "C++ generation error: " cppR ++
    errOf "Java generation error: " jvR
  { success := errors.length == 0
    python := optOf pyR
    c := optOf cEff
    cpp := optOf cppR
    java := optOf jvR
    errors := errors }

/-- The parse dispatch of `transpile` (only the C parser lacks an internal
`catch`, so only it can raise here). -/
def parseToIR (lang : Language) (code : String) : PRes IRProgram :=
  match lang with
  | .python => .ok (PythonParser.parse code)
  | .c => CParser.parse code
  | .cpp => .ok (CppParser.parse code)
  | .java => .ok (JavaParser.parse code)

/-- `Transpiler.transpile`. -/
def transpile (code : String) (lang : Language) : TranspileResult :=
  match parseToIR lang code with
  | .error e =>
    { success := false
      python := none
      c := none
      cpp := none
      java := none
      errors := ["Parse error: " ++ e.toStr] }
  | .ok ir =>
    runTargets (hasNonMainClasses ir)
      (PythonGenerator.generate ir)
      (CGenerator.generate ir)
      (CppGenerator.generate ir)
      (JavaGenerator.generate ir)

end Transpiler

/-! ## Claim-support definitions -/

/-- The spec-side per-class condition for the C sentinel, written from the
guard's observable behaviour: the class has members, instance methods or a
parsed constructor, and is not a `Main`-named pure main-wrapper (no members,
no instance methods, an attached static `main`). -/
def specTripsCSentinel : IRNode → Bool
  | .classDecl name members methods ctor mainMethod _ =>
    (!members.isEmpty || !methods.isEmpty || ctor.isSome) &&
    !(name == "Main" && mainMethod.isSome && methods.isEmpty && members.isEmpty)
  | _ => false

/-- The `staticMethods` field of a class node (`none` on other nodes). -/
def staticMethodsProj : IRNode → Option (List IRNode)
  | .classDecl _ _ _ _ _ sm => sm
  | _ => none

/-- No two consecutive backslashes anywhere in the list. -/
def noDoubleBackslash : List Char → Bool
  | '\\' :: '\\' :: _ => false
  | _ :: rest => noDoubleBackslash rest
  | [] => true

/-! ## Helper lemmas -/

/-- Monadic bind on a successful `Except` runs the continuation. -/
theorem ebind_ok {α β ε : Type} (a : α) (k : α → Except ε β) :
    Except.bind (.ok a) k = k a := rfl

/-- Monadic bind on a failed `Except` propagates the error. -/
theorem ebind_err {α β ε : Type} (e : ε) (k : α → Except ε β) :
    Except.bind (.error e) k = .error e := rfl

/-- `pure` in the `Except` monad is `ok`. -/
theorem epure {α ε : Type} (a : α) : (pure a : Except ε α) = .ok a := rfl

/-- C2: for every transpile call whose parse succeeds, the generation phase is
`runTargets`; each emitter failure contributes exactly its own tagged entry to
the error list while every other target's output is still stored, and
`success` holds iff the error list is empty. -/
theorem C2_emission_error_isolation :
    (∀ (code : String) (lang : Transpiler.Language) (ir : IRProgram),
      Transpiler.parseToIR lang code = .ok ir →
      Transpiler.transpile code lang =
        Transpiler.runTargets (Transpiler.hasNonMainClasses ir)
          (PythonGenerator.generate ir) (CGenerator.generate ir)
          (CppGenerator.generate ir) (JavaGenerator.generate ir)) ∧
    (∀ (hc : Bool) (pyR cR cppR jvR : PRes String),
      (Transpiler.runTargets hc pyR cR cppR jvR).python = Transpiler.optOf pyR ∧
      (Transpiler.runTargets hc pyR cR cppR jvR).cpp = Transpiler.optOf cppR ∧
      (Transpiler.runTargets hc pyR cR cppR jvR).java = Transpiler.optOf jvR ∧
      (Transpiler.runTargets hc pyR cR cppR jvR).c =
        Transpiler.optOf (if hc then .ok "// C does not support classes" else cR) ∧
      (Transpiler.runTargets hc pyR cR cppR jvR).errors =
        Transpiler.errOf "Python generation error: " pyR ++
        Transpiler.errOf "C generation error: "
          (if hc then .ok "// C does not support classes" else cR) ++
        Transpiler.errOf "C++ generation error: " cppR ++
        Transpiler.errOf "Java generation error: " jvR ∧
      ((Transpiler.runTargets hc pyR cR cppR jvR).success = true ↔
        (Transpiler.runTargets hc pyR cR cppR jvR).errors = [])) ∧
    (∀ (tag : String) (e : JSErr), Transpiler.errOf tag (.error e) = [tag ++ e.toStr]) ∧
    (∀ (tag s : String), Transpiler.errOf tag (.ok s) = []) := by
  refine ⟨?_, ?_, ?_, ?_⟩
  · intro code lang ir h
    simp [Transpiler.transpile, h]
  · intro hc pyR cR cppR jvR
    refine ⟨rfl, rfl, rfl, rfl, rfl, ?_⟩
    simp only [Transpiler.runTargets]
    generalize (Transpiler.errOf "Python generation error: " pyR ++
        Transpiler.errOf "C generation error: "
          (if hc then .ok "// C does not support classes" else cR) ++
        Transpiler.errOf "C++ generation error: " cppR ++
        Transpiler.errOf "Java generation error: " jvR) = es
    cases es <;> simp
  · intro tag e; rfl
  · intro tag s; rfl

/-- C2 witness: a concrete failing C emission alongside successful targets. -/
theorem C2_witness :
    (Transpiler.transpile "x = 1" .python =
      Transpiler.runTargets false
        (PythonGenerator.generate ⟨[.varDecl "x" .int
            (some (.literal (.num (.int 1)) .int false)) false], []⟩)
        (CGenerator.generate ⟨[.varDecl "x" .int
            (some (.literal (.num (.int 1)) .int false)) false], []⟩)
        (CppGenerator.generate ⟨[.varDecl "x" .int
            (some (.literal (.num (.int 1)) .int false)) false], []⟩)
        (JavaGenerator.generate ⟨[.varDecl "x" .int
            (some (.literal (.num (.int 1)) .int false)) false], []⟩)) ∧
    (Transpiler.runTargets false (.ok "A") (.error (.typeError "boom")) (.ok "B")
        (.ok "C")).errors = ["C generation error: TypeError: boom"] ∧
    (Transpiler.runTargets false (.ok "A") (.error (.typeError "boom")) (.ok "B")
        (.ok "C")).success = false ∧
    (Transpiler.runTargets false (.ok "A") (.error (.typeError "boom")) (.ok "B")
        (.ok "C")).python = some "A" := by
  have h1 := C2_emission_error_isolation.1 "x = 1" .python
    (PythonParser.parse "x = 1")
  have h2 := C2_emission_error_isolation.2.1 false (.ok "A")
    (.error (.typeError "boom")) (.ok "B") (.ok "C")
  refine ⟨?_, ?_, ?_, ?_⟩
  · have hp : PythonParser.parse "x = 1" = (⟨[.varDecl "x" .int
        (some (.literal (.num (.int 1)) .int false)) false], []⟩ : IRProgram) := by
      with_unfolding_all rfl
    have := h1 rfl
    rw [hp] at this
    exact this.trans (by with_unfolding_all rfl)
  · exact (h2.2.2.2.2.1).trans (by with_unfolding_all rfl)
  · have he : (Transpiler.runTargets false (.ok "A") (.error (.typeError "boom"))
        (.ok "B") (.ok "C")).errors = ["C generation error: TypeError: boom"] :=
      (h2.2.2.2.2.1).trans (by with_unfolding_all rfl)
    have hs := h2.2.2.2.2.2
    rw [he] at hs
    cases hb : (Transpiler.runTargets false (.ok "A") (.error (.typeError "boom"))
        (.ok "B") (.ok "C")).success
    · rfl
    · rw [hb] at hs
      exact absurd (hs.mp rfl) (by simp)
  · exact h2.1

/-- C3: the C parser normalizes classic counted loops: an `i <= B` bound
yields `rangeEnd = B + 1` and `rangeStep = 1` for a `++` update, an `i < B`
bound with `i += S` yields `rangeEnd = B` and `rangeStep = S`, and the
structural init/condition/update fields remain populated alongside the range
fields, as the concrete parse of `for (int i = 2; i <= 7; i++)` shows. -/
theorem C3_range_normalization :
    (∀ (i j k : String) (dt : DataType) (A B S : IRNode) (c : Bool),
      CParser.extractRange (some (.varDecl i dt (some A) c))
          (some (.binaryOp "<=" (.identifier j) B))
          (some (.unaryOp "++_post" (.identifier k))) =
        (some i, some A,
         some (.binaryOp "+" B (.literal (.num (.int 1)) .int false)),
         some (.literal (.num (.int 1)) .int false)) ∧
      CParser.extractRange (some (.varDecl i dt (some A) c))
          (some (.binaryOp "<=" (.identifier j) B))
          (some (.unaryOp "++" (.identifier k))) =
        (some i, some A,
         some (.binaryOp "+" B (.literal (.num (.int 1)) .int false)),
         some (.literal (.num (.int 1)) .int false)) ∧
      CParser.extractRange (some (.varDecl i dt (some A) c))
          (some (.binaryOp "<" (.identifier j) B))
          (some (.binaryOp "+=" (.identifier k) S)) =
        (some i, some A, some B, some S)) ∧
    CParser.parse "int main() \x7b\n    for (int i = 2; i <= 7; i++) \x7b\n    \x7d\n\x7d" =
      .ok ⟨[.funcDecl "main" [] .int
        [.forStmt
          (some (.varDecl "i" .int (some (.literal (.num (.int 2)) .int false)) false))
          (some (.binaryOp "<=" (.identifier "i") (.literal (.num (.int 7)) .int false)))
          (some (.unaryOp "++_post" (.identifier "i")))
          (some "i")
          (some (.literal (.num (.int 2)) .int false))
          (some (.binaryOp "+" (.literal (.num (.int 7)) .int false)
            (.literal (.num (.int 1)) .int false)))
          (some (.literal (.num (.int 1)) .int false))
          []]], []⟩ ∧
    CParser.parse "int main() \x7b\n    for (int i = 0; i < 10; i += 2) \x7b\n    \x7d\n\x7d" =
      .ok ⟨[.funcDecl "main" [] .int
        [.forStmt
          (some (.varDecl "i" .int (some (.literal (.num (.int 0)) .int false)) false))
          (some (.binaryOp "<" (.identifier "i") (.literal (.num (.int 10)) .int false)))
          (some (.binaryOp "+=" (.identifier "i") (.literal (.num (.int 2)) .int false)))
          (some "i")
          (some (.literal (.num (.int 0)) .int false))
          (some (.literal (.num (.int 10)) .int false))
          (some (.literal (.num (.int 2)) .int false))
          []]], []⟩ := by
  refine ⟨fun i j k dt A B S c => ⟨rfl, rfl, rfl⟩, by with_unfolding_all rfl,
    by with_unfolding_all rfl⟩

/-- C5: on the scripting scenario the C output does contain
`printf("hi\n");` and `int x = 10;`, but the directive rebuilt for the
int-typed variable `x` is `%s`, not the claimed `%d`: the emitter infers
`auto` for every identifier argument and falls back to `%s`. -/
theorem C5_scripting_scenario :
    (Transpiler.transpile "print(\'hi\')\nx = 10\nif x > 5:\n    print(x)" .python).c =
      some "#include <stdio.h>\n\nint main() \x7b\n    printf(\"hi\\n\");\n    int x = 10;\n    if (x > 5) \x7b\n        printf(\"%s\\n\", x);\n    \x7d\n    return 0;\n\x7d" ∧
    jsIncludes "#include <stdio.h>\n\nint main() \x7b\n    printf(\"hi\\n\");\n    int x = 10;\n    if (x > 5) \x7b\n        printf(\"%s\\n\", x);\n    \x7d\n    return 0;\n\x7d" "printf(\"hi\\n\");" = true ∧
    jsIncludes "#include <stdio.h>\n\nint main() \x7b\n    printf(\"hi\\n\");\n    int x = 10;\n    if (x > 5) \x7b\n        printf(\"%s\\n\", x);\n    \x7d\n    return 0;\n\x7d" "int x = 10;" = true ∧
    jsIncludes "#include <stdio.h>\n\nint main() \x7b\n    printf(\"hi\\n\");\n    int x = 10;\n    if (x > 5) \x7b\n        printf(\"%s\\n\", x);\n    \x7d\n    return 0;\n\x7d" "printf(\"%s\\n\", x);" = true ∧
    jsIncludes "#include <stdio.h>\n\nint main() \x7b\n    printf(\"hi\\n\");\n    int x = 10;\n    if (x > 5) \x7b\n        printf(\"%s\\n\", x);\n    \x7d\n    return 0;\n\x7d" "%d" = false ∧
    CGenerator.inferType (.identifier "x") = .auto := by
  refine ⟨by with_unfolding_all rfl, by with_unfolding_all rfl, by with_unfolding_all rfl,
    by with_unfolding_all rfl, by with_unfolding_all rfl, rfl⟩

/-- The per-node test inside `hasNonMainClasses` agrees with the spec-side
condition `specTripsCSentinel`. -/
theorem specTripsCSentinel_equiv (n : IRNode) :
    (match n with
     | IRNode.classDecl name members methods ctor mainMethod _ =>
       let hasOnlyMainMethod :=
         mainMethod.isSome && methods.length == 0 && members.length == 0
       (decide (methods.length > 0) || decide (members.length > 0) || ctor.isSome) &&
         (name != "Main" || !hasOnlyMainMethod)
     | _ => false) = specTripsCSentinel n := by
  cases n with
  | classDecl name members methods ctor mainMethod staticMethods =>
    cases hM : name == "Main" <;> cases members <;> cases methods <;>
      cases ctor <;> cases mainMethod <;> simp_all [specTripsCSentinel, beq_iff_eq, bne]
  | _ => rfl

/-- C1: the C-sentinel guard fires exactly for classes satisfying
`specTripsCSentinel` (members, instance methods or a parsed constructor, and
not a `Main`-named pure main-wrapper); when it fires, the C output field is
exactly the sentinel text, the error list receives no C entry, and success
still tracks emptiness of the error list. -/
theorem C1_sentinel_guard :
    (∀ ir : IRProgram, Transpiler.hasNonMainClasses ir = true ↔
      ∃ n ∈ ir.body, specTripsCSentinel n = true) ∧
    (∀ (code : String) (lang : Transpiler.Language) (ir : IRProgram),
      Transpiler.parseToIR lang code = .ok ir →
      Transpiler.hasNonMainClasses ir = true →
      (Transpiler.transpile code lang).c = some "// C does not support classes" ∧
      (Transpiler.transpile code lang).errors =
        Transpiler.errOf "Python generation error: " (PythonGenerator.generate ir) ++
        Transpiler.errOf "C++ generation error: " (CppGenerator.generate ir) ++
        Transpiler.errOf "Java generation error: " (JavaGenerator.generate ir) ∧
      ((Transpiler.transpile code lang).success = true ↔
        (Transpiler.transpile code lang).errors = [])) := by
  constructor
  · intro ir
    simp only [Transpiler.hasNonMainClasses, List.any_eq_true]
    constructor
    · rintro ⟨n, hn, hp⟩
      exact ⟨n, hn, (specTripsCSentinel_equiv n) ▸ hp⟩
    · rintro ⟨n, hn, hp⟩
      exact ⟨n, hn, (specTripsCSentinel_equiv n).symm ▸ hp⟩
  · intro code lang ir hp hc
    have ht : Transpiler.transpile code lang =
        Transpiler.runTargets true
          (PythonGenerator.generate ir) (CGenerator.generate ir)
          (CppGenerator.generate ir) (JavaGenerator.generate ir) := by
      rw [show Transpiler.transpile code lang =
        Transpiler.runTargets (Transpiler.hasNonMainClasses ir)
          (PythonGenerator.generate ir) (CGenerator.generate ir)
          (CppGenerator.generate ir) (JavaGenerator.generate ir) by
          simp [Transpiler.transpile, hp], hc]
    rw [ht]
    refine ⟨rfl, by simp [Transpiler.runTargets, Transpiler.errOf], ?_⟩
    simp only [Transpiler.runTargets]
    generalize (Transpiler.errOf "Python generation error: "
        (PythonGenerator.generate ir) ++
        Transpiler.errOf "C generation error: "
          (if true = true then .ok "// C does not support classes"
           else CGenerator.generate ir) ++
        Transpiler.errOf "C++ generation error: " (CppGenerator.generate ir) ++
        Transpiler.errOf "Java generation error: " (JavaGenerator.generate ir)) = es
    cases es <;> simp

/-- C1 witness: a Python class with an instance method makes the C output the
sentinel comment. -/
theorem C1_witness :
    (Transpiler.transpile "class P:\n    def tick(self):\n        self.n = 1"
      .python).c = some "// C does not support classes" := by
  have h := (C1_sentinel_guard.2 "class P:\n    def tick(self):\n        self.n = 1"
    .python (PythonParser.parse "class P:\n    def tick(self):\n        self.n = 1")
    rfl (by with_unfolding_all rfl)).1
  exact h

/-- C1 counterexample: a `Main` class whose body has a constructor (so a
non-trivial class in the claim's sense) together with a static `main` still
escapes the sentinel: the C output is an ordinary `int main`. -/
theorem C1_counterexample :
    ((JavaParser.parse "public class Main \x7b\n    Main() \x7b\n    \x7d\n    public static void main(String[] args) \x7b\n    \x7d\n\x7d").body.any
      (fun n => match n with
        | .classDecl _ _ _ ctor _ _ => ctor.isSome
        | _ => false) = true) ∧
    (Transpiler.transpile "public class Main \x7b\n    Main() \x7b\n    \x7d\n    public static void main(String[] args) \x7b\n    \x7d\n\x7d" .java).c =
      some "int main() \x7b\n    return 0;\n\x7d" ∧
    (Transpiler.transpile "public class Main \x7b\n    Main() \x7b\n    \x7d\n    public static void main(String[] args) \x7b\n    \x7d\n\x7d" .java).c ≠
      some "// C does not support classes" := by
  refine ⟨by with_unfolding_all rfl, by with_unfolding_all rfl, ?_⟩
  intro h
  rw [show (Transpiler.transpile "public class Main \x7b\n    Main() \x7b\n    \x7d\n    public static void main(String[] args) \x7b\n    \x7d\n\x7d" .java).c =
      some "int main() \x7b\n    return 0;\n\x7d" from by with_unfolding_all rfl] at h
  simp at h

/-- C10: a class trips the C sentinel iff it has members, instance methods or
a parsed constructor and is not a `Main`-named pure main-wrapper; the
`constructor` read is the parser-set own property (absent for a class parsed
without one), so an entry-point-only shell escapes the sentinel regardless of
its name, as the `Foo` shell shows. -/
theorem C10_class_guard :
    (∀ ir : IRProgram, Transpiler.hasNonMainClasses ir = false ↔
      ∀ n ∈ ir.body, specTripsCSentinel n = false) ∧
    (JavaParser.parse "public class Foo \x7b\n    public static void main(String[] args) \x7b\n        int x = 1;\n    \x7d\n\x7d" =
      ⟨[.classDecl "Foo" [] [] none
        (some (.funcDecl "main" [.varDecl "args" .string none false] .void
          [.varDecl "x" .int (some (.literal (.num (.int 1)) .int false)) false]))
        none], []⟩) ∧
    (Transpiler.transpile "public class Foo \x7b\n    public static void main(String[] args) \x7b\n        int x = 1;\n    \x7d\n\x7d" .java).c =
      some "int main() \x7b\n    int x = 1;\n    return 0;\n\x7d" := by
  refine ⟨?_, by with_unfolding_all rfl, by with_unfolding_all rfl⟩
  intro ir
  simp only [Transpiler.hasNonMainClasses, List.any_eq_false]
  constructor
  · intro h n hn
    have := h n hn
    rw [← specTripsCSentinel_equiv n]
    simpa using this
  · intro h n hn
    have := h n hn
    rw [← specTripsCSentinel_equiv n] at this
    simpa using this

/-- C10 witness: the guard characterization applied to the parsed `Foo`
shell — no class in its body trips the sentinel condition. -/
theorem C10_witness :
    Transpiler.hasNonMainClasses
      ⟨[.classDecl "Foo" [] [] none
        (some (.funcDecl "main" [.varDecl "args" .string none false] .void
          [.varDecl "x" .int (some (.literal (.num (.int 1)) .int false)) false]))
        none], []⟩ = false := by
  exact (C10_class_guard.1 _).mpr (by decide)

/-- C10 counterexample: a class named `Foo` (not `Main`) whose body is an
entry-point-only shell does not force the sentinel: the C output is an
ordinary `int main`, contradicting the claim that every non-`Main` class
yields the sentinel. -/
theorem C10_counterexample :
    ((JavaParser.parse "public class Foo \x7b\n    public static void main(String[] args) \x7b\n        int x = 1;\n    \x7d\n\x7d").body.any
      (fun n => match n with
        | .classDecl name _ _ _ _ _ => name != "Main"
        | _ => false) = true) ∧
    (Transpiler.transpile "public class Foo \x7b\n    public static void main(String[] args) \x7b\n        int x = 1;\n    \x7d\n\x7d" .java).c ≠
      some "// C does not support classes" := by
  refine ⟨by with_unfolding_all rfl, ?_⟩
  intro h
  rw [show (Transpiler.transpile "public class Foo \x7b\n    public static void main(String[] args) \x7b\n        int x = 1;\n    \x7d\n\x7d" .java).c =
      some "int main() \x7b\n    int x = 1;\n    return 0;\n\x7d" from by with_unfolding_all rfl] at h
  simp at h

/-- Appending strings is associative. -/
theorem strAppend_assoc (a b c : String) : a ++ b ++ c = a ++ (b ++ c) := by
  cases a with
  | mk l1 =>
    cases b with
    | mk l2 =>
      cases c with
      | mk l3 =>
        show String.mk (l1 ++ l2 ++ l3) = String.mk (l1 ++ (l2 ++ l3))
        rw [List.append_assoc]

/-- C6: the JV emitter joins print parts with an explicit `" "` separating
literal, so the wrapped CPP `cout` chain becomes
`System.out.println("x=" + " " + x);` (not `"x=" + x`); in general a print
node's emitted statement is the parts joined by `+ " " +`. -/
theorem C6_println_join :
    ((Transpiler.transpile "int main() \x7b\n    cout << \"x=\" << x << endl;\n\x7d" .cpp).java =
      some "public class Main \x7b\n    public static void main(String[] args) \x7b\n        System.out.println(\"x=\" + \" \" + x);\n    \x7d\n\x7d") ∧
    jsIncludes "public class Main \x7b\n    public static void main(String[] args) \x7b\n        System.out.println(\"x=\" + \" \" + x);\n    \x7d\n\x7d" "System.out.println(\"x=\" + x);" = false ∧
    (∀ (fuel : Nat) (us im : Bool) (indent : Nat) (args : List IRNode)
        (parts : List String),
      args ≠ [] →
      JavaGenerator.genPrintParts fuel us im args = .ok parts →
      JavaGenerator.generatePrint (fuel + 1) us im indent (.print args true) =
        .ok (JavaGenerator.getIndent indent ++ "System.out.println(" ++
          jsJoin " + \" \" + " parts ++ ");")) := by
  refine ⟨by with_unfolding_all rfl, by with_unfolding_all rfl, ?_⟩
  intro fuel us im indent args parts hne hp
  have hstr : ∀ a j : String,
      a ++ "System.out." ++ "println" ++ "(" ++ j ++ ");" =
      a ++ "System.out.println(" ++ j ++ ");" := by
    intro a j
    rw [strAppend_assoc a "System.out." "println",
      strAppend_assoc a ("System.out." ++ "println") "("]
    rfl
  cases args with
  | nil => exact absurd rfl hne
  | cons a rest =>
    simp only [JavaGenerator.generatePrint, hp, ebind_ok, bind, Except.bind]
    norm_num
    rw [hstr]

/-- C6 witness: the join formula applied to the print node parsed from the
wrapped `cout` chain yields the `"x=" + " " + x` concatenation. -/
theorem C6_witness :
    JavaGenerator.generatePrint 6 false false 2
      (.print [.literal (.str "x=") .string false, .identifier "x"] true) =
      .ok "        System.out.println(\"x=\" + \" \" + x);" := by
  have h := C6_println_join.2.2 5 false false 2
    [.literal (.str "x=") .string false, .identifier "x"] ["\"x=\"", "x"]
    (by simp) (by with_unfolding_all rfl)
  exact h.trans (by with_unfolding_all rfl)

/-- C6 counterexample: the exact claim input — a bare `cout` statement —
transpiles to a JV output with no `println` at all (the CPP parser's
top-level loop skips statements outside functions, yielding an empty
program). -/
theorem C6_counterexample :
    (Transpiler.transpile "cout << \"x=\" << x << endl;" .cpp).java =
      some "public class Main \x7b\n\x7d" ∧
    jsIncludes "public class Main \x7b\n\x7d" "System.out.println" = false ∧
    CppParser.parse "cout << \"x=\" << x << endl;" = ⟨[], []⟩ := by
  refine ⟨by with_unfolding_all rfl, by with_unfolding_all rfl,
    by with_unfolding_all rfl⟩

/-- C7: the JV parser routes a `static main` to the class's `mainMethod` and
keeps it out of the method list, but every other method — static or not —
lands in the regular `methods` list, and the parser never attaches a
`staticMethods` list at all: `parseClass` always builds the class node with
that field absent. -/
theorem C7_static_main_handling :
    (∀ (fuel : Nat) (ts : List Tok) (node : IRNode) (rest : List Tok),
      JavaParser.parseClass fuel ts = .ok (node, rest) →
      staticMethodsProj node = none) ∧
    (JavaParser.parse "public class Calc \x7b\n    public static void main(String[] args) \x7b\n    \x7d\n    public static int twice(int n) \x7b\n        return n + n;\n    \x7d\n    public int inc(int n) \x7b\n        return n + 1;\n    \x7d\n\x7d" =
      ⟨[.classDecl "Calc" []
        [.funcDecl "twice" [.varDecl "n" .int none false] .int
          [.returnStmt (some (.binaryOp "+" (.identifier "n") (.identifier "n")))],
         .funcDecl "inc" [.varDecl "n" .int none false] .int
          [.returnStmt (some (.binaryOp "+" (.identifier "n")
            (.literal (.num (.int 1)) .int false)))]]
        none
        (some (.funcDecl "main" [.varDecl "args" .string none false] .void []))
        none], []⟩) := by
  constructor
  · intro fuel ts node rest h
    match fuel with
    | 0 => simp [JavaParser.parseClass] at h
    | fuel + 1 =>
      simp only [JavaParser.parseClass, bind, Except.bind] at h
      split at h
      · simp at h
      · split at h
        · simp at h
        · simp only [Except.ok.injEq, Prod.mk.injEq] at h
          rw [← h.1]
          rfl
  · with_unfolding_all rfl

/-- C7 witness: the always-absent `staticMethods` fact applied to a concrete
successful `parseClass` run. -/
theorem C7_witness :
    JavaParser.parseClass 20 [⟨"KEYWORD", "class"⟩, ⟨"IDENTIFIER", "A"⟩,
      ⟨"PUNCTUATION", "\x7b"⟩, ⟨"PUNCTUATION", "\x7d"⟩] =
      .ok (.classDecl "A" [] [] none none none, []) ∧
    staticMethodsProj (.classDecl "A" [] [] none none none) = none := by
  refine ⟨by with_unfolding_all rfl, ?_⟩
  exact C7_static_main_handling.1 20 [⟨"KEYWORD", "class"⟩, ⟨"IDENTIFIER", "A"⟩,
    ⟨"PUNCTUATION", "\x7b"⟩, ⟨"PUNCTUATION", "\x7d"⟩]
    (.classDecl "A" [] [] none none none) [] (by with_unfolding_all rfl)

/-- C7 counterexample: in the parsed `Main` class with a static `main` and a
static `helper`, the helper sits in the regular method list and the
`staticMethods` field is absent — there is no separate static-method list. -/
theorem C7_counterexample :
    JavaParser.parse "public class Main \x7b\n    public static void main(String[] args) \x7b\n    \x7d\n    public static int helper() \x7b\n        return 1;\n    \x7d\n\x7d" =
      ⟨[.classDecl "Main" []
        [.funcDecl "helper" [] .int
          [.returnStmt (some (.literal (.num (.int 1)) .int false))]]
        none
        (some (.funcDecl "main" [.varDecl "args" .string none false] .void []))
        none], []⟩ ∧
    staticMethodsProj (.classDecl "Main" []
        [.funcDecl "helper" [] .int
          [.returnStmt (some (.literal (.num (.int 1)) .int false))]]
        none
        (some (.funcDecl "main" [.varDecl "args" .string none false] .void []))
        none) = none := by
  exact ⟨by with_unfolding_all rfl, rfl⟩

/-- A single `replace(/\\n/g, '')` pass leaves no `\n` escape behind,
provided the input has no doubled backslash. -/
theorem stripNL_no_nl (t : List Char) :
    noDoubleBackslash t = true → listContainsSub ['\\', 'n'] (stripNL t) = false := by
  induction t using stripNL.induct with
  | case1 rest ih =>
    intro h
    rw [stripNL.eq_1]
    exact ih h
  | case2 c rest hne ih =>
    intro h
    have hside : ∀ tail, c = '\\' → rest = '\\' :: tail → False := by
      intro tail hc hr
      subst hc; subst hr
      simp [noDoubleBackslash] at h
    have hrest : noDoubleBackslash rest = true := by
      rw [noDoubleBackslash.eq_2 c rest hside] at h
      exact h
    have hstart : listStartsWith (c :: stripNL rest) ['\\', 'n'] = false := by
      by_cases hc : c = '\\'
      · subst hc
        cases rest with
        | nil => rfl
        | cons r rs =>
          have hr_n : r ≠ 'n' := fun hrn => hne rs rfl (by rw [hrn])
          have hr_b : r ≠ '\\' := fun hrb => hside rs rfl (by rw [hrb])
          rw [stripNL.eq_2 r rs (fun rest' hrb _ => hr_b hrb)]
          simp [listStartsWith, hr_n]
      · simp [listStartsWith, hc]
    rw [stripNL.eq_2 c rest hne]
    rw [show listContainsSub ['\\', 'n'] (c :: stripNL rest) =
      (listStartsWith (c :: stripNL rest) ['\\', 'n'] ||
        listContainsSub ['\\', 'n'] (stripNL rest)) from rfl]
    rw [hstart, ih hrest]
    rfl
  | case3 =>
    intro _
    rfl

/-- C4: the printf format decomposes into interleaved literal segments and
value arguments with the newline flag set by the `\n` escape, as the
concrete `printf("x=%d y=%s\n", a, b)` example shows; literal segments are
cleaned by a single `\n`-escape removal pass, which is guaranteed to leave
no `\n` only when the format has no doubled backslash. -/
theorem C4_printf_decomposition :
    (CParser.parse "int main() \x7b\n    printf(\"x=%d y=%s\\n\", a, b);\n\x7d" =
      .ok ⟨[.funcDecl "main" [] .int
        [.print [.literal (.str "x=") .string false, .identifier "a",
                 .literal (.str " y=") .string false, .identifier "b"] true]], []⟩) ∧
    (∀ t : List Char, noDoubleBackslash t = true →
      listContainsSub ['\\', 'n'] (stripNL t) = false) := by
  exact ⟨by with_unfolding_all rfl, stripNL_no_nl⟩

/-- C4 witness: the decomposition facts applied to a concrete format
segment containing a `\n` escape and no doubled backslash. -/
theorem C4_witness :
    listContainsSub ['\\', 'n'] (stripNL ['x', '=', '\\', 'n']) = false :=
  C4_printf_decomposition.2 ['x', '=', '\\', 'n'] (by decide)

/-- C4 counterexample: in `printf("%d\\nn", q)` the single cleaning pass
recreates a literal segment that is exactly the two-character `\n` escape,
so the Print node keeps a literal segment consisting of `\n`. -/
theorem C4_counterexample :
    CParser.parse "int main() \x7b\n    printf(\"%d\\\\nn\", q);\n\x7d" =
      .ok ⟨[.funcDecl "main" [] .int
        [.print [.identifier "q", .literal (.str "\\n") .string false] true]], []⟩ ∧
    jsEndsWith "\\n" "\\n" = true := by
  exact ⟨by with_unfolding_all rfl, by decide⟩

/-- Dropping a prefix cannot lengthen a list. -/
theorem length_dropWhile_le (p : Char → Bool) (l : List Char) :
    (List.dropWhile p l).length ≤ l.length := by
  induction l with
  | nil => simp
  | cons a t ih =>
    rw [List.dropWhile_cons]
    split <;> simp <;> omega

/-- The remainder after a string-literal scan is no longer than the input. -/
theorem stringScan_len (l : List Char) :
    (CParser.stringScan l).2.length ≤ l.length := by
  induction l using CParser.stringScan.induct <;> simp_all [CParser.stringScan] <;> omega

/-- The remainder after a char-literal scan is no longer than the input. -/
theorem charScan_len (l : List Char) :
    (CParser.charScan l).2.length ≤ l.length := by
  induction l using CParser.charScan.induct <;> simp_all [CParser.charScan] <;> omega

/-- The remainder after a block-comment scan is no longer than the input. -/
theorem multiCommentScan_len (l : List Char) :
    (CParser.multiCommentScan l).2.length ≤ l.length := by
  induction l using CParser.multiCommentScan.induct <;>
    simp_all [CParser.multiCommentScan] <;> first | omega | (split <;> simp_all <;> omega)

/-- A successful number munch consumes at least one character. -/
theorem numMunch_len (l : List Char) (n r : List Char)
    (h : CParser.numMunch l = some (n, r)) : r.length < l.length := by
  cases l with
  | nil => simp [CParser.numMunch] at h
  | cons c cs =>
    simp only [CParser.numMunch] at h
    split at h
    · next hd =>
      simp only [Option.some.injEq, Prod.mk.injEq] at h
      have hr1 : (List.dropWhile Char.isDigit (c :: cs)).length ≤ cs.length := by
        rw [List.dropWhile_cons]
        simp only [hd, if_true]
        exact length_dropWhile_le _ _
      rw [← h.2]
      have htail : ∀ x : List Char, x.tail.length ≤ x.length := by
        intro x; cases x <;> simp
      repeat' split
      all_goals
        have t1 := htail (List.dropWhile Char.isDigit (c :: cs))
        have t2 := length_dropWhile_le Char.isDigit
          ((List.dropWhile Char.isDigit (c :: cs)).tail)
        have t3 := length_dropWhile_le Char.isDigit
          (List.dropWhile Char.isDigit (c :: cs))
        have t4 := htail (List.dropWhile Char.isDigit
          ((List.dropWhile Char.isDigit (c :: cs)).tail))
        have t5 := htail (List.dropWhile Char.isDigit
          (List.dropWhile Char.isDigit (c :: cs)))
        simp only [List.length_cons]
        omega
    · simp at h

/-- A successful word munch consumes at least one character. -/
theorem wordMunch_len (l : List Char) (n r : List Char)
    (h : CParser.wordMunch l = some (n, r)) : r.length < l.length := by
  cases l with
  | nil => simp [CParser.wordMunch] at h
  | cons c cs =>
    simp only [CParser.wordMunch] at h
    split at h
    · next hw =>
      simp only [Option.some.injEq, Prod.mk.injEq] at h
      rw [← h.2, List.dropWhile_cons]
      have : isWordChar c = true := by
        simp [isWordChar, hw]
      simp only [this, if_true]
      exact lt_of_le_of_lt (length_dropWhile_le _ _) (by simp)
    · simp at h

/-- A successful operator munch consumes two characters. -/
theorem opMunch_len (l : List Char) (op : String) (r : List Char)
    (h : CParser.opMunch l = some (op, r)) : r.length < l.length := by
  match l with
  | [] => simp [CParser.opMunch] at h
  | [a] => simp [CParser.opMunch] at h
  | a :: b :: rest =>
    simp only [CParser.opMunch] at h
    split at h
    · simp only [Option.some.injEq, Prod.mk.injEq] at h
      rw [← h.2]
      simp
      omega
    · simp at h

/-- The C lexer is fuel-insensitive beyond the input length: every
iteration consumes at least one character, so any fuel larger than the
input length yields the same token stream (in particular the scan always
terminates within `length + 1` iterations). -/
theorem tokenizeAux_congr :
    ∀ (N : Nat) (l : List Char), l.length ≤ N → ∀ (f1 f2 : Nat),
      l.length < f1 → l.length < f2 →
      CParser.tokenizeAux f1 l = CParser.tokenizeAux f2 l := by
  intro N
  induction N with
  | zero =>
    intro l hl f1 f2 h1 h2
    match l, hl with
    | [], _ =>
      match f1, f2, h1, h2 with
      | _ + 1, _ + 1, _, _ => rfl
  | succ N ih =>
    intro l hl f1 f2 h1 h2
    match l with
    | [] =>
      match f1, f2, h1, h2 with
      | _ + 1, _ + 1, _, _ => rfl
    | c :: cs =>
      match f1, f2, h1, h2 with
      | k1 + 1, k2 + 1, h1, h2 =>
        have hcs : cs.length ≤ N := by
          simp only [List.length_cons] at hl
          omega
        have hk1 : cs.length < k1 := by
          simp only [List.length_cons] at h1
          omega
        have hk2 : cs.length < k2 := by
          simp only [List.length_cons] at h2
          omega
        simp only [CParser.tokenizeAux]
        by_cases hsp : isJsSpace c = true
        · simp only [if_pos hsp]
          exact ih cs hcs k1 k2 hk1 hk2
        · simp only [if_neg hsp]
          by_cases hhash : (c == '#') = true
          · simp only [if_pos hhash]
            have hcne : (c != '\n') = true := by
              have : c = '#' := by simpa using hhash
              simp [this]
            have hrest : (List.dropWhile (fun x => x != '\n') (c :: cs)).length ≤
                cs.length := by
              rw [List.dropWhile_cons]
              simp only [hcne, if_true]
              exact length_dropWhile_le _ _
            exact congrArg (List.cons _)
              (ih _ (le_trans hrest hcs) k1 k2
                (lt_of_le_of_lt hrest hk1) (lt_of_le_of_lt hrest hk2))
          · simp only [if_neg hhash]
            by_cases hsl : listStartsWith (c :: cs) ['/', '/'] = true
            · simp only [if_pos hsl]
              have hrest : (List.dropWhile (fun x => x != '\n') (cs.drop 1)).length ≤
                  cs.length := by
                refine le_trans (length_dropWhile_le _ _) ?_
                simp [List.length_drop]
              exact congrArg (List.cons _)
                (ih _ (le_trans hrest hcs) k1 k2
                  (lt_of_le_of_lt hrest hk1) (lt_of_le_of_lt hrest hk2))
            · simp only [if_neg hsl]
              by_cases hml : listStartsWith (c :: cs) ['/', '*'] = true
              · simp only [if_pos hml]
                have hrest : (CParser.multiCommentScan (cs.drop 1)).2.length ≤
                    cs.length := by
                  refine le_trans (multiCommentScan_len _) ?_
                  simp [List.length_drop]
                exact congrArg (List.cons _)
                  (ih _ (le_trans hrest hcs) k1 k2
                    (lt_of_le_of_lt hrest hk1) (lt_of_le_of_lt hrest hk2))
              · simp only [if_neg hml]
                by_cases hq : (c == '"') = true
                · simp only [if_pos hq]
                  have hrest := stringScan_len cs
                  exact congrArg (List.cons _)
                    (ih _ (le_trans hrest hcs) k1 k2
                      (lt_of_le_of_lt hrest hk1) (lt_of_le_of_lt hrest hk2))
                · simp only [if_neg hq]
                  by_cases hc : (c == '\'') = true
                  · simp only [if_pos hc]
                    have hrest := charScan_len cs
                    exact congrArg (List.cons _)
                      (ih _ (le_trans hrest hcs) k1 k2
                        (lt_of_le_of_lt hrest hk1) (lt_of_le_of_lt hrest hk2))
                  · simp only [if_neg hc]
                    cases hnm : CParser.numMunch (c :: cs) with
                    | some pr =>
                      obtain ⟨num, rest⟩ := pr
                      simp only [hnm]
                      have hrest : rest.length ≤ cs.length := by
                        have := numMunch_len (c :: cs) num rest hnm
                        simp only [List.length_cons] at this
                        omega
                      exact congrArg (List.cons _)
                        (ih _ (le_trans hrest hcs) k1 k2
                          (lt_of_le_of_lt hrest hk1) (lt_of_le_of_lt hrest hk2))
                    | none =>
                      simp only [hnm]
                      cases hwm : CParser.wordMunch (c :: cs) with
                      | some pr =>
                        obtain ⟨word, rest⟩ := pr
                        simp only [hwm]
                        have hrest : rest.length ≤ cs.length := by
                          have := wordMunch_len (c :: cs) word rest hwm
                          simp only [List.length_cons] at this
                          omega
                        exact congrArg (List.cons _)
                          (ih _ (le_trans hrest hcs) k1 k2
                            (lt_of_le_of_lt hrest hk1) (lt_of_le_of_lt hrest hk2))
                      | none =>
                        simp only [hwm]
                        cases hom : CParser.opMunch (c :: cs) with
                        | some pr =>
                          obtain ⟨op, rest⟩ := pr
                          simp only [hom]
                          have hrest : rest.length ≤ cs.length := by
                            have := opMunch_len (c :: cs) op rest hom
                            simp only [List.length_cons] at this
                            omega
                          exact congrArg (List.cons _)
                            (ih _ (le_trans hrest hcs) k1 k2
                              (lt_of_le_of_lt hrest hk1) (lt_of_le_of_lt hrest hk2))
                        | none =>
                          simp only [hom]
                          exact congrArg (List.cons _) (ih cs hcs k1 k2 hk1 hk2)

/-- C8: an escaping C-parser exception is caught only by the orchestrator,
which reports a `Parse error` with no output fields; the PY/CPP/JV parsers
each catch internally and return either their full parse result or the empty
program — never the partially accumulated body. -/
theorem C8_parser_failure_behavior :
    (∀ (code : String) (e : JSErr), CParser.parse code = .error e →
      Transpiler.transpile code .c =
        ⟨false, none, none, none, none, ["Parse error: " ++ e.toStr]⟩) ∧
    (∀ code : String,
      (∃ p, PythonParser.parseCore code = .ok p ∧ PythonParser.parse code = p) ∨
      PythonParser.parse code = ⟨[], []⟩) ∧
    (∀ code : String,
      (∃ p, CppParser.parseCore code = .ok p ∧ CppParser.parse code = p) ∨
      CppParser.parse code = ⟨[], []⟩) ∧
    (∀ code : String,
      (∃ p, JavaParser.parseCore code = .ok p ∧ JavaParser.parse code = p) ∨
      JavaParser.parse code = ⟨[], []⟩) := by
  refine ⟨?_, ?_, ?_, ?_⟩
  · intro code e h
    simp [Transpiler.transpile, Transpiler.parseToIR, h]
  · intro code
    cases hp : PythonParser.parseCore code with
    | ok p => exact .inl ⟨p, rfl, by simp [PythonParser.parse, hp]⟩
    | error er => exact .inr (by simp [PythonParser.parse, hp])
  · intro code
    cases hp : CppParser.parseCore code with
    | ok p => exact .inl ⟨p, rfl, by simp [CppParser.parse, hp]⟩
    | error er => exact .inr (by simp [CppParser.parse, hp])
  · intro code
    cases hp : JavaParser.parseCore code with
    | ok p => exact .inl ⟨p, rfl, by simp [JavaParser.parse, hp]⟩
    | error er => exact .inr (by simp [JavaParser.parse, hp])

/-- C8 witness: the truncated C source makes the C parser throw a
`TypeError`, and the orchestrator turns it into a `Parse error` result with
no outputs. -/
theorem C8_witness :
    Transpiler.transpile "int main() \x7b if (x)" .c =
      ⟨false, none, none, none, none,
       ["Parse error: TypeError: Cannot read properties of null (reading \'type\')"]⟩ := by
  have h := C8_parser_failure_behavior.1 "int main() \x7b if (x)"
    (.typeError "Cannot read properties of null (reading \'type\')")
    (by with_unfolding_all rfl)
  exact h.trans (by with_unfolding_all rfl)

/-- C8 counterexample: the C front-end throws a `TypeError` to its caller on
a truncated input — it does not return a `Program`. -/
theorem C8_counterexample :
    CParser.parse "int main() \x7b if (x)" =
      .error (.typeError "Cannot read properties of null (reading \'type\')") := by
  with_unfolding_all rfl

/-- C9: the C lexer emits a one-character `PUNCTUATION` token for any byte
that no other character class accepts, as both the step lemma and the `@`
input show, and its scan is fuel-insensitive beyond the input length — every
iteration consumes at least one character, so tokenization always
terminates; the PY lexer instead drops unrecognized bytes silently — `$`
produces no token at all. -/
theorem C9_lexer_fallback :
    (∀ (l : List Char) (f1 f2 : Nat), l.length < f1 → l.length < f2 →
      CParser.tokenizeAux f1 l = CParser.tokenizeAux f2 l) ∧
    (∀ (c : Char) (cs : List Char) (fuel : Nat),
      isJsSpace c = false → (c == '#') = false →
      listStartsWith (c :: cs) ['/', '/'] = false →
      listStartsWith (c :: cs) ['/', '*'] = false →
      (c == '"') = false → (c == '\'') = false →
      CParser.numMunch (c :: cs) = none →
      CParser.wordMunch (c :: cs) = none →
      CParser.opMunch (c :: cs) = none →
      CParser.tokenizeAux (fuel + 1) (c :: cs) =
        ⟨"PUNCTUATION", c.toString⟩ :: CParser.tokenizeAux fuel cs) ∧
    (CParser.tokenize "@" = [⟨"PUNCTUATION", "@"⟩]) ∧
    (PythonParser.tokenize "a = 1 $ 2" =
      [⟨"IDENTIFIER", "a", 0, 0, 0⟩, ⟨"OPERATOR", "=", 0, 2, 0⟩,
       ⟨"NUMBER", "1", 0, 4, 0⟩, ⟨"NUMBER", "2", 0, 8, 0⟩,
       ⟨"NEWLINE", "\n", 0, 9, 0⟩]) := by
  refine ⟨fun l f1 f2 h1 h2 => tokenizeAux_congr l.length l le_rfl f1 f2 h1 h2,
    ?_, by with_unfolding_all rfl, by with_unfolding_all rfl⟩
  intro c cs fuel h1 h2 h3 h4 h5 h6 h7 h8 h9
  simp only [CParser.tokenizeAux, h1, h2, h3, h4, h5, h6, h7, h8, h9]
  simp

/-- C9 witness: the fallback step applied to the unrecognized byte `@`. -/
theorem C9_witness :
    CParser.tokenizeAux 2 ['@'] = [⟨"PUNCTUATION", "@"⟩] ∧
    CParser.tokenizeAux 5 ['@'] = CParser.tokenizeAux 9 ['@'] := by
  constructor
  · have h := C9_lexer_fallback.2.1 '@' [] 1 (by decide) (by decide)
      (by with_unfolding_all rfl) (by with_unfolding_all rfl) (by decide) (by decide)
      (by with_unfolding_all rfl) (by with_unfolding_all rfl) (by with_unfolding_all rfl)
    exact h.trans (by with_unfolding_all rfl)
  · exact C9_lexer_fallback.1 ['@'] 5 9 (by decide) (by decide)

/-- C9 counterexample: the PY lexer silently drops the unrecognized byte
`@` — the only token produced is the synthetic end-of-line `NEWLINE`, and no
`PUNCTUATION` token appears. -/
theorem C9_counterexample :
    PythonParser.tokenize "@" = [⟨"NEWLINE", "\n", 0, 1, 0⟩] ∧
    (PythonParser.tokenize "@").all (fun t => t.ttype != "PUNCTUATION") = true := by
  exact ⟨by with_unfolding_all rfl, by with_unfolding_all rfl⟩
